import Mathlib

/-!
# SparkFun SPI serial flash driver: command protocol and busy-wait state machine

A shallow embedding of `src/SparkFun_SPI_SerialFlash.{h,cpp}`.

Conventions of the embedding

* The driver object is the structure `SFE_SPI_FLASH`; every member function becomes a
  function taking the object and returning the object after the call (together with the
  C++ return value).
* The SPI bus, the chip-select pin, `delay()` and the debug stream are external to the
  driver.  They are modelled inside the object as
  - `resp`/`pos`: a scripted bus, `resp i` is the byte shifted in by the `i`-th call of
    `transfer` (reduced mod 256), `pos` counts the transfers made so far;
  - `trace`: the sequence of bus and chip-select events, oldest first;
  - `millis`: the milliseconds slept through `delay()`;
  - `debugOut`: the arguments of the calls made on the debug stream.
* Values of type `uint8_t`, `uint16_t`, `uint32_t` are natural numbers; conversions and
  arithmetic that can leave the range are reduced explicitly (`% 256`, `% 65536`,
  `% 4294967296`).  Function arguments are taken to be in the range of their C type.
* Arrays passed by pointer (`uint8_t *dataArray`) are functions from index to byte.
-/

/-! ## Enumerations of the header -/

/-- Flash command opcodes (`sfe_flash_commands_e`). -/
@[simp] def SFE_FLASH_COMMAND_WRITE_STATUS_REG : Nat := 0x01
@[simp] def SFE_FLASH_COMMAND_PAGE_PROGRAM : Nat := 0x02
@[simp] def SFE_FLASH_COMMAND_READ_DATA : Nat := 0x03
@[simp] def SFE_FLASH_COMMAND_WRITE_DISABLE : Nat := 0x04
@[simp] def SFE_FLASH_COMMAND_READ_STATUS_25XX : Nat := 0x05
@[simp] def SFE_FLASH_COMMAND_WRITE_ENABLE : Nat := 0x06
@[simp] def SFE_FLASH_COMMAND_ENABLE_WRITE_STATUS_REG : Nat := 0x50
@[simp] def SFE_FLASH_COMMAND_ENABLE_SO_DURING_AAI : Nat := 0x70
@[simp] def SFE_FLASH_COMMAND_DISABLE_SO_DURING_AAI : Nat := 0x80
@[simp] def SFE_FLASH_COMMAND_READ_JEDEC_ID : Nat := 0x9F
@[simp] def SFE_FLASH_COMMAND_AAI_WORD_PROGRAM : Nat := 0xAD
@[simp] def SFE_FLASH_COMMAND_CHIP_ERASE : Nat := 0xC7
@[simp] def SFE_FLASH_COMMAND_READ_STATUS_45XX : Nat := 0xD7

/-- Flash family (`sfe_flash_family_e`). -/
inductive sfe_flash_family_e where
  | SFE_FLASH_FAMILY_25XX
  | SFE_FLASH_FAMILY_45XX
  deriving DecidableEq, Repr

/-- Flash manufacturer (`sfe_flash_manufacturer_e`). -/
inductive sfe_flash_manufacturer_e where
  | SFE_FLASH_MFG_INFINEON
  | SFE_FLASH_MFG_ADESTO
  | SFE_FLASH_MFG_MICRON
  | SFE_FLASH_MFG_ISSI
  | SFE_FLASH_MFG_MICROCHIP
  | SFE_FLASH_MFG_MACRONIX
  | SFE_FLASH_MFG_GIGADEVICE
  | SFE_FLASH_MFG_WINBOND
  | SFE_FLASH_MFG_UNKNOWN
  deriving DecidableEq, Repr

/-- Numeric value of a manufacturer enumerator, as assigned in the header. -/
def sfe_flash_manufacturer_e.code : sfe_flash_manufacturer_e → Nat
  | .SFE_FLASH_MFG_INFINEON => 0x01
  | .SFE_FLASH_MFG_ADESTO => 0x1F
  | .SFE_FLASH_MFG_MICRON => 0x20
  | .SFE_FLASH_MFG_ISSI => 0x9D
  | .SFE_FLASH_MFG_MICROCHIP => 0xBF
  | .SFE_FLASH_MFG_MACRONIX => 0xC2
  | .SFE_FLASH_MFG_GIGADEVICE => 0xC8
  | .SFE_FLASH_MFG_WINBOND => 0xEF
  | .SFE_FLASH_MFG_UNKNOWN => 0xFF

/-- Read and write result codes (`sfe_flash_read_write_result_e`). -/
inductive sfe_flash_read_write_result_e where
  | SFE_FLASH_READ_WRITE_FAIL_DEVICE_BUSY
  | SFE_FLASH_READ_WRITE_SUCCESS
  | SFE_FLASH_READ_WRITE_ZERO_SIZE
  deriving DecidableEq, Repr

/-- Numeric value of a result code: 0 and 1 are explicit in the header, the third
enumerator takes the next value. -/
def sfe_flash_read_write_result_e.code : sfe_flash_read_write_result_e → Nat
  | .SFE_FLASH_READ_WRITE_FAIL_DEVICE_BUSY => 0
  | .SFE_FLASH_READ_WRITE_SUCCESS => 1
  | .SFE_FLASH_READ_WRITE_ZERO_SIZE => 2

/-- Conversion of a result code to `bool` by the rule of the language for an enumeration
value: zero converts to false, every other value to true. -/
def sfe_flash_read_write_result_e.toBool (r : sfe_flash_read_write_result_e) : Bool :=
  r.code != 0

open sfe_flash_family_e sfe_flash_manufacturer_e sfe_flash_read_write_result_e

/-! ## The environment: bus events and debug output -/

/-- One observable action of the driver on the SPI port or on the chip-select pin. -/
inductive Event where
  /-- The call `_spiPort->beginTransaction(...)`. -/
  | beginTransaction
  /-- The call `_spiPort->endTransaction()`. -/
  | endTransaction
  /-- The call `digitalWrite(_PIN_FLASH_CS, LOW)`. -/
  | csLow
  /-- The call `digitalWrite(_PIN_FLASH_CS, HIGH)`. -/
  | csHigh
  /-- The call `_spiPort->transfer(out)` together with the byte it returned. -/
  | transfer (out : Nat) (inp : Nat)
  deriving DecidableEq, Repr

/-- One call on the debug stream: what was printed and whether it was `println`. -/
inductive Printed where
  /-- A flash-string literal, `print(F(...))`. -/
  | text (msg : String) (newline : Bool)
  /-- A number in base 16, `print(value, HEX)`. -/
  | hex (value : Nat) (newline : Bool)
  /-- A duration in seconds with three decimals, given here in milliseconds. -/
  | seconds (ms : Nat) (newline : Bool)
  deriving DecidableEq, Repr

/-- The driver object together with the scripted environment it talks to. -/
structure SFE_SPI_FLASH where
  /-- The member `_flashFamily`. -/
  flashFamily : sfe_flash_family_e
  /-- The member `_printDebug`. -/
  printDebug : Bool
  /-- Scripted bus: the byte returned by the `i`-th transfer. -/
  resp : Nat → Nat
  /-- The number of transfers made so far. -/
  pos : Nat
  /-- Bus and chip-select events so far, oldest first. -/
  trace : List Event
  /-- Milliseconds slept through `delay()`. -/
  millis : Nat
  /-- Calls made on the debug stream so far, oldest first. -/
  debugOut : List Printed

namespace SFE_SPI_FLASH

/-- The call `_spiPort->beginTransaction(SPISettings(...))`. -/
def beginTransaction (s : SFE_SPI_FLASH) : SFE_SPI_FLASH :=
  { s with trace := s.trace ++ [Event.beginTransaction] }

/-- The call `_spiPort->endTransaction()`. -/
def endTransaction (s : SFE_SPI_FLASH) : SFE_SPI_FLASH :=
  { s with trace := s.trace ++ [Event.endTransaction] }

/-- The call `digitalWrite(_PIN_FLASH_CS, LOW)`. -/
def csLow (s : SFE_SPI_FLASH) : SFE_SPI_FLASH :=
  { s with trace := s.trace ++ [Event.csLow] }

/-- The call `digitalWrite(_PIN_FLASH_CS, HIGH)`. -/
def csHigh (s : SFE_SPI_FLASH) : SFE_SPI_FLASH :=
  { s with trace := s.trace ++ [Event.csHigh] }

/-- The call `_spiPort->transfer(out)`: the argument is converted to `uint8_t`, the byte
shifted in is the next byte of the script. -/
def transfer (out : Nat) (s : SFE_SPI_FLASH) : Nat × SFE_SPI_FLASH :=
  (s.resp s.pos % 256,
   { s with pos := s.pos + 1,
            trace := s.trace ++ [Event.transfer (out % 256) (s.resp s.pos % 256)] })

/-- A transfer whose returned byte is discarded. -/
def send (out : Nat) (s : SFE_SPI_FLASH) : SFE_SPI_FLASH :=
  (transfer out s).2

/-- The call `delay(ms)`. -/
def delay (ms : Nat) (s : SFE_SPI_FLASH) : SFE_SPI_FLASH :=
  { s with millis := s.millis + ms }

/-- A call on the debug stream. -/
def debug (p : Printed) (s : SFE_SPI_FLASH) : SFE_SPI_FLASH :=
  { s with debugOut := s.debugOut ++ [p] }

/-! ## Status register access -/

/-- Returns status byte 0 in 25xx types of flash (`getStatus1`). -/
def getStatus1 (s : SFE_SPI_FLASH) : Nat × SFE_SPI_FLASH :=
  let s := beginTransaction s
  let s := csLow s
  let s := send SFE_FLASH_COMMAND_READ_STATUS_25XX s
  let r := transfer 0xFF s
  let response := r.1
  let s := csHigh r.2
  let s := endTransaction s
  (response, s)

/-- Returns the two status bytes found in 45xx types of flash (`getStatus16`). -/
def getStatus16 (s : SFE_SPI_FLASH) : Nat × SFE_SPI_FLASH :=
  let response := 0
  let s := beginTransaction s
  let s := csLow s
  let s := send SFE_FLASH_COMMAND_READ_STATUS_45XX s
  let r := transfer 0xFF s
  let response := response ||| r.1
  let response := (response <<< 8) % 65536
  let r := transfer 0xFF r.2
  let response := response ||| r.1
  let s := csHigh r.2
  let s := endTransaction s
  (response, s)

/-- Returns true if the device busy bit is set (`isBusy`); the sense of the bit is
reversed between the two families. -/
def isBusy (s : SFE_SPI_FLASH) : Bool × SFE_SPI_FLASH :=
  if s.flashFamily = SFE_FLASH_FAMILY_25XX then
    let r := getStatus1 s
    let status := r.1
    if status &&& (1 <<< 0) ≠ 0 then (true, r.2)
    else (false, r.2)
  else
    let r := getStatus16 s
    let status := r.1
    if status &&& (1 <<< 15) ≠ 0 then (false, r.2)
    else (true, r.2)

/-- Wait for the busy flag to clear (`blockingBusyWait`): `while (isBusy() == true)
{ if (maxWait-- == 0) return (false); delay(1); } return (true);` -/
def blockingBusyWait : Nat → SFE_SPI_FLASH → Bool × SFE_SPI_FLASH
  | 0, s =>
    let r := isBusy s
    if r.1 = true then (false, r.2) else (true, r.2)
  | maxWait + 1, s =>
    let r := isBusy s
    if r.1 = true then blockingBusyWait maxWait (delay 1 r.2) else (true, r.2)

/-! ## Status register writes and write disable -/

/-- Set the write status register in 25xx types of flash (`setWriteStatusReg1`). -/
def setWriteStatusReg1 (statusByte : Nat) (s : SFE_SPI_FLASH) :
    sfe_flash_read_write_result_e × SFE_SPI_FLASH :=
  let w := blockingBusyWait 100 s
  if w.1 = false then (SFE_FLASH_READ_WRITE_FAIL_DEVICE_BUSY, w.2)
  else
    let s := beginTransaction w.2
    let s := csLow s
    let s := send SFE_FLASH_COMMAND_ENABLE_WRITE_STATUS_REG s
    let s := csHigh s
    let s := csLow s
    let s := send SFE_FLASH_COMMAND_WRITE_STATUS_REG s
    let s := send statusByte s
    let s := csHigh s
    let s := endTransaction s
    (SFE_FLASH_READ_WRITE_SUCCESS, s)

/-- Set the two write status registers (`setWriteStatusReg16`). -/
def setWriteStatusReg16 (statusWord : Nat) (s : SFE_SPI_FLASH) :
    sfe_flash_read_write_result_e × SFE_SPI_FLASH :=
  let w := blockingBusyWait 100 s
  if w.1 = false then (SFE_FLASH_READ_WRITE_FAIL_DEVICE_BUSY, w.2)
  else
    let s := beginTransaction w.2
    let s := csLow s
    let s := send SFE_FLASH_COMMAND_ENABLE_WRITE_STATUS_REG s
    let s := csHigh s
    let s := csLow s
    let s := send SFE_FLASH_COMMAND_WRITE_STATUS_REG s
    let s := send (statusWord >>> 8) s
    let s := send (statusWord &&& 0xFF) s
    let s := csHigh s
    let s := endTransaction s
    (SFE_FLASH_READ_WRITE_SUCCESS, s)

/-- Disable writing with the write-disable command (`disableWrite`). -/
def disableWrite (s : SFE_SPI_FLASH) : sfe_flash_read_write_result_e × SFE_SPI_FLASH :=
  let w := blockingBusyWait 100 s
  if w.1 = false then (SFE_FLASH_READ_WRITE_FAIL_DEVICE_BUSY, w.2)
  else
    let s := beginTransaction w.2
    let s := csLow s
    let s := send SFE_FLASH_COMMAND_WRITE_DISABLE s
    let s := csHigh s
    let s := endTransaction s
    (SFE_FLASH_READ_WRITE_SUCCESS, s)

/-! ## Erase -/

/-- The inner loop of the erase wait: `for (int x = 0 ; x < 50 ; x++) { delay(10);
if (isBusy() == false) break; }`, with `n` iterations left. -/
def eraseInner : Nat → SFE_SPI_FLASH → SFE_SPI_FLASH
  | 0, s => s
  | n + 1, s =>
    let s := delay 10 s
    let r := isBusy s
    if r.1 = false then r.2 else eraseInner n r.2

/-- The outer loop of the erase wait, `while (isBusy() == true) { ... }`.  The source
loop has no bound; `fuel` bounds the number of outer iterations and `none` means that
the fuel ran out while the device was still busy. -/
def eraseWait : Nat → SFE_SPI_FLASH → Option SFE_SPI_FLASH
  | 0, _ => none
  | fuel + 1, s =>
    let r := isBusy s
    if r.1 = true then
      let s := if r.2.printDebug = true then debug (Printed.text "." false) r.2 else r.2
      let s := eraseInner 50 s
      eraseWait fuel s
    else some r.2

/-- Send the command to do a full erase of the entire flash space (`erase`).  The
result is `none` when the unbounded wait after the command does not end within `fuel`
outer iterations. -/
def erase (fuel : Nat) (s : SFE_SPI_FLASH) :
    Option (sfe_flash_read_write_result_e × SFE_SPI_FLASH) :=
  let w := blockingBusyWait 1000 s
  if w.1 = false then some (SFE_FLASH_READ_WRITE_FAIL_DEVICE_BUSY, w.2)
  else
    let s := beginTransaction w.2
    let s := csLow s
    let s := send SFE_FLASH_COMMAND_WRITE_ENABLE s
    let s := csHigh s
    let s := csLow s
    let s := send SFE_FLASH_COMMAND_CHIP_ERASE s
    let s := csHigh s
    let s := endTransaction s
    let s := if s.printDebug = true then
        debug (Printed.text "SFE_SPI_FLASH::erase: Erasing entire space" true) s else s
    let startTime := s.millis
    match eraseWait fuel s with
    | none => none
    | some s =>
      let stopTime := s.millis
      let s := if s.printDebug = true then
          debug (Printed.seconds (stopTime - startTime) true)
            (debug (Printed.text "SFE_SPI_FLASH::erase: Time taken: " false)
              (debug (Printed.text "\nSFE_SPI_FLASH::erase: Erase complete" true) s))
        else s
      some (SFE_FLASH_READ_WRITE_SUCCESS, s)

/-! ## Reads -/

/-- Reads a byte from a given location (`readByte`).  The argument `result` is the
result slot: `none` for a null pointer, `some r` for a slot holding `r`.  Returned are
the byte, the slot after the call and the object. -/
def readByte (address : Nat) (result : Option sfe_flash_read_write_result_e)
    (s : SFE_SPI_FLASH) : Nat × Option sfe_flash_read_write_result_e × SFE_SPI_FLASH :=
  let w := blockingBusyWait 100 s
  if w.1 = false then
    let result := if result ≠ none then some SFE_FLASH_READ_WRITE_FAIL_DEVICE_BUSY else result
    (0xBB, result, w.2)
  else
    let s := beginTransaction w.2
    let s := csLow s
    let s := send SFE_FLASH_COMMAND_READ_DATA s
    let s := send (address >>> 16) s
    let s := send (address >>> 8) s
    let s := send (address &&& 0xFF) s
    let r := transfer 0xFF s
    let response := r.1
    let s := csHigh r.2
    let s := endTransaction s
    let result := if result ≠ none then some SFE_FLASH_READ_WRITE_SUCCESS else result
    (response, result, s)

/-- The loop `for (uint16_t x = 0 ; x < dataSize ; x++) dataArray[x] =
_spiPort->transfer(0xFF);` of `readBlock`. -/
def readBlockLoop (dataSize : Nat) (dataArray : Nat → Nat) (s : SFE_SPI_FLASH) :
    (Nat → Nat) × SFE_SPI_FLASH :=
  (List.range dataSize).foldl
    (fun (st : (Nat → Nat) × SFE_SPI_FLASH) x =>
      let r := transfer 0xFF st.2
      (Function.update st.1 x r.1, r.2))
    (dataArray, s)

/-- Reads a block of bytes into a given array, from a given location (`readBlock`).
Returned are the result code, the array after the call and the object. -/
def readBlock (address : Nat) (dataArray : Nat → Nat) (dataSize : Nat)
    (s : SFE_SPI_FLASH) : sfe_flash_read_write_result_e × (Nat → Nat) × SFE_SPI_FLASH :=
  if dataSize = 0 then (SFE_FLASH_READ_WRITE_ZERO_SIZE, dataArray, s)
  else
    let w := blockingBusyWait 100 s
    if w.1 = false then (SFE_FLASH_READ_WRITE_FAIL_DEVICE_BUSY, dataArray, w.2)
    else
      let s := beginTransaction w.2
      let s := csLow s
      let s := send SFE_FLASH_COMMAND_READ_DATA s
      let s := send (address >>> 16) s
      let s := send (address >>> 8) s
      let s := send (address &&& 0xFF) s
      let r := readBlockLoop dataSize dataArray s
      let s := csHigh r.2
      let s := endTransaction s
      (SFE_FLASH_READ_WRITE_SUCCESS, r.1, s)

/-! ## Writes -/

/-- Writes a byte to a specific location (`writeByte`). -/
def writeByte (address : Nat) (thingToWrite : Nat) (s : SFE_SPI_FLASH) :
    sfe_flash_read_write_result_e × SFE_SPI_FLASH :=
  let w := blockingBusyWait 100 s
  if w.1 = false then (SFE_FLASH_READ_WRITE_FAIL_DEVICE_BUSY, w.2)
  else
    let s := beginTransaction w.2
    let s := csLow s
    let s := send SFE_FLASH_COMMAND_WRITE_ENABLE s
    let s := csHigh s
    let s := csLow s
    let s := send SFE_FLASH_COMMAND_PAGE_PROGRAM s
    let s := send (address >>> 16) s
    let s := send (address >>> 8) s
    let s := send (address &&& 0xFF) s
    let s := send thingToWrite s
    let s := csHigh s
    let s := endTransaction s
    (SFE_FLASH_READ_WRITE_SUCCESS, s)

/-- The loop `for (uint16_t x = 0 ; x < dataSize ; x++) _spiPort->transfer(dataArray[x]);`
of `writeBlock`. -/
def writeBlockLoop (dataSize : Nat) (dataArray : Nat → Nat) (s : SFE_SPI_FLASH) :
    SFE_SPI_FLASH :=
  (List.range dataSize).foldl (fun st x => send (dataArray x) st) s

/-- Write bytes to a specific location (`writeBlock`). -/
def writeBlock (address : Nat) (dataArray : Nat → Nat) (dataSize : Nat)
    (s : SFE_SPI_FLASH) : sfe_flash_read_write_result_e × SFE_SPI_FLASH :=
  if dataSize = 0 then (SFE_FLASH_READ_WRITE_ZERO_SIZE, s)
  else
    let w := blockingBusyWait 100 s
    if w.1 = false then (SFE_FLASH_READ_WRITE_FAIL_DEVICE_BUSY, w.2)
    else
      let s := beginTransaction w.2
      let s := csLow s
      let s := send SFE_FLASH_COMMAND_WRITE_ENABLE s
      let s := csHigh s
      let s := csLow s
      let s := send SFE_FLASH_COMMAND_PAGE_PROGRAM s
      let s := send (address >>> 16) s
      let s := send (address >>> 8) s
      let s := send (address &&& 0xFF) s
      let s := writeBlockLoop dataSize dataArray s
      let s := csHigh s
      let s := endTransaction s
      (SFE_FLASH_READ_WRITE_SUCCESS, s)

/-- The loop `for (x = 2 ; x < (dataSize - 1); x += 2) { ... }` of `writeBlockAAI`,
entered with the current value of `x`; it returns the value of `x` on exit.  The first
argument bounds the number of iterations (the caller passes `dataSize`, which is never
reached since `x` grows by two in each round). -/
def writeBlockAAILoop (dataArray : Nat → Nat) (dataSize : Nat) :
    Nat → Nat → SFE_SPI_FLASH → Nat × SFE_SPI_FLASH
  | 0, x, s => (x, s)
  | fuel + 1, x, s =>
    if x < dataSize - 1 then
      let s := csLow s
      let s := send SFE_FLASH_COMMAND_AAI_WORD_PROGRAM s
      let s := send (dataArray x) s
      let s := send (dataArray (x + 1)) s
      let s := csHigh s
      writeBlockAAILoop dataArray dataSize fuel ((x + 2) % 65536) s
    else (x, s)

/-- Write bytes to a specific location using Auto Address Increment
(`writeBlockAAI`). -/
def writeBlockAAI (address : Nat) (dataArray : Nat → Nat) (dataSize : Nat)
    (s : SFE_SPI_FLASH) : sfe_flash_read_write_result_e × SFE_SPI_FLASH :=
  if dataSize = 0 then (SFE_FLASH_READ_WRITE_ZERO_SIZE, s)
  else if dataSize = 1 then writeByte address (dataArray 0) s
  else
    let w := blockingBusyWait 100 s
    if w.1 = false then (SFE_FLASH_READ_WRITE_FAIL_DEVICE_BUSY, w.2)
    else
      let s := beginTransaction w.2
      let s := csLow s
      let s := send SFE_FLASH_COMMAND_DISABLE_SO_DURING_AAI s
      let s := csHigh s
      let s := csLow s
      let s := send SFE_FLASH_COMMAND_WRITE_ENABLE s
      let s := csHigh s
      let s := csLow s
      let s := send SFE_FLASH_COMMAND_AAI_WORD_PROGRAM s
      let s := send (address >>> 16) s
      let s := send (address >>> 8) s
      let s := send (address &&& 0xFF) s
      let s := send (dataArray 0) s
      let s := send (dataArray 1) s
      let s := csHigh s
      let l := writeBlockAAILoop dataArray dataSize dataSize 2 s
      let x := l.1
      let s := csLow l.2
      let s := send SFE_FLASH_COMMAND_WRITE_DISABLE s
      let s := csHigh s
      let s := endTransaction s
      if x = dataSize - 1 then
        writeByte ((address + dataSize - 1) % 4294967296) (dataArray (dataSize - 1)) s
      else (SFE_FLASH_READ_WRITE_SUCCESS, s)

/-! ## Identification -/

/-- The loop `for (uint8_t x = 0 ; x < 3 ; x++) { jedecID <<= 8; jedecID |=
_spiPort->transfer(0xFF); }` of `getJEDEC`, with `n` iterations left. -/
def getJEDECLoop : Nat → Nat → SFE_SPI_FLASH → Nat × SFE_SPI_FLASH
  | 0, jedecID, s => (jedecID, s)
  | n + 1, jedecID, s =>
    let jedecID := (jedecID <<< 8) % 4294967296
    let r := transfer 0xFF s
    let jedecID := jedecID ||| r.1
    getJEDECLoop n jedecID r.2

/-- Returns the three manufacturer ID and device ID bytes (`getJEDEC`). -/
def getJEDEC (s : SFE_SPI_FLASH) : Nat × SFE_SPI_FLASH :=
  let jedecID := 0
  let s := beginTransaction s
  let s := csLow s
  let s := send SFE_FLASH_COMMAND_READ_JEDEC_ID s
  let l := getJEDECLoop 3 jedecID s
  let s := csHigh l.2
  let s := endTransaction s
  (l.1, s)

/-- The debug output shared by the three identification readers: a label, a leading
zero for each of the given thresholds the value is below, then the value in base 16. -/
def debugHex (label : String) (thresholds : List Nat) (value : Nat) (s : SFE_SPI_FLASH) :
    SFE_SPI_FLASH :=
  let s := debug (Printed.text label false) s
  let s := thresholds.foldl
    (fun st t => if value < t then debug (Printed.text "0" false) st else st) s
  debug (Printed.hex value true) s

/-- Reads the 8-bit manufacturer ID as an enumerator (`getManufacturerID`). -/
def getManufacturerID (s : SFE_SPI_FLASH) : sfe_flash_manufacturer_e × SFE_SPI_FLASH :=
  let j := getJEDEC s
  let manuID := (j.1 >>> 16) % 256
  let s := if j.2.printDebug = true then
      debugHex "SFE_SPI_FLASH::getManufacturerID: Manu ID: 0x" [0x10] manuID j.2
    else j.2
  if manuID = SFE_FLASH_MFG_INFINEON.code then (SFE_FLASH_MFG_INFINEON, s)
  else if manuID = SFE_FLASH_MFG_ADESTO.code then (SFE_FLASH_MFG_ADESTO, s)
  else if manuID = SFE_FLASH_MFG_MICRON.code then (SFE_FLASH_MFG_MICRON, s)
  else if manuID = SFE_FLASH_MFG_ISSI.code then (SFE_FLASH_MFG_ISSI, s)
  else if manuID = SFE_FLASH_MFG_MICROCHIP.code then (SFE_FLASH_MFG_MICROCHIP, s)
  else if manuID = SFE_FLASH_MFG_MACRONIX.code then (SFE_FLASH_MFG_MACRONIX, s)
  else if manuID = SFE_FLASH_MFG_GIGADEVICE.code then (SFE_FLASH_MFG_GIGADEVICE, s)
  else if manuID = SFE_FLASH_MFG_WINBOND.code then (SFE_FLASH_MFG_WINBOND, s)
  else (SFE_FLASH_MFG_UNKNOWN, s)

/-- Reads the 8-bit manufacturer ID (`getRawManufacturerID`). -/
def getRawManufacturerID (s : SFE_SPI_FLASH) : Nat × SFE_SPI_FLASH :=
  let j := getJEDEC s
  let manuID := (j.1 >>> 16) % 256
  let s := if j.2.printDebug = true then
      debugHex "SFE_SPI_FLASH::getRawManufacturerID: Manu ID: 0x" [0x10] manuID j.2
    else j.2
  (manuID, s)

/-- Reads the device ID (`getDeviceID`). -/
def getDeviceID (s : SFE_SPI_FLASH) : Nat × SFE_SPI_FLASH :=
  let j := getJEDEC s
  let deviceID := (j.1 &&& 0xFFFF) % 65536
  let s := if j.2.printDebug = true then
      debugHex "SFE_SPI_FLASH::getDeviceID: Device ID: 0x" [0x1000, 0x100, 0x10] deviceID j.2
    else j.2
  (deviceID, s)

/-- Check that the flash is responding correctly; for a known manufacturer set the
device type where it can be told from the device ID (`isConnected`). -/
def isConnected (s : SFE_SPI_FLASH) : Bool × SFE_SPI_FLASH :=
  let m := getManufacturerID s
  let mfgID := m.1
  let s := m.2
  if mfgID = SFE_FLASH_MFG_WINBOND then (true, s)
  else if mfgID = SFE_FLASH_MFG_ADESTO then
    let d := getDeviceID s
    let familyCode := d.1 &&& 0xFF00
    let familyCode := familyCode >>> 13
    let s := d.2
    let s :=
      if familyCode = 0b100 then { s with flashFamily := SFE_FLASH_FAMILY_25XX }
      else if familyCode = 0b001 then { s with flashFamily := SFE_FLASH_FAMILY_45XX }
      else s
    (true, s)
  else if mfgID = SFE_FLASH_MFG_MACRONIX then (true, s)
  else if mfgID = SFE_FLASH_MFG_GIGADEVICE then (true, s)
  else if mfgID = SFE_FLASH_MFG_ISSI then (true, s)
  else if mfgID = SFE_FLASH_MFG_MICROCHIP then (true, s)
  else if mfgID = SFE_FLASH_MFG_MICRON then (true, s)
  else if mfgID = SFE_FLASH_MFG_INFINEON then (true, s)
  else
    let s := if s.printDebug = true then
        debugHex "SFE_SPI_FLASH::isConnected: Unknown manufacturer code: 0x" [0x10]
          mfgID.code s
      else s
    (false, s)

/-- Enable debug messages (`enableDebugging`). -/
def enableDebugging (s : SFE_SPI_FLASH) : SFE_SPI_FLASH :=
  { s with printDebug := true }

/-- Turn off debug messages (`disableDebugging`). -/
def disableDebugging (s : SFE_SPI_FLASH) : SFE_SPI_FLASH :=
  { s with printDebug := false }

end SFE_SPI_FLASH

/-! ## Reading a trace -/

/-- Splits a trace into chip-select frames: `cur` holds the bytes shifted out since the
chip-select line last went low. -/
def framesAux : List Nat → List Event → List (List Nat)
  | _, [] => []
  | cur, Event.beginTransaction :: es => framesAux cur es
  | cur, Event.endTransaction :: es => framesAux cur es
  | _, Event.csLow :: es => framesAux [] es
  | cur, Event.csHigh :: es => cur :: framesAux [] es
  | cur, Event.transfer out _ :: es => framesAux (cur ++ [out]) es

/-- The chip-select frames of a trace, each given by the bytes shifted out while the
chip-select line was low, in order. -/
def frames (es : List Event) : List (List Nat) := framesAux [] es

/-- The bytes shifted out in the frame that is still open at the end of a trace, where
`cur` holds those of the frame open at its start. -/
def pendingAux : List Nat → List Event → List Nat
  | cur, [] => cur
  | cur, Event.beginTransaction :: es => pendingAux cur es
  | cur, Event.endTransaction :: es => pendingAux cur es
  | _, Event.csLow :: es => pendingAux [] es
  | _, Event.csHigh :: es => pendingAux [] es
  | cur, Event.transfer out _ :: es => pendingAux (cur ++ [out]) es

/-- The frame of the status read of the 25xx family. -/
def statusFrame25 : List Nat := [0x05, 0xFF]

/-- The frame of the status read of the 45xx family. -/
def statusFrame45 : List Nat := [0xD7, 0xFF, 0xFF]

/-- A frame is a status read when it is one of the two status-read frames. -/
def isStatusFrame (f : List Nat) : Bool := f == statusFrame25 || f == statusFrame45

/-- The frame starts with the given opcode. -/
def hasOpcode (op : Nat) (f : List Nat) : Bool := f.head? == some op

/-- The frame is a mutating command: page program, AAI word program, chip erase or
write status register. -/
def isMutating (f : List Nat) : Bool :=
  hasOpcode 0x02 f || hasOpcode 0xAD f || hasOpcode 0xC7 f || hasOpcode 0x01 f

/-- Every frame of the list that satisfies `target` comes immediately after a frame that
satisfies `guard`; `prev` is the frame before the first one of the list, if any. -/
def precededAux (target guard : List Nat → Bool) : Option (List Nat) → List (List Nat) → Bool
  | _, [] => true
  | prev, f :: fs =>
    (!target f || (match prev with
      | some g => guard g
      | none => false)) && precededAux target guard (some f) fs

/-- Every frame that satisfies `target` comes immediately after a frame that satisfies
`guard`. -/
def preceded (target guard : List Nat → Bool) (fs : List (List Nat)) : Bool :=
  precededAux target guard none fs

/-- The frame is the single write-enable byte. -/
def isWriteEnable (f : List Nat) : Bool := f == [0x06]

/-- The frame is the single enable-write-status-register byte. -/
def isEnableWriteStatus (f : List Nat) : Bool := f == [0x50]

/-- The frame is a page program, a chip erase, or an AAI word program that carries an
address (opcode, three address bytes, two data bytes). -/
def startsProgramming (f : List Nat) : Bool :=
  hasOpcode 0x02 f || hasOpcode 0xC7 f || (hasOpcode 0xAD f && f.length == 6)

/-- The frame is an AAI word program that carries no address. -/
def continuesAAI (f : List Nat) : Bool := hasOpcode 0xAD f && f.length != 6

/-- The order of frames the driver keeps: a page program, a chip erase and the first
word program of an auto-increment sequence come right after a write enable [0x06]; a
further word program comes right after a word program; a write status register comes
right after an enable-write-status-register [0x50]. -/
def latchProtocol (fs : List (List Nat)) : Bool :=
  preceded startsProgramming isWriteEnable fs &&
  preceded continuesAAI (hasOpcode 0xAD) fs &&
  preceded (hasOpcode 0x01) isEnableWriteStatus fs

/-- The bytes of a frame as they appear on the bus (each reduced to eight bits). -/
def onBus (fs : List (List Nat)) : List (List Nat) := fs.map (fun f => f.map (· % 256))

/-- The frames of one bus acquisition keep the order of `latchProtocol`, whatever frame
came before them. -/
def KeepsOrder (fs : List (List Nat)) : Prop :=
  ∀ q, precededAux startsProgramming isWriteEnable q (onBus fs) = true ∧
    precededAux continuesAAI (hasOpcode 0xAD) q (onBus fs) = true ∧
    precededAux (hasOpcode 0x01) isEnableWriteStatus q (onBus fs) = true

/-- Every chip-select frame of the trace is a status read. -/
def onlyStatusReads (es : List Event) : Bool := (frames es).all isStatusFrame

namespace SFE_SPI_FLASH

/-- The frame of the status read of a family. -/
def statusFrame : sfe_flash_family_e → List Nat
  | SFE_FLASH_FAMILY_25XX => statusFrame25
  | SFE_FLASH_FAMILY_45XX => statusFrame45

/-- The events a call added to the trace: the trace after the call without the trace
before it. -/
def callTrace (before after : SFE_SPI_FLASH) : List Event :=
  after.trace.drop before.trace.length

/-- Number of transfers of one status poll in a family. -/
def pollWidth : sfe_flash_family_e → Nat
  | SFE_FLASH_FAMILY_25XX => 2
  | SFE_FLASH_FAMILY_45XX => 3

/-- The answer `isBusy` gets when it is called at script position `p`. -/
def busyAt (s : SFE_SPI_FLASH) (p : Nat) : Bool :=
  (isBusy { s with pos := p }).1

/-- The answer of the `k`-th (counted from 0) of consecutive status polls that start in
state `s`, where nothing else is transferred in between. -/
def pollBusy (s : SFE_SPI_FLASH) (k : Nat) : Bool :=
  busyAt s (s.pos + pollWidth s.flashFamily * k)

/-- The events of one status poll that starts at script position `p`, for a family and
a script. -/
def statusEvents (fam : sfe_flash_family_e) (resp : Nat → Nat) (p : Nat) : List Event :=
  match fam with
  | SFE_FLASH_FAMILY_25XX =>
    [Event.beginTransaction, Event.csLow, Event.transfer 0x05 (resp p % 256),
     Event.transfer 0xFF (resp (p + 1) % 256), Event.csHigh, Event.endTransaction]
  | SFE_FLASH_FAMILY_45XX =>
    [Event.beginTransaction, Event.csLow, Event.transfer 0xD7 (resp p % 256),
     Event.transfer 0xFF (resp (p + 1) % 256), Event.transfer 0xFF (resp (p + 2) % 256),
     Event.csHigh, Event.endTransaction]

/-- The events of `k` consecutive status polls that start at script position `p`. -/
def pollEvents (fam : sfe_flash_family_e) (resp : Nat → Nat) (p : Nat) : Nat → List Event
  | 0 => []
  | k + 1 => statusEvents fam resp p ++ pollEvents fam resp (p + pollWidth fam) k

/-- The object after `k` consecutive status polls separated by `d` milliseconds of
delay in total. -/
def afterPolls (s : SFE_SPI_FLASH) (k d : Nat) : SFE_SPI_FLASH :=
  { s with pos := s.pos + pollWidth s.flashFamily * k,
           trace := s.trace ++ pollEvents s.flashFamily s.resp s.pos k,
           millis := s.millis + d }

/-- The manufacturer codes the driver knows (the values of the enumerators other than
`SFE_FLASH_MFG_UNKNOWN`). -/
def knownManufacturerCodes : List Nat := [0x01, 0x1F, 0x20, 0x9D, 0xBF, 0xC2, 0xC8, 0xEF]

/-- The byte the bus returns for the first filler byte of a JEDEC read that starts in
state `s` (the transfer after the one of the opcode). -/
def firstJedecByte (s : SFE_SPI_FLASH) : Nat := s.resp (s.pos + 1) % 256

/-- The events of shifting out the bytes `outs` one after the other, the first of them
at script position `p`. -/
def xferEvents (resp : Nat → Nat) : Nat → List Nat → List Event
  | _, [] => []
  | p, out :: outs => Event.transfer (out % 256) (resp p % 256) :: xferEvents resp (p + 1) outs

/-- The events of one chip-select frame in which the bytes `outs` are shifted out. -/
def frameEvents (resp : Nat → Nat) (p : Nat) (outs : List Nat) : List Event :=
  Event.csLow :: xferEvents resp p outs ++ [Event.csHigh]

/-- The events of a sequence of chip-select frames, the first at script position `p`. -/
def framesEvents (resp : Nat → Nat) : Nat → List (List Nat) → List Event
  | _, [] => []
  | p, f :: fs => frameEvents resp p f ++ framesEvents resp (p + f.length) fs

/-- The events of one bus acquisition made of the given chip-select frames. -/
def txnEvents (resp : Nat → Nat) (p : Nat) (fs : List (List Nat)) : List Event :=
  Event.beginTransaction :: framesEvents resp p fs ++ [Event.endTransaction]

/-- The number of bytes shifted out in a sequence of frames. -/
def framesLength (fs : List (List Nat)) : Nat := (fs.map List.length).sum

/-- The object after one bus acquisition made of the given chip-select frames. -/
def withTxn (s : SFE_SPI_FLASH) (fs : List (List Nat)) : SFE_SPI_FLASH :=
  { s with pos := s.pos + framesLength fs,
           trace := s.trace ++ txnEvents s.resp s.pos fs }

/-- The events of a sequence of bus acquisitions, each given by its chip-select frames,
the first at script position `p`. -/
def txnsEvents (resp : Nat → Nat) : Nat → List (List (List Nat)) → List Event
  | _, [] => []
  | p, fs :: rest => txnEvents resp p fs ++ txnsEvents resp (p + framesLength fs) rest

/-- The number of bytes shifted out in a sequence of bus acquisitions. -/
def txnsLength (txns : List (List (List Nat))) : Nat := (txns.map framesLength).sum

/-- The call that led from `s` to `t` made exactly the bus acquisitions `txns`, one after
the other and nothing else on the bus, consuming the script from where `s` stood; family
and debug flag are as before. -/
def Ran (s t : SFE_SPI_FLASH) (txns : List (List (List Nat))) : Prop :=
  t.flashFamily = s.flashFamily ∧ t.printDebug = s.printDebug ∧ t.resp = s.resp ∧
  t.pos = s.pos + txnsLength txns ∧ t.trace = s.trace ++ txnsEvents s.resp s.pos txns

/-- The two ways a guarded command can go: either all `polls` status polls of the
initial wait read busy, the result is the busy failure and nothing but these polls was
on the bus; or one of them read not busy, the polls up to that one are followed by one
bus acquisition with the frames `fs`, and the result is success. -/
def WaitThen (s t : SFE_SPI_FLASH) (r : sfe_flash_read_write_result_e) (polls : Nat)
    (fs : List (List Nat)) : Prop :=
  (r = SFE_FLASH_READ_WRITE_FAIL_DEVICE_BUSY ∧
    Ran s t (List.replicate polls [statusFrame s.flashFamily])) ∨
  (r = SFE_FLASH_READ_WRITE_SUCCESS ∧ ∃ k, k < polls ∧
    Ran s t (List.replicate (k + 1) [statusFrame s.flashFamily] ++ [fs]))

/-- The result is one of the two failure codes: busy timeout or zero size. -/
def Failed (r : sfe_flash_read_write_result_e) : Prop :=
  r = SFE_FLASH_READ_WRITE_FAIL_DEVICE_BUSY ∨ r = SFE_FLASH_READ_WRITE_ZERO_SIZE

/-- The frames that `writeBlockAAI` sends in its bus acquisition for `dataSize` ≥ 2:
disable SO, write enable, the first word with the address, the further words without
address, write disable.  Bytes are listed as passed to `transfer`. -/
def aaiFrames (address : Nat) (dataArray : Nat → Nat) (dataSize : Nat) : List (List Nat) :=
  [[0x80], [0x06],
   [0xAD, address >>> 16, address >>> 8, address &&& 0xFF, dataArray 0, dataArray 1]]
  ++ (List.range (dataSize / 2 - 1)).map
      (fun k => [0xAD, dataArray (2 * k + 2), dataArray (2 * k + 3)])
  ++ [[0x04]]

/-- The frames of a page program of one byte, as sent by `writeByte`. -/
def writeByteFrames (address thingToWrite : Nat) : List (List Nat) :=
  [[0x06], [0x02, address >>> 16, address >>> 8, address &&& 0xFF, thingToWrite]]

/-- The frames of the call that led from `s` to `t` keep the order of `latchProtocol`. -/
def KeepsLatchOrder (s t : SFE_SPI_FLASH) : Prop :=
  latchProtocol (frames (callTrace s t)) = true

/-- The page-program frame that writes the single byte `value` at `address`, as it
appears on the bus: opcode 0x02, address bits 23..16, 15..8 and 7..0, the byte. -/
def pageProgramFrame (address value : Nat) : List Nat :=
  [0x02, (address >>> 16) % 256, (address >>> 8) % 256, address % 256, value % 256]

/-- The data bytes carried by the AAI word-program frames of a list of frames, in
order: a frame with address carries them after opcode and address, a frame without
address after the opcode. -/
def aaiPayload : List (List Nat) → List Nat
  | [] => []
  | f :: fs =>
    (if hasOpcode 0xAD f then (if f.length = 6 then f.drop 4 else f.drop 1) else [])
      ++ aaiPayload fs

/-- The trace of a call that did nothing but poll the status `polls` times, starting in
state `s`: exactly the events of these polls, hence only status-read frames. -/
def IsPollTrace (s : SFE_SPI_FLASH) (polls : Nat) (es : List Event) : Prop :=
  es = pollEvents s.flashFamily s.resp s.pos polls ∧ onlyStatusReads es = true

/-- A fresh object of the given family on a bus that answers every transfer with the
same byte. -/
def constBus (fam : sfe_flash_family_e) (b : Nat) : SFE_SPI_FLASH :=
  { flashFamily := fam, printDebug := false, resp := fun _ => b, pos := 0, trace := [],
    millis := 0, debugOut := [] }

/-- A fresh object of the given family on a bus that answers the transfers with the
bytes of a list, and with a fixed byte once the list is used up. -/
def scriptedBus (fam : sfe_flash_family_e) (script : List Nat) (rest : Nat) : SFE_SPI_FLASH :=
  { flashFamily := fam, printDebug := false, resp := fun i => script.getD i rest, pos := 0,
    trace := [], millis := 0, debugOut := [] }

/-- The bytes shifted in by the transfers of a trace, in order. -/
def received : List Event → List Nat
  | [] => []
  | Event.beginTransaction :: es => received es
  | Event.endTransaction :: es => received es
  | Event.csLow :: es => received es
  | Event.csHigh :: es => received es
  | Event.transfer _ inp :: es => inp :: received es

/-- The three address bytes as they appear on the bus, most significant first: bits
23..16, bits 15..8 and bits 7..0 of the address. -/
def addressBytes (address : Nat) : List Nat :=
  [(address >>> 16) % 256, (address >>> 8) % 256, address % 256]

/-- The first device-ID byte the bus returns in the JEDEC read that `isConnected` makes
through `getDeviceID`: this is the second JEDEC read of the call, its opcode goes out at
script position `pos + 4` and the device-ID bytes come in at `pos + 6` and `pos + 7`. -/
def deviceIdByte (s : SFE_SPI_FLASH) : Nat := s.resp (s.pos + 6) % 256

/-- The number of status polls `erase` makes after the command when the device reports
busy at exactly the first `k` of them: an outer poll that reads busy is followed by up to
fifty inner polls, and an inner poll that reads idle is followed by one more outer poll. -/
def erasePolls (k : Nat) : Nat := if k % 51 = 0 then k + 1 else k + 2

/-- The frames of a list that come after its first chip-erase frame [0xC7]. -/
def framesAfterErase (fs : List (List Nat)) : List (List Nat) :=
  (fs.dropWhile (fun f => f != [0xC7])).tail

/-- A fresh 25xx object on a bus that answers 1 at the script positions from `lo` up to
`hi`, `hi` excluded, and 0 everywhere else. -/
def busyBetween (lo hi : Nat) : SFE_SPI_FLASH :=
  { flashFamily := SFE_FLASH_FAMILY_25XX, printDebug := false,
    resp := fun i => if lo ≤ i ∧ i < hi then 1 else 0, pos := 0, trace := [], millis := 0,
    debugOut := [] }

/-- One step of reading a trace while keeping the state of the port: whether the bus is
held (a transaction has begun and not ended) and whether chip select is low.  Beginning a
transaction asks for a bus that is not held; ending one asks for a held bus with chip
select high; chip select goes low only from high and high only from low, both while the
bus is held; a transfer asks for a held bus with chip select low.  An event that is out
of place gives `none`. -/
def portStep : Bool × Bool → Event → Option (Bool × Bool)
  | (false, false), Event.beginTransaction => some (true, false)
  | (true, false), Event.endTransaction => some (false, false)
  | (true, false), Event.csLow => some (true, true)
  | (true, true), Event.csHigh => some (true, false)
  | (true, true), Event.transfer _ _ => some (true, true)
  | _, _ => none

/-- Reads a trace from a state of the port; `none` when some event is out of place. -/
def portRun : Bool × Bool → List Event → Option (Bool × Bool)
  | st, [] => some st
  | st, e :: es =>
    match portStep st e with
    | none => none
    | some st => portRun st es

/-- The trace, read from a released bus with chip select high, has every event in place
and ends with the bus released and chip select high. -/
def wellBracketed (es : List Event) : Bool :=
  decide (portRun (false, false) es = some (false, false))

/-- The number of status-read frames in a trace. -/
def statusPolls (es : List Event) : Nat := ((frames es).filter isStatusFrame).length

/-- Two objects agree on everything but the debug flag and what has been printed: they
have the same family, the same script at the same position, the same trace and the same
clock. -/
def SameButDebug (s t : SFE_SPI_FLASH) : Prop :=
  s.flashFamily = t.flashFamily ∧ s.resp = t.resp ∧ s.pos = t.pos ∧ s.trace = t.trace ∧
    s.millis = t.millis

/-- Two calls have the same outcome up to debugging: they return the same value and
leave objects that agree on everything but the debug flag and what has been printed. -/
def SameOutcome {α : Type} (x y : α × SFE_SPI_FLASH) : Prop :=
  x.1 = y.1 ∧ SameButDebug x.2 y.2

/-- The object with another debug flag and another record of what has been printed. -/
def withDebug (b : Bool) (out : List Printed) (s : SFE_SPI_FLASH) : SFE_SPI_FLASH :=
  { s with printDebug := b, debugOut := out }

end SFE_SPI_FLASH

/-! ## Bit-level facts -/

theorem and_two_pow_ne_zero (x n : Nat) : x &&& 2 ^ n ≠ 0 ↔ x.testBit n = true := by
  constructor
  · intro h
    obtain ⟨i, hi⟩ := Nat.ne_zero_implies_bit_true h
    rw [Nat.testBit_and, Nat.testBit_two_pow] at hi
    simp only [Bool.and_eq_true, decide_eq_true_eq] at hi
    rw [hi.2]; exact hi.1
  · intro h h0
    have h1 : (x &&& 2 ^ n).testBit n = true := by
      rw [Nat.testBit_and, Nat.testBit_two_pow]; simp [h]
    rw [h0] at h1
    simp at h1

theorem status16_testBit (b1 b2 : Nat) (h1 : b1 < 256) (h2 : b2 < 256) :
    (((0 ||| b1) <<< 8) % 65536 ||| b2).testBit 15 = b1.testBit 7 := by
  have e : ((0 ||| b1) <<< 8) % 65536 = 2 ^ 8 * b1 := by
    simp [Nat.shiftLeft_eq]; omega
  rw [e, Nat.testBit_or]
  have hb2 : b2.testBit 15 = false := by
    apply Nat.testBit_lt_two_pow
    omega
  rw [hb2, Bool.or_false, Nat.testBit_mul_pow_two]
  simp

theorem status16_value (b1 b2 : Nat) (h1 : b1 < 256) (h2 : b2 < 256) :
    ((0 ||| b1) <<< 8) % 65536 ||| b2 = b1 * 256 + b2 := by
  have e : ((0 ||| b1) <<< 8) % 65536 = 2 ^ 8 * b1 := by
    simp [Nat.shiftLeft_eq]; omega
  rw [e, ← Nat.mul_add_lt_is_or (by omega)]
  omega

theorem jedec_value (b0 b1 b2 : Nat) (h0 : b0 < 256) (h1 : b1 < 256) (h2 : b2 < 256) :
    ((((0 <<< 8) % 4294967296 ||| b0) <<< 8) % 4294967296 ||| b1) <<< 8 % 4294967296 ||| b2
      = b0 * 65536 + b1 * 256 + b2 := by
  have e0 : ((0 <<< 8) % 4294967296 ||| b0) = b0 := by simp
  have e1 : (b0 <<< 8) % 4294967296 = 2 ^ 8 * b0 := by
    simp [Nat.shiftLeft_eq]; omega
  have e2 : 2 ^ 8 * b0 ||| b1 = 2 ^ 8 * b0 + b1 := (Nat.mul_add_lt_is_or (by omega) _).symm
  have e3 : ((2 ^ 8 * b0 + b1) <<< 8) % 4294967296 = 2 ^ 8 * (2 ^ 8 * b0 + b1) := by
    simp [Nat.shiftLeft_eq]; omega
  have e4 : 2 ^ 8 * (2 ^ 8 * b0 + b1) ||| b2 = 2 ^ 8 * (2 ^ 8 * b0 + b1) + b2 :=
    (Nat.mul_add_lt_is_or (by omega) _).symm
  rw [e0, e1, e2, e3, e4]
  omega

/-! ## Frames of concatenated traces -/

theorem framesAux_append (a b : List Event) : ∀ cur : List Nat,
    framesAux cur (a ++ b) = framesAux cur a ++ framesAux (pendingAux cur a) b := by
  induction a with
  | nil => intro cur; simp [framesAux, pendingAux]
  | cons e es ih =>
    intro cur
    cases e <;> simp [framesAux, pendingAux, ih]

theorem pendingAux_append (a b : List Event) : ∀ cur : List Nat,
    pendingAux cur (a ++ b) = pendingAux (pendingAux cur a) b := by
  induction a with
  | nil => intro cur; simp [pendingAux]
  | cons e es ih =>
    intro cur
    cases e <;> simp [pendingAux, ih]

namespace SFE_SPI_FLASH

/-! ## The status reads and the busy wait -/

theorem getStatus1_eq (s : SFE_SPI_FLASH) :
    getStatus1 s = (s.resp (s.pos + 1) % 256,
      { s with pos := s.pos + 2,
               trace := s.trace ++ [Event.beginTransaction, Event.csLow,
                 Event.transfer 0x05 (s.resp s.pos % 256),
                 Event.transfer 0xFF (s.resp (s.pos + 1) % 256),
                 Event.csHigh, Event.endTransaction] }) := by
  simp [getStatus1, beginTransaction, endTransaction, csLow, csHigh, send, transfer]

theorem getStatus16_eq (s : SFE_SPI_FLASH) :
    getStatus16 s =
      (((0 ||| s.resp (s.pos + 1) % 256) <<< 8) % 65536 ||| s.resp (s.pos + 2) % 256,
      { s with pos := s.pos + 3,
               trace := s.trace ++ [Event.beginTransaction, Event.csLow,
                 Event.transfer 0xD7 (s.resp s.pos % 256),
                 Event.transfer 0xFF (s.resp (s.pos + 1) % 256),
                 Event.transfer 0xFF (s.resp (s.pos + 2) % 256),
                 Event.csHigh, Event.endTransaction] }) := by
  simp [getStatus16, beginTransaction, endTransaction, csLow, csHigh, send, transfer]

theorem busyAt_eq (s : SFE_SPI_FLASH) (p : Nat) :
    busyAt s p = match s.flashFamily with
      | SFE_FLASH_FAMILY_25XX => (s.resp (p + 1) % 256).testBit 0
      | SFE_FLASH_FAMILY_45XX => !(s.resp (p + 1) % 256).testBit 7 := by
  cases hf : s.flashFamily with
  | SFE_FLASH_FAMILY_25XX =>
    simp only [busyAt, isBusy, hf, if_true, getStatus1_eq]
    by_cases hb : (s.resp (p + 1) % 256) % 2 = 1
    · simp [Nat.testBit_to_div_mod, hb]
    · have : (s.resp (p + 1) % 256) % 2 = 0 := by omega
      simp [Nat.testBit_to_div_mod, this]
  | SFE_FLASH_FAMILY_45XX =>
    simp only [busyAt, isBusy, hf, getStatus16_eq]
    have hbit := status16_testBit (s.resp (p + 1) % 256) (s.resp (p + 2) % 256)
      (Nat.mod_lt _ (by decide)) (Nat.mod_lt _ (by decide))
    have h15 : (1 <<< 15 : Nat) = 2 ^ 15 := by decide
    rw [if_neg (by decide), h15]
    by_cases hb : (s.resp (p + 1) % 256).testBit 7 = true
    · rw [if_pos ((and_two_pow_ne_zero _ 15).mpr (hbit.trans hb))]
      simp [hb]
    · rw [if_neg (fun h => hb (hbit.symm.trans ((and_two_pow_ne_zero _ 15).mp h)))]
      simp [hb]

theorem busyAt_congr (s t : SFE_SPI_FLASH) (p : Nat) (hf : t.flashFamily = s.flashFamily)
    (hr : t.resp = s.resp) : busyAt t p = busyAt s p := by
  rw [busyAt_eq, busyAt_eq, hf, hr]

theorem isBusy_eq (s : SFE_SPI_FLASH) :
    isBusy s = (busyAt s s.pos,
      { s with pos := s.pos + pollWidth s.flashFamily,
               trace := s.trace ++ statusEvents s.flashFamily s.resp s.pos }) := by
  have hb : busyAt s s.pos = (isBusy s).1 := rfl
  rw [hb]
  cases hf : s.flashFamily with
  | SFE_FLASH_FAMILY_25XX =>
    simp only [isBusy, hf, if_true, getStatus1_eq, statusEvents, pollWidth]
    split <;> rfl
  | SFE_FLASH_FAMILY_45XX =>
    simp only [isBusy, hf, getStatus16_eq, statusEvents, pollWidth]
    rw [if_neg (by decide)]
    split <;> rfl

theorem afterPolls_succ (s : SFE_SPI_FLASH) (k d e : Nat) :
    afterPolls (delay e { s with pos := s.pos + pollWidth s.flashFamily,
                                  trace := s.trace ++ statusEvents s.flashFamily s.resp s.pos }) k d
      = afterPolls s (k + 1) (e + d) := by
  simp only [afterPolls, delay, pollEvents, List.append_assoc, Nat.mul_add,
    Nat.mul_one, Nat.add_assoc]
  congr 1
  omega

theorem pollBusy_succ (s : SFE_SPI_FLASH) (e k : Nat) :
    pollBusy (delay e { s with pos := s.pos + pollWidth s.flashFamily,
                                trace := s.trace ++ statusEvents s.flashFamily s.resp s.pos }) k
      = pollBusy s (k + 1) := by
  simp only [pollBusy, delay, busyAt_eq]
  have e : s.pos + pollWidth s.flashFamily + pollWidth s.flashFamily * k
      = s.pos + pollWidth s.flashFamily * (k + 1) := by ring
  rw [e]

/-- The busy wait times out after `m + 1` polls when all of them read busy. -/
theorem blockingBusyWait_timeout (m : Nat) : ∀ s : SFE_SPI_FLASH,
    (∀ k, k ≤ m → pollBusy s k = true) →
    blockingBusyWait m s = (false, afterPolls s (m + 1) m) := by
  induction m with
  | zero =>
    intro s h
    have h0 : busyAt s s.pos = true := by simpa [pollBusy] using h 0 (Nat.le_refl 0)
    simp [blockingBusyWait, isBusy_eq, h0, afterPolls, pollEvents]
  | succ m ih =>
    intro s h
    have h0 : busyAt s s.pos = true := by simpa [pollBusy] using h 0 (Nat.zero_le _)
    simp only [blockingBusyWait, isBusy_eq, h0, if_true]
    rw [ih, afterPolls_succ, Nat.add_comm 1 m]
    intro k hk
    rw [pollBusy_succ]
    exact h (k + 1) (by omega)

/-- The busy wait succeeds at the first poll that reads not busy, if that is one of the
first `m + 1` polls. -/
theorem blockingBusyWait_ready (m : Nat) : ∀ (s : SFE_SPI_FLASH) (k : Nat), k ≤ m →
    (∀ j, j < k → pollBusy s j = true) → pollBusy s k = false →
    blockingBusyWait m s = (true, afterPolls s (k + 1) k) := by
  induction m with
  | zero =>
    intro s k hk _ hk0
    have hk' : k = 0 := by omega
    subst hk'
    have h0 : busyAt s s.pos = false := by simpa [pollBusy] using hk0
    simp [blockingBusyWait, isBusy_eq, h0, afterPolls, pollEvents]
  | succ m ih =>
    intro s k hk hlt hk0
    cases k with
    | zero =>
      have h0 : busyAt s s.pos = false := by simpa [pollBusy] using hk0
      simp [blockingBusyWait, isBusy_eq, h0, afterPolls, pollEvents]
    | succ k =>
      have h0 : busyAt s s.pos = true := by simpa [pollBusy] using hlt 0 (Nat.succ_pos _)
      simp only [blockingBusyWait, isBusy_eq, h0, if_true]
      rw [ih _ k (by omega), afterPolls_succ, Nat.add_comm 1 k]
      · intro j hj
        rw [pollBusy_succ]
        exact hlt (j + 1) (by omega)
      · rw [pollBusy_succ]
        exact hk0

/-- Whatever the script, the busy wait ends in one of its two outcomes. -/
theorem blockingBusyWait_cases (m : Nat) (s : SFE_SPI_FLASH) :
    ((∀ k, k ≤ m → pollBusy s k = true) ∧
      blockingBusyWait m s = (false, afterPolls s (m + 1) m)) ∨
    (∃ k, k ≤ m ∧ (∀ j, j < k → pollBusy s j = true) ∧ pollBusy s k = false ∧
      blockingBusyWait m s = (true, afterPolls s (k + 1) k)) := by
  by_cases h : ∃ k, k ≤ m ∧ pollBusy s k = false
  · right
    classical
    refine ⟨Nat.find h, (Nat.find_spec h).1, ?_, (Nat.find_spec h).2, ?_⟩
    · intro j hj
      have hmin := Nat.find_min h hj
      have hjm : j ≤ m := Nat.le_trans (Nat.le_of_lt hj) (Nat.find_spec h).1
      cases hb : pollBusy s j with
      | true => rfl
      | false => exact absurd ⟨hjm, hb⟩ hmin
    · apply blockingBusyWait_ready m s _ (Nat.find_spec h).1 _ (Nat.find_spec h).2
      intro j hj
      have hmin := Nat.find_min h hj
      have hjm : j ≤ m := Nat.le_trans (Nat.le_of_lt hj) (Nat.find_spec h).1
      cases hb : pollBusy s j with
      | true => rfl
      | false => exact absurd ⟨hjm, hb⟩ hmin
  · left
    have hall : ∀ k, k ≤ m → pollBusy s k = true := by
      intro k hk
      cases hb : pollBusy s k with
      | true => rfl
      | false => exact absurd ⟨k, hk, hb⟩ h
    exact ⟨hall, blockingBusyWait_timeout m s hall⟩

theorem callTrace_append (s t : SFE_SPI_FLASH) (es : List Event)
    (h : t.trace = s.trace ++ es) : callTrace s t = es := by
  simp [callTrace, h]

theorem callTrace_afterPolls (s : SFE_SPI_FLASH) (k d : Nat) :
    callTrace s (afterPolls s k d) = pollEvents s.flashFamily s.resp s.pos k := by
  simp [callTrace, afterPolls]

theorem framesAux_statusEvents (fam : sfe_flash_family_e) (resp : Nat → Nat) (p : Nat)
    (cur : List Nat) :
    framesAux cur (statusEvents fam resp p) = [statusFrame fam] ∧
      pendingAux cur (statusEvents fam resp p) = [] := by
  cases fam <;>
    simp [statusEvents, framesAux, pendingAux, statusFrame, statusFrame25, statusFrame45]

theorem framesAux_pollEvents (fam : sfe_flash_family_e) (resp : Nat → Nat) (k : Nat) :
    ∀ p : Nat, framesAux [] (pollEvents fam resp p k) = List.replicate k (statusFrame fam) ∧
      pendingAux [] (pollEvents fam resp p k) = [] := by
  induction k with
  | zero => intro p; simp [pollEvents, framesAux, pendingAux]
  | succ k ih =>
    intro p
    simp only [pollEvents, framesAux_append, pendingAux_append,
      (framesAux_statusEvents fam resp p []).1, (framesAux_statusEvents fam resp p []).2,
      (ih _).1, (ih _).2, List.replicate_succ]
    simp

theorem frames_pollEvents_append (fam : sfe_flash_family_e) (resp : Nat → Nat) (p k : Nat)
    (es : List Event) :
    frames (pollEvents fam resp p k ++ es) = List.replicate k (statusFrame fam) ++ frames es := by
  simp only [frames, framesAux_append, (framesAux_pollEvents fam resp k p).1,
    (framesAux_pollEvents fam resp k p).2]

theorem isStatusFrame_statusFrame (fam : sfe_flash_family_e) :
    isStatusFrame (statusFrame fam) = true := by
  cases fam <;> decide

theorem onlyStatusReads_pollEvents (fam : sfe_flash_family_e) (resp : Nat → Nat) (p k : Nat) :
    onlyStatusReads (pollEvents fam resp p k) = true := by
  simp only [onlyStatusReads, frames, (framesAux_pollEvents fam resp k p).1,
    List.all_eq_true]
  intro f hf
  rw [List.eq_of_mem_replicate hf]
  exact isStatusFrame_statusFrame fam

theorem isPollTrace_afterPolls (s : SFE_SPI_FLASH) (k d : Nat) :
    IsPollTrace s k (callTrace s (afterPolls s k d)) := by
  rw [callTrace_afterPolls]
  exact ⟨rfl, onlyStatusReads_pollEvents _ _ _ _⟩

theorem pollBusy_constBus_25 (b k : Nat) :
    pollBusy (constBus SFE_FLASH_FAMILY_25XX b) k = (b % 256).testBit 0 := by
  simp [pollBusy, busyAt_eq, constBus]

theorem pollBusy_constBus_45 (b k : Nat) :
    pollBusy (constBus SFE_FLASH_FAMILY_45XX b) k = !(b % 256).testBit 7 := by
  simp [pollBusy, busyAt_eq, constBus]

/-! ## Bus acquisitions -/

theorem xferEvents_append (resp : Nat → Nat) (a b : List Nat) : ∀ p : Nat,
    xferEvents resp p (a ++ b) = xferEvents resp p a ++ xferEvents resp (p + a.length) b := by
  induction a with
  | nil => intro p; simp [xferEvents]
  | cons x xs ih =>
    intro p
    have e : p + 1 + xs.length = p + (xs.length + 1) := by omega
    rw [List.cons_append, xferEvents, xferEvents, ih, List.length_cons, e, List.cons_append]

theorem framesLength_cons (f : List Nat) (fs : List (List Nat)) :
    framesLength (f :: fs) = f.length + framesLength fs := by
  simp [framesLength]

theorem framesLength_append (a b : List (List Nat)) :
    framesLength (a ++ b) = framesLength a + framesLength b := by
  simp [framesLength]

theorem framesEvents_append (resp : Nat → Nat) (a b : List (List Nat)) : ∀ p : Nat,
    framesEvents resp p (a ++ b)
      = framesEvents resp p a ++ framesEvents resp (p + framesLength a) b := by
  induction a with
  | nil => intro p; simp [framesEvents, framesLength]
  | cons x xs ih =>
    intro p
    rw [List.cons_append, framesEvents, framesEvents, ih, framesLength_cons,
      List.append_assoc, Nat.add_assoc]

theorem framesAux_xferEvents (resp : Nat → Nat) (outs : List Nat) (rest : List Event) :
    ∀ (p : Nat) (cur : List Nat),
      framesAux cur (xferEvents resp p outs ++ rest)
        = framesAux (cur ++ outs.map (· % 256)) rest := by
  induction outs with
  | nil => intro p cur; simp [xferEvents]
  | cons x xs ih =>
    intro p cur
    rw [xferEvents, List.cons_append, framesAux, ih, List.map_cons, List.append_assoc,
      List.singleton_append]

theorem pendingAux_xferEvents (resp : Nat → Nat) (outs : List Nat) (rest : List Event) :
    ∀ (p : Nat) (cur : List Nat),
      pendingAux cur (xferEvents resp p outs ++ rest)
        = pendingAux (cur ++ outs.map (· % 256)) rest := by
  induction outs with
  | nil => intro p cur; simp [xferEvents]
  | cons x xs ih =>
    intro p cur
    rw [xferEvents, List.cons_append, pendingAux, ih, List.map_cons, List.append_assoc,
      List.singleton_append]

theorem framesAux_frameEvents (resp : Nat → Nat) (p : Nat) (f : List Nat) (cur : List Nat)
    (rest : List Event) :
    framesAux cur (frameEvents resp p f ++ rest) = f.map (· % 256) :: framesAux [] rest := by
  simp only [frameEvents, List.cons_append, List.append_assoc, List.singleton_append]
  rw [framesAux, framesAux_xferEvents, framesAux]
  simp only [List.nil_append]

theorem pendingAux_frameEvents (resp : Nat → Nat) (p : Nat) (f : List Nat) (cur : List Nat)
    (rest : List Event) :
    pendingAux cur (frameEvents resp p f ++ rest) = pendingAux [] rest := by
  simp only [frameEvents, List.cons_append, List.append_assoc, List.singleton_append]
  rw [pendingAux, pendingAux_xferEvents, pendingAux]
  simp only [List.nil_append]

theorem framesAux_framesEvents (resp : Nat → Nat) (fs : List (List Nat))
    (rest : List Event) : ∀ p : Nat,
      framesAux [] (framesEvents resp p fs ++ rest) = onBus fs ++ framesAux [] rest := by
  induction fs with
  | nil => intro p; simp [framesEvents, onBus]
  | cons f fs ih =>
    intro p
    rw [framesEvents, List.append_assoc, framesAux_frameEvents, ih]
    simp [onBus]

theorem pendingAux_framesEvents (resp : Nat → Nat) (fs : List (List Nat))
    (rest : List Event) : ∀ p : Nat,
      pendingAux [] (framesEvents resp p fs ++ rest) = pendingAux [] rest := by
  induction fs with
  | nil => intro p; simp [framesEvents]
  | cons f fs ih =>
    intro p
    rw [framesEvents, List.append_assoc, pendingAux_frameEvents, ih]

theorem framesAux_txnEvents (resp : Nat → Nat) (p : Nat) (fs : List (List Nat))
    (rest : List Event) :
    framesAux [] (txnEvents resp p fs ++ rest) = onBus fs ++ framesAux [] rest := by
  simp only [txnEvents, List.cons_append, List.append_assoc, List.singleton_append]
  rw [framesAux, framesAux_framesEvents, framesAux]
  simp only [List.nil_append]

theorem pendingAux_txnEvents (resp : Nat → Nat) (p : Nat) (fs : List (List Nat))
    (rest : List Event) :
    pendingAux [] (txnEvents resp p fs ++ rest) = pendingAux [] rest := by
  simp only [txnEvents, List.cons_append, List.append_assoc, List.singleton_append]
  rw [pendingAux, pendingAux_framesEvents, pendingAux]
  simp only [List.nil_append]

theorem frames_txnEvents_append (resp : Nat → Nat) (p : Nat) (fs : List (List Nat))
    (rest : List Event) :
    frames (txnEvents resp p fs ++ rest) = onBus fs ++ frames rest :=
  framesAux_txnEvents resp p fs rest

/-! ## Calls as sequences of bus acquisitions -/

theorem txnsLength_append (a b : List (List (List Nat))) :
    txnsLength (a ++ b) = txnsLength a + txnsLength b := by
  simp [txnsLength]

theorem txnsEvents_append (resp : Nat → Nat) (a b : List (List (List Nat))) : ∀ p : Nat,
    txnsEvents resp p (a ++ b) = txnsEvents resp p a ++ txnsEvents resp (p + txnsLength a) b := by
  induction a with
  | nil => intro p; simp [txnsEvents, txnsLength]
  | cons x xs ih =>
    intro p
    have e : txnsLength (x :: xs) = framesLength x + txnsLength xs := by simp [txnsLength]
    rw [List.cons_append, txnsEvents, txnsEvents, ih, e, List.append_assoc, Nat.add_assoc]

theorem framesAux_txnsEvents (resp : Nat → Nat) (txns : List (List (List Nat)))
    (rest : List Event) : ∀ p : Nat,
      framesAux [] (txnsEvents resp p txns ++ rest) = onBus txns.flatten ++ framesAux [] rest := by
  induction txns with
  | nil => intro p; simp [txnsEvents, onBus]
  | cons fs txns ih =>
    intro p
    rw [txnsEvents, List.append_assoc, framesAux_txnEvents, ih]
    simp [onBus]

theorem frames_txnsEvents (resp : Nat → Nat) (p : Nat) (txns : List (List (List Nat))) :
    frames (txnsEvents resp p txns) = onBus txns.flatten := by
  have h := framesAux_txnsEvents resp txns [] p
  simpa [frames, framesAux] using h

theorem ran_refl (s : SFE_SPI_FLASH) : Ran s s [] := by
  simp [Ran, txnsLength, txnsEvents]

theorem ran_trans {s t u : SFE_SPI_FLASH} {a b : List (List (List Nat))}
    (h1 : Ran s t a) (h2 : Ran t u b) : Ran s u (a ++ b) := by
  obtain ⟨f1, d1, r1, p1, t1⟩ := h1
  obtain ⟨f2, d2, r2, p2, t2⟩ := h2
  refine ⟨f2.trans f1, d2.trans d1, r2.trans r1, ?_, ?_⟩
  · rw [p2, p1, txnsLength_append, Nat.add_assoc]
  · rw [t2, t1, r1, p1, txnsEvents_append, List.append_assoc]

theorem ran_callTrace {s t : SFE_SPI_FLASH} {txns : List (List (List Nat))}
    (h : Ran s t txns) : callTrace s t = txnsEvents s.resp s.pos txns :=
  callTrace_append s t _ h.2.2.2.2

theorem ran_frames {s t : SFE_SPI_FLASH} {txns : List (List (List Nat))}
    (h : Ran s t txns) : frames (callTrace s t) = onBus txns.flatten := by
  rw [ran_callTrace h, frames_txnsEvents]

theorem ran_withTxn (w : SFE_SPI_FLASH) (fs : List (List Nat)) : Ran w (withTxn w fs) [fs] := by
  simp [Ran, withTxn, txnsLength, txnsEvents]

theorem ran_delay (s : SFE_SPI_FLASH) (ms : Nat) : Ran s (delay ms s) [] := by
  simp [Ran, delay, txnsLength, txnsEvents]

theorem ran_debug (s : SFE_SPI_FLASH) (p : Printed) : Ran s (debug p s) [] := by
  simp [Ran, debug, txnsLength, txnsEvents]

theorem ran_debugOut (s : SFE_SPI_FLASH) (out : List Printed) :
    Ran s { s with debugOut := out } [] := by
  simp [Ran, txnsLength, txnsEvents]

theorem statusEvents_eq (fam : sfe_flash_family_e) (resp : Nat → Nat) (p : Nat) :
    statusEvents fam resp p = txnEvents resp p [statusFrame fam] := by
  cases fam <;>
    simp [statusEvents, txnEvents, framesEvents, frameEvents, xferEvents, statusFrame,
      statusFrame25, statusFrame45, Nat.add_assoc]

theorem framesLength_statusFrame (fam : sfe_flash_family_e) :
    framesLength [statusFrame fam] = pollWidth fam := by
  cases fam <;> simp [framesLength, statusFrame, statusFrame25, statusFrame45, pollWidth]

theorem pollEvents_eq (fam : sfe_flash_family_e) (resp : Nat → Nat) (k : Nat) : ∀ p : Nat,
    pollEvents fam resp p k = txnsEvents resp p (List.replicate k [statusFrame fam]) := by
  induction k with
  | zero => intro p; simp [pollEvents, txnsEvents]
  | succ k ih =>
    intro p
    rw [pollEvents, List.replicate_succ, txnsEvents, ih, statusEvents_eq,
      framesLength_statusFrame]

theorem txnsLength_polls (fam : sfe_flash_family_e) (k : Nat) :
    txnsLength (List.replicate k [statusFrame fam]) = pollWidth fam * k := by
  induction k with
  | zero => simp [txnsLength]
  | succ k ih =>
    have e : txnsLength ([statusFrame fam] :: List.replicate k [statusFrame fam])
        = framesLength [statusFrame fam] + txnsLength (List.replicate k [statusFrame fam]) := by
      simp [txnsLength]
    rw [List.replicate_succ, e, ih, framesLength_statusFrame, Nat.mul_succ, Nat.add_comm]

theorem ran_afterPolls (s : SFE_SPI_FLASH) (k d : Nat) :
    Ran s (afterPolls s k d) (List.replicate k [statusFrame s.flashFamily]) := by
  refine ⟨rfl, rfl, rfl, ?_, ?_⟩
  · simp [afterPolls, txnsLength_polls]
  · simp [afterPolls, pollEvents_eq]

theorem ran_isBusy (s : SFE_SPI_FLASH) :
    Ran s (isBusy s).2 [[statusFrame s.flashFamily]] := by
  rw [isBusy_eq]
  refine ⟨rfl, rfl, rfl, ?_, ?_⟩
  · simp [txnsLength, framesLength_statusFrame]
  · simp [txnsEvents, statusEvents_eq]

/-! ## The operations after a successful wait -/

theorem writeByte_ready (s w : SFE_SPI_FLASH) (address thingToWrite : Nat)
    (h : blockingBusyWait 100 s = (true, w)) :
    writeByte address thingToWrite s
      = (SFE_FLASH_READ_WRITE_SUCCESS, withTxn w (writeByteFrames address thingToWrite)) := by
  simp [writeByte, h, beginTransaction, endTransaction, csLow, csHigh, send, transfer,
    withTxn, txnEvents, framesEvents, frameEvents, xferEvents, framesLength, writeByteFrames,
    Nat.add_assoc]

theorem setWriteStatusReg1_ready (s w : SFE_SPI_FLASH) (statusByte : Nat)
    (h : blockingBusyWait 100 s = (true, w)) :
    setWriteStatusReg1 statusByte s
      = (SFE_FLASH_READ_WRITE_SUCCESS, withTxn w [[0x50], [0x01, statusByte]]) := by
  simp [setWriteStatusReg1, h, beginTransaction, endTransaction, csLow, csHigh, send,
    transfer, withTxn, txnEvents, framesEvents, frameEvents, xferEvents, framesLength,
    Nat.add_assoc]

theorem setWriteStatusReg16_ready (s w : SFE_SPI_FLASH) (statusWord : Nat)
    (h : blockingBusyWait 100 s = (true, w)) :
    setWriteStatusReg16 statusWord s
      = (SFE_FLASH_READ_WRITE_SUCCESS,
          withTxn w [[0x50], [0x01, statusWord >>> 8, statusWord &&& 0xFF]]) := by
  simp [setWriteStatusReg16, h, beginTransaction, endTransaction, csLow, csHigh, send,
    transfer, withTxn, txnEvents, framesEvents, frameEvents, xferEvents, framesLength,
    Nat.add_assoc]

theorem disableWrite_ready (s w : SFE_SPI_FLASH)
    (h : blockingBusyWait 100 s = (true, w)) :
    disableWrite s = (SFE_FLASH_READ_WRITE_SUCCESS, withTxn w [[0x04]]) := by
  simp [disableWrite, h, beginTransaction, endTransaction, csLow, csHigh, send,
    transfer, withTxn, txnEvents, framesEvents, frameEvents, xferEvents, framesLength]

theorem readByte_ready (s w : SFE_SPI_FLASH) (address : Nat)
    (result : Option sfe_flash_read_write_result_e)
    (h : blockingBusyWait 100 s = (true, w)) :
    readByte address result s
      = (w.resp (w.pos + 4) % 256, result.map (fun _ => SFE_FLASH_READ_WRITE_SUCCESS),
          withTxn w [[0x03, address >>> 16, address >>> 8, address &&& 0xFF, 0xFF]]) := by
  cases result <;>
  simp [readByte, h, beginTransaction, endTransaction, csLow, csHigh, send, transfer,
    withTxn, txnEvents, framesEvents, frameEvents, xferEvents, framesLength,
    Nat.add_assoc]

theorem writeBlockLoop_eq (dataArray : Nat → Nat) (n : Nat) (s : SFE_SPI_FLASH) :
    writeBlockLoop n dataArray s
      = { s with pos := s.pos + n,
                 trace := s.trace ++ xferEvents s.resp s.pos ((List.range n).map dataArray) } := by
  induction n with
  | zero => simp [writeBlockLoop, xferEvents]
  | succ n ih =>
    have hstep : writeBlockLoop (n + 1) dataArray s
        = send (dataArray n) (writeBlockLoop n dataArray s) := by
      simp [writeBlockLoop, List.range_succ, List.foldl_append]
    rw [hstep, ih]
    simp [send, transfer, List.range_succ, xferEvents_append, xferEvents, Nat.add_assoc]

theorem writeBlock_ready (s w : SFE_SPI_FLASH) (address : Nat) (dataArray : Nat → Nat)
    (n : Nat) (hn : n ≠ 0) (h : blockingBusyWait 100 s = (true, w)) :
    writeBlock address dataArray n s
      = (SFE_FLASH_READ_WRITE_SUCCESS,
          withTxn w [[0x06], [0x02, address >>> 16, address >>> 8, address &&& 0xFF]
            ++ (List.range n).map dataArray]) := by
  simp [writeBlock, hn, h, writeBlockLoop_eq, beginTransaction, endTransaction, csLow,
    csHigh, send, transfer, withTxn, txnEvents, framesEvents, frameEvents, xferEvents,
    framesLength, Nat.add_assoc]
  omega

theorem readBlockLoop_eq (dataArray : Nat → Nat) (n : Nat) (s : SFE_SPI_FLASH) :
    readBlockLoop n dataArray s
      = (fun i => if i < n then s.resp (s.pos + i) % 256 else dataArray i,
         { s with pos := s.pos + n,
                  trace := s.trace ++ xferEvents s.resp s.pos (List.replicate n 0xFF) }) := by
  induction n with
  | zero => simp [readBlockLoop, xferEvents]
  | succ n ih =>
    have hstep : readBlockLoop (n + 1) dataArray s
        = (Function.update (readBlockLoop n dataArray s).1 n
            (transfer 0xFF (readBlockLoop n dataArray s).2).1,
           (transfer 0xFF (readBlockLoop n dataArray s).2).2) := by
      simp [readBlockLoop, List.range_succ, List.foldl_append]
    rw [hstep, ih, List.replicate_succ', xferEvents_append]
    simp only [transfer, xferEvents, List.length_replicate, List.append_assoc, Nat.add_assoc]
    refine Prod.ext ?_ rfl
    funext i
    simp only [Function.update_apply]
    by_cases hi : i = n
    · subst hi; simp
    · by_cases hlt : i < n
      · have : i < n + 1 := by omega
        simp [hi, hlt, this]
      · have : ¬ i < n + 1 := by omega
        simp [hi, hlt, this]

theorem readBlock_ready (s w : SFE_SPI_FLASH) (address : Nat) (dataArray : Nat → Nat)
    (n : Nat) (hn : n ≠ 0) (h : blockingBusyWait 100 s = (true, w)) :
    readBlock address dataArray n s
      = (SFE_FLASH_READ_WRITE_SUCCESS,
          (fun i => if i < n then w.resp (w.pos + 4 + i) % 256 else dataArray i),
          withTxn w [[0x03, address >>> 16, address >>> 8, address &&& 0xFF]
            ++ List.replicate n 0xFF]) := by
  simp [readBlock, hn, h, readBlockLoop_eq, beginTransaction, endTransaction, csLow,
    csHigh, send, transfer, withTxn, txnEvents, framesEvents, frameEvents, xferEvents,
    framesLength, Nat.add_assoc]
  omega

theorem writeBlockAAILoop_eq (dataArray : Nat → Nat) (n : Nat) (hn : n < 65536) :
    ∀ (fuel x : Nat) (s : SFE_SPI_FLASH), x ≤ n → (n - x) / 2 ≤ fuel →
      writeBlockAAILoop dataArray n fuel x s
        = (x + 2 * ((n - x) / 2),
           { s with pos := s.pos + 3 * ((n - x) / 2),
                    trace := s.trace ++ framesEvents s.resp s.pos
                      ((List.range ((n - x) / 2)).map
                        (fun i => [0xAD, dataArray (x + 2 * i), dataArray (x + 2 * i + 1)])) }) := by
  intro fuel
  induction fuel with
  | zero =>
    intro x s _ hf
    have h0 : (n - x) / 2 = 0 := by omega
    simp [writeBlockAAILoop, h0, framesEvents]
  | succ fuel ih =>
    intro x s hx hf
    by_cases hc : x < n - 1
    · have hj : (n - x) / 2 = (n - (x + 2)) / 2 + 1 := by omega
      have hmod : (x + 2) % 65536 = x + 2 := Nat.mod_eq_of_lt (by omega)
      rw [writeBlockAAILoop, if_pos hc, hmod, ih (x + 2) _ (by omega) (by omega), hj,
        List.range_succ_eq_map, List.map_cons, List.map_map, framesEvents]
      have hfun : ((fun i => [0xAD, dataArray (x + 2 * i), dataArray (x + 2 * i + 1)])
            ∘ Nat.succ)
          = (fun i => [0xAD, dataArray (x + 2 + 2 * i), dataArray (x + 2 + 2 * i + 1)]) := by
        funext i
        have e : x + 2 * Nat.succ i = x + 2 + 2 * i := by omega
        simp only [Function.comp, e]
      rw [hfun]
      simp only [csLow, csHigh, send, transfer, frameEvents, xferEvents, List.append_assoc,
        List.cons_append, List.nil_append, List.length_cons, List.length_nil,
        SFE_FLASH_COMMAND_AAI_WORD_PROGRAM, Nat.mul_zero, Nat.add_zero]
      refine Prod.ext (by simp only; omega) ?_
      simp only [Nat.add_assoc]
      congr 1
      omega
    · have h0 : (n - x) / 2 = 0 := by omega
      simp [writeBlockAAILoop, hc, h0, framesEvents]

theorem writeBlockAAI_head (w : SFE_SPI_FLASH) (address : Nat) (dataArray : Nat → Nat) :
    csHigh (send (dataArray 1) (send (dataArray 0) (send (address &&& 0xFF)
      (send (address >>> 8) (send (address >>> 16)
        (send SFE_FLASH_COMMAND_AAI_WORD_PROGRAM (csLow (csHigh
          (send SFE_FLASH_COMMAND_WRITE_ENABLE (csLow (csHigh
            (send SFE_FLASH_COMMAND_DISABLE_SO_DURING_AAI (csLow
              (beginTransaction w))))))))))))))
      = { w with pos := w.pos + 8,
                 trace := w.trace ++ Event.beginTransaction :: framesEvents w.resp w.pos
                   [[0x80], [0x06], [0xAD, address >>> 16, address >>> 8, address &&& 0xFF,
                     dataArray 0, dataArray 1]] } := by
  simp [framesEvents, frameEvents, xferEvents, beginTransaction, csLow, csHigh, send,
    transfer, Nat.add_assoc]

theorem framesLength_aaiPairs (dataArray : Nat → Nat) (j : Nat) :
    framesLength ((List.range j).map
      (fun k => [0xAD, dataArray (2 * k + 2), dataArray (2 * k + 3)])) = 3 * j := by
  induction j with
  | zero => simp [framesLength]
  | succ j ih =>
    rw [List.range_succ, List.map_append, framesLength_append, ih]
    simp [framesLength]
    omega

theorem writeBlockAAI_tail (P : SFE_SPI_FLASH) (dataArray : Nat → Nat) (n : Nat)
    (h2 : 2 ≤ n) (hn : n < 65536) :
    (writeBlockAAILoop dataArray n n 2 P).1 = 2 + 2 * (n / 2 - 1) ∧
    endTransaction (csHigh (send SFE_FLASH_COMMAND_WRITE_DISABLE
        (csLow (writeBlockAAILoop dataArray n n 2 P).2)))
      = { P with pos := P.pos + (3 * (n / 2 - 1) + 1),
                 trace := P.trace ++ (framesEvents P.resp P.pos
                   ((List.range (n / 2 - 1)).map
                     (fun k => [0xAD, dataArray (2 * k + 2), dataArray (2 * k + 3)])
                    ++ [[0x04]]) ++ [Event.endTransaction]) } := by
  have hj : (n - 2) / 2 = n / 2 - 1 := by omega
  have hfun : (fun i => [0xAD, dataArray (2 + 2 * i), dataArray (2 + 2 * i + 1)])
      = (fun k => [0xAD, dataArray (2 * k + 2), dataArray (2 * k + 3)]) := by
    funext i
    have e1 : 2 + 2 * i = 2 * i + 2 := by omega
    have e2 : 2 * i + 2 + 1 = 2 * i + 3 := by omega
    rw [e1, e2]
  have hlen := framesLength_aaiPairs dataArray (n / 2 - 1)
  rw [writeBlockAAILoop_eq dataArray n hn n 2 P h2 (by omega), hj, hfun]
  refine ⟨rfl, ?_⟩
  simp only [framesEvents_append, hlen, framesEvents, frameEvents, xferEvents, endTransaction,
    csLow, csHigh, send, transfer, List.append_assoc, List.cons_append, List.nil_append,
    SFE_FLASH_COMMAND_WRITE_DISABLE, Nat.add_assoc]

theorem withTxn_aaiFrames (w : SFE_SPI_FLASH) (address : Nat) (dataArray : Nat → Nat)
    (n : Nat) :
    withTxn w (aaiFrames address dataArray n)
      = { w with pos := w.pos + (8 + (3 * (n / 2 - 1) + 1)),
                 trace := w.trace ++ (Event.beginTransaction :: (framesEvents w.resp w.pos
                   [[0x80], [0x06], [0xAD, address >>> 16, address >>> 8, address &&& 0xFF,
                     dataArray 0, dataArray 1]] ++ (framesEvents w.resp (w.pos + 8)
                   ((List.range (n / 2 - 1)).map
                     (fun k => [0xAD, dataArray (2 * k + 2), dataArray (2 * k + 3)])
                    ++ [[0x04]]) ++ [Event.endTransaction]))) } := by
  have hA : aaiFrames address dataArray n
      = [[0x80], [0x06], [0xAD, address >>> 16, address >>> 8, address &&& 0xFF,
          dataArray 0, dataArray 1]]
        ++ ((List.range (n / 2 - 1)).map
            (fun k => [0xAD, dataArray (2 * k + 2), dataArray (2 * k + 3)]) ++ [[0x04]]) := by
    simp [aaiFrames]
  have hl8 : framesLength [[0x80], [0x06], [0xAD, address >>> 16, address >>> 8,
      address &&& 0xFF, dataArray 0, dataArray 1]] = 8 := by simp [framesLength]
  have hl1 : framesLength [[0x04]] = 1 := by simp [framesLength]
  rw [withTxn, hA, txnEvents, framesEvents_append, framesLength_append, framesLength_append,
    framesLength_aaiPairs, hl8, hl1]
  simp only [List.append_assoc, List.cons_append]

theorem writeBlockAAI_ready (s w : SFE_SPI_FLASH) (address : Nat) (dataArray : Nat → Nat)
    (n : Nat) (h2 : 2 ≤ n) (hn : n < 65536) (h : blockingBusyWait 100 s = (true, w)) :
    writeBlockAAI address dataArray n s
      = if n % 2 = 1 then
          writeByte ((address + n - 1) % 4294967296) (dataArray (n - 1))
            (withTxn w (aaiFrames address dataArray n))
        else (SFE_FLASH_READ_WRITE_SUCCESS, withTxn w (aaiFrames address dataArray n)) := by
  have h0 : n ≠ 0 := by omega
  have h1 : n ≠ 1 := by omega
  have hx : (2 + 2 * (n / 2 - 1) = n - 1) = (n % 2 = 1) := by
    apply propext; constructor <;> intro <;> omega
  simp only [writeBlockAAI, h0, h1, if_false, h, Bool.true_eq_false]
  rw [writeBlockAAI_head]
  simp only [(writeBlockAAI_tail _ dataArray n h2 hn).1,
    (writeBlockAAI_tail _ dataArray n h2 hn).2, hx, withTxn_aaiFrames, List.append_assoc,
    List.cons_append, Nat.add_assoc]

/-! ## Erase -/

theorem ran_polls_trans {s t u : SFE_SPI_FLASH} {i j : Nat}
    (h1 : Ran s t (List.replicate i [statusFrame s.flashFamily]))
    (h2 : Ran t u (List.replicate j [statusFrame t.flashFamily])) :
    Ran s u (List.replicate (i + j) [statusFrame s.flashFamily]) := by
  have hf : t.flashFamily = s.flashFamily := h1.1
  rw [hf] at h2
  have h := ran_trans h1 h2
  rwa [List.append_replicate_replicate] at h

theorem eraseInner_ran (n : Nat) : ∀ s : SFE_SPI_FLASH,
    ∃ j, Ran s (eraseInner n s) (List.replicate j [statusFrame s.flashFamily]) := by
  induction n with
  | zero => intro s; exact ⟨0, ran_refl s⟩
  | succ n ih =>
    intro s
    have h1 : Ran s (isBusy (delay 10 s)).2 (List.replicate 1 [statusFrame s.flashFamily]) := by
      have := ran_trans (ran_delay s 10) (ran_isBusy (delay 10 s))
      simpa [delay] using this
    simp only [eraseInner]
    by_cases hb : (isBusy (delay 10 s)).1 = false
    · rw [if_pos hb]; exact ⟨1, h1⟩
    · rw [if_neg hb]
      obtain ⟨j, hj⟩ := ih (isBusy (delay 10 s)).2
      exact ⟨1 + j, ran_polls_trans h1 hj⟩

theorem eraseWait_ran (fuel : Nat) : ∀ s t : SFE_SPI_FLASH, eraseWait fuel s = some t →
    ∃ j, Ran s t (List.replicate j [statusFrame s.flashFamily]) := by
  induction fuel with
  | zero => intro s t h; simp [eraseWait] at h
  | succ fuel ih =>
    intro s t h
    have h1 : Ran s (isBusy s).2 (List.replicate 1 [statusFrame s.flashFamily]) := ran_isBusy s
    simp only [eraseWait] at h
    by_cases hb : (isBusy s).1 = true
    · rw [if_pos hb] at h
      have h2 : Ran (isBusy s).2
          (if (isBusy s).2.printDebug = true then debug (Printed.text "." false) (isBusy s).2
            else (isBusy s).2) (List.replicate 0 [statusFrame (isBusy s).2.flashFamily]) := by
        split
        · exact ran_debug _ _
        · exact ran_refl _
      have h12 := ran_polls_trans h1 h2
      obtain ⟨j, hj⟩ := eraseInner_ran 50
        (if (isBusy s).2.printDebug = true then debug (Printed.text "." false) (isBusy s).2
          else (isBusy s).2)
      have h123 := ran_polls_trans h12 (by rw [h12.1]; rw [h12.1] at hj; exact hj)
      obtain ⟨i, hi⟩ := ih _ t h
      exact ⟨_, ran_polls_trans h123 (by rw [h123.1]; rw [h123.1] at hi; exact hi)⟩
    · rw [if_neg hb] at h
      cases h
      exact ⟨1, h1⟩

/-! ## The two outcomes of a guarded command -/

theorem waitThen_of (s : SFE_SPI_FLASH) (m : Nat) (fs : List (List Nat))
    (r : sfe_flash_read_write_result_e) (t : SFE_SPI_FLASH)
    (hto : ∀ w, blockingBusyWait m s = (false, w) →
      r = SFE_FLASH_READ_WRITE_FAIL_DEVICE_BUSY ∧ t = w)
    (hready : ∀ w, blockingBusyWait m s = (true, w) →
      r = SFE_FLASH_READ_WRITE_SUCCESS ∧ Ran w t [fs]) :
    WaitThen s t r (m + 1) fs := by
  rcases blockingBusyWait_cases m s with ⟨_, he⟩ | ⟨k, hk, _, _, he⟩
  · obtain ⟨hr, ht⟩ := hto _ he
    left
    exact ⟨hr, by rw [ht]; exact ran_afterPolls s _ _⟩
  · obtain ⟨hr, ht⟩ := hready _ he
    right
    exact ⟨hr, k, by omega, ran_trans (ran_afterPolls s _ _) ht⟩

theorem writeByte_shape (s : SFE_SPI_FLASH) (address thingToWrite : Nat) :
    WaitThen s (writeByte address thingToWrite s).2 (writeByte address thingToWrite s).1 101
      (writeByteFrames address thingToWrite) := by
  apply waitThen_of s 100
  · intro w h; simp [writeByte, h]
  · intro w h; rw [writeByte_ready s w _ _ h]; exact ⟨rfl, ran_withTxn _ _⟩

theorem setWriteStatusReg1_shape (s : SFE_SPI_FLASH) (statusByte : Nat) :
    WaitThen s (setWriteStatusReg1 statusByte s).2 (setWriteStatusReg1 statusByte s).1 101
      [[0x50], [0x01, statusByte]] := by
  apply waitThen_of s 100
  · intro w h; simp [setWriteStatusReg1, h]
  · intro w h; rw [setWriteStatusReg1_ready s w _ h]; exact ⟨rfl, ran_withTxn _ _⟩

theorem setWriteStatusReg16_shape (s : SFE_SPI_FLASH) (statusWord : Nat) :
    WaitThen s (setWriteStatusReg16 statusWord s).2 (setWriteStatusReg16 statusWord s).1 101
      [[0x50], [0x01, statusWord >>> 8, statusWord &&& 0xFF]] := by
  apply waitThen_of s 100
  · intro w h; simp [setWriteStatusReg16, h]
  · intro w h; rw [setWriteStatusReg16_ready s w _ h]; exact ⟨rfl, ran_withTxn _ _⟩

theorem disableWrite_shape (s : SFE_SPI_FLASH) :
    WaitThen s (disableWrite s).2 (disableWrite s).1 101 [[0x04]] := by
  apply waitThen_of s 100
  · intro w h; simp [disableWrite, h]
  · intro w h; rw [disableWrite_ready s w h]; exact ⟨rfl, ran_withTxn _ _⟩

theorem writeBlock_shape (s : SFE_SPI_FLASH) (address : Nat) (dataArray : Nat → Nat)
    (n : Nat) (hn : n ≠ 0) :
    WaitThen s (writeBlock address dataArray n s).2 (writeBlock address dataArray n s).1 101
      [[0x06], [0x02, address >>> 16, address >>> 8, address &&& 0xFF]
        ++ (List.range n).map dataArray] := by
  apply waitThen_of s 100
  · intro w h; simp [writeBlock, h, hn]
  · intro w h; rw [writeBlock_ready s w _ _ n hn h]; exact ⟨rfl, ran_withTxn _ _⟩

theorem readBlock_shape (s : SFE_SPI_FLASH) (address : Nat) (dataArray : Nat → Nat)
    (n : Nat) (hn : n ≠ 0) :
    WaitThen s (readBlock address dataArray n s).2.2 (readBlock address dataArray n s).1 101
      [[0x03, address >>> 16, address >>> 8, address &&& 0xFF] ++ List.replicate n 0xFF] := by
  apply waitThen_of s 100
  · intro w h; simp [readBlock, h, hn]
  · intro w h; rw [readBlock_ready s w _ _ n hn h]; exact ⟨rfl, ran_withTxn _ _⟩

theorem erase_shape (fuel : Nat) (s t : SFE_SPI_FLASH) (r : sfe_flash_read_write_result_e)
    (h : erase fuel s = some (r, t)) :
    (r = SFE_FLASH_READ_WRITE_FAIL_DEVICE_BUSY ∧
      Ran s t (List.replicate 1001 [statusFrame s.flashFamily])) ∨
    (r = SFE_FLASH_READ_WRITE_SUCCESS ∧ ∃ k j, k < 1001 ∧
      Ran s t (List.replicate (k + 1) [statusFrame s.flashFamily] ++ [[[0x06], [0xC7]]]
        ++ List.replicate j [statusFrame s.flashFamily])) := by
  rcases blockingBusyWait_cases 1000 s with ⟨_, he⟩ | ⟨k, hk, _, _, he⟩
  · left
    simp only [erase, he, if_true] at h
    cases h
    exact ⟨rfl, ran_afterPolls s _ _⟩
  · right
    have hcmd : endTransaction (csHigh (send SFE_FLASH_COMMAND_CHIP_ERASE (csLow (csHigh
        (send SFE_FLASH_COMMAND_WRITE_ENABLE (csLow (beginTransaction
          (afterPolls s (k + 1) k))))))))
        = withTxn (afterPolls s (k + 1) k) [[0x06], [0xC7]] := by
      simp [beginTransaction, endTransaction, csLow, csHigh, send, transfer, withTxn,
        txnEvents, framesEvents, frameEvents, xferEvents, framesLength, Nat.add_assoc]
    simp only [erase, he, Bool.true_eq_false, if_false, hcmd] at h
    generalize hW : (if (withTxn (afterPolls s (k + 1) k) [[0x06], [0xC7]]).printDebug = true
        then debug (Printed.text "SFE_SPI_FLASH::erase: Erasing entire space" true)
          (withTxn (afterPolls s (k + 1) k) [[0x06], [0xC7]])
        else withTxn (afterPolls s (k + 1) k) [[0x06], [0xC7]]) = W at h
    have hWran : Ran (withTxn (afterPolls s (k + 1) k) [[0x06], [0xC7]]) W [] := by
      rw [← hW]; split
      · exact ran_debug _ _
      · exact ran_refl _
    cases hE : eraseWait fuel W with
    | none => simp [hE] at h
    | some u =>
      simp only [hE] at h
      obtain ⟨j, hj⟩ := eraseWait_ran fuel W u hE
      have hsW : Ran s W (List.replicate (k + 1) [statusFrame s.flashFamily]
          ++ [[[0x06], [0xC7]]]) := by
        have := ran_trans (ran_trans (ran_afterPolls s (k + 1) k) (ran_withTxn _ _)) hWran
        simpa using this
      have hsu := ran_trans hsW (by rw [hsW.1] at hj; exact hj)
      have hut : Ran u t [] ∧ r = SFE_FLASH_READ_WRITE_SUCCESS := by
        injection h with h
        injection h with hr ht
        refine ⟨?_, hr.symm⟩
        rw [← ht]; split
        · exact ran_trans (ran_trans (ran_debug _ _) (ran_debug _ _)) (ran_debug _ _)
        · exact ran_refl _
      refine ⟨hut.2, k, j, by omega, ?_⟩
      have := ran_trans hsu hut.1
      simpa using this

theorem onBus_polls (fam : sfe_flash_family_e) (k : Nat) :
    onBus (List.replicate k [statusFrame fam]).flatten = List.replicate k (statusFrame fam) := by
  induction k with
  | zero => simp [onBus]
  | succ k ih =>
    have h1 : onBus [statusFrame fam] = [statusFrame fam] := by
      cases fam <;> simp [onBus, statusFrame, statusFrame25, statusFrame45]
    have h2 : onBus ([statusFrame fam] ++ (List.replicate k [statusFrame fam]).flatten)
        = onBus [statusFrame fam] ++ onBus (List.replicate k [statusFrame fam]).flatten := by
      simp [onBus]
    rw [List.replicate_succ, List.flatten_cons, h2, h1, ih, List.replicate_succ]
    rfl

theorem onBus_append (a b : List (List Nat)) : onBus (a ++ b) = onBus a ++ onBus b := by
  simp [onBus]

theorem onlyStatusReads_of_ran_polls {s t : SFE_SPI_FLASH} {k : Nat}
    (h : Ran s t (List.replicate k [statusFrame s.flashFamily])) :
    onlyStatusReads (callTrace s t) = true := by
  simp only [onlyStatusReads, ran_frames h, onBus_polls, List.all_eq_true]
  intro f hf
  rw [List.eq_of_mem_replicate hf]
  exact isStatusFrame_statusFrame _

theorem waitThen_failed {s t : SFE_SPI_FLASH} {r : sfe_flash_read_write_result_e}
    {polls : Nat} {fs : List (List Nat)} (h : WaitThen s t r polls fs)
    (hr : r ≠ SFE_FLASH_READ_WRITE_SUCCESS) :
    r = SFE_FLASH_READ_WRITE_FAIL_DEVICE_BUSY ∧
      Ran s t (List.replicate polls [statusFrame s.flashFamily]) := by
  rcases h with h | ⟨h, _⟩
  · exact h
  · exact absurd h hr

theorem writeBlockAAI_shape (s : SFE_SPI_FLASH) (address : Nat) (dataArray : Nat → Nat)
    (n : Nat) (h2 : 2 ≤ n) (hn : n < 65536) :
    ((blockingBusyWait 100 s).1 = false ∧
      (writeBlockAAI address dataArray n s).1 = SFE_FLASH_READ_WRITE_FAIL_DEVICE_BUSY ∧
      Ran s (writeBlockAAI address dataArray n s).2
        (List.replicate 101 [statusFrame s.flashFamily])) ∨
    (∃ k W, k < 101 ∧ (blockingBusyWait 100 s).1 = true ∧
      Ran s W (List.replicate (k + 1) [statusFrame s.flashFamily]
        ++ [aaiFrames address dataArray n]) ∧
      ((n % 2 = 0 ∧
          writeBlockAAI address dataArray n s = (SFE_FLASH_READ_WRITE_SUCCESS, W)) ∨
       (n % 2 = 1 ∧
          writeBlockAAI address dataArray n s
            = writeByte ((address + n - 1) % 4294967296) (dataArray (n - 1)) W))) := by
  rcases blockingBusyWait_cases 100 s with ⟨_, he⟩ | ⟨k, hk, _, _, he⟩
  · left
    have h0 : n ≠ 0 := by omega
    have h1 : n ≠ 1 := by omega
    have : writeBlockAAI address dataArray n s
        = (SFE_FLASH_READ_WRITE_FAIL_DEVICE_BUSY, afterPolls s 101 100) := by
      simp [writeBlockAAI, h0, h1, he]
    rw [this]
    exact ⟨by rw [he], rfl, ran_afterPolls s _ _⟩
  · right
    refine ⟨k, withTxn (afterPolls s (k + 1) k) (aaiFrames address dataArray n), by omega,
      by rw [he], ran_trans (ran_afterPolls s _ _) (ran_withTxn _ _), ?_⟩
    rw [writeBlockAAI_ready s _ address dataArray n h2 hn he]
    by_cases hp : n % 2 = 1
    · right; exact ⟨hp, by rw [if_pos hp]⟩
    · left; exact ⟨by omega, by rw [if_neg hp]⟩

theorem writeByte_timeout (s : SFE_SPI_FLASH) (address thingToWrite : Nat)
    (h : ∀ k, k ≤ 100 → pollBusy s k = true) :
    writeByte address thingToWrite s
      = (SFE_FLASH_READ_WRITE_FAIL_DEVICE_BUSY, afterPolls s 101 100) := by
  simp [writeByte, blockingBusyWait_timeout 100 s h]

/-- A worked run: three bytes written with auto address increment to a 25xx device that
is idle at the first poll and busy ever after.  The word program goes out, then the
trailing single-byte write gives up. -/
theorem writeBlockAAI_three_then_busy :
    writeBlockAAI 0 (fun _ => 0) 3 (scriptedBus SFE_FLASH_FAMILY_25XX [0, 0] 1)
      = (SFE_FLASH_READ_WRITE_FAIL_DEVICE_BUSY,
         afterPolls (withTxn (afterPolls (scriptedBus SFE_FLASH_FAMILY_25XX [0, 0] 1) 1 0)
           (aaiFrames 0 (fun _ => 0) 3)) 101 100) := by
  have h1 : blockingBusyWait 100 (scriptedBus SFE_FLASH_FAMILY_25XX [0, 0] 1)
      = (true, afterPolls (scriptedBus SFE_FLASH_FAMILY_25XX [0, 0] 1) 1 0) := by
    apply blockingBusyWait_ready 100 _ 0 (by omega)
    · intro j hj; omega
    · simp [pollBusy, busyAt_eq, scriptedBus]
  rw [writeBlockAAI_ready _ _ 0 _ 3 (by omega) (by omega) h1, if_pos (by decide)]
  apply writeByte_timeout
  intro k _
  have hpos : (withTxn (afterPolls (scriptedBus SFE_FLASH_FAMILY_25XX [0, 0] 1) 1 0)
      (aaiFrames 0 (fun _ => 0) 3)).pos = 11 := by
    simp [withTxn, afterPolls, scriptedBus, pollWidth, framesLength, aaiFrames]
  have hget : ∀ i, 2 ≤ i → [0, 0].getD i 1 = 1 := by
    intro i hi
    rw [List.getD_eq_default]
    simpa using hi
  simp only [pollBusy, busyAt_eq, hpos]
  simp only [withTxn, afterPolls, scriptedBus, pollWidth]
  rw [hget _ (by omega)]
  decide

theorem Failed.ne_success {r : sfe_flash_read_write_result_e} (h : Failed r) :
    r ≠ SFE_FLASH_READ_WRITE_SUCCESS := by
  rcases h with h | h <;> rw [h] <;> decide

theorem onlyStatusReads_of_waitThen {s t : SFE_SPI_FLASH} {r : sfe_flash_read_write_result_e}
    {polls : Nat} {fs : List (List Nat)} (h : WaitThen s t r polls fs) (hr : Failed r) :
    onlyStatusReads (callTrace s t) = true :=
  onlyStatusReads_of_ran_polls (waitThen_failed h hr.ne_success).2

theorem onlyStatusReads_callTrace_self (s : SFE_SPI_FLASH) :
    onlyStatusReads (callTrace s s) = true := by
  simp [onlyStatusReads, callTrace, frames, framesAux]

/-! ## The order of frames -/

theorem precededAux_append (target guard : List Nat → Bool) (a b : List (List Nat)) :
    ∀ prev, (∀ q, precededAux target guard q b = true) →
      precededAux target guard prev (a ++ b) = precededAux target guard prev a := by
  induction a with
  | nil => intro prev hb; simp [precededAux, hb]
  | cons f fs ih =>
    intro prev hb
    rw [List.cons_append]
    simp only [precededAux]
    rw [ih (some f) hb]

theorem precededAux_flatten (target guard : List Nat → Bool) (txns : List (List (List Nat)))
    (h : ∀ fs ∈ txns, ∀ q, precededAux target guard q (onBus fs) = true) :
    ∀ q, precededAux target guard q (onBus txns.flatten) = true := by
  induction txns with
  | nil => intro q; simp [onBus, precededAux]
  | cons fs rest ih =>
    intro q
    have hrest := ih (fun gs hgs => h gs (List.mem_cons_of_mem _ hgs))
    rw [List.flatten_cons, onBus_append, precededAux_append _ _ _ _ _ hrest]
    exact h fs (List.mem_cons_self _ _) q

theorem precededAux_guarded_run (target guard : List Nat → Bool) (l : List (List Nat))
    (hl : ∀ f ∈ l, guard f = true) : ∀ g, guard g = true →
      precededAux target guard (some g) l = true := by
  induction l with
  | nil => intro g _; simp [precededAux]
  | cons f fs ih =>
    intro g hg
    simp only [precededAux, hg, Bool.or_true, Bool.true_and]
    exact ih (fun x hx => hl x (List.mem_cons_of_mem _ hx)) f (hl f (List.mem_cons_self _ _))

theorem precededAux_no_target (target guard : List Nat → Bool) (l : List (List Nat))
    (hl : ∀ f ∈ l, target f = false) : ∀ q, precededAux target guard q l = true := by
  induction l with
  | nil => intro q; simp [precededAux]
  | cons f fs ih =>
    intro q
    simp only [precededAux, hl f (List.mem_cons_self _ _), Bool.not_false, Bool.true_or,
      Bool.true_and]
    exact ih (fun x hx => hl x (List.mem_cons_of_mem _ hx)) _

theorem latchProtocol_of_ran {s t : SFE_SPI_FLASH} {txns : List (List (List Nat))}
    (h : Ran s t txns) (hk : ∀ fs ∈ txns, KeepsOrder fs) :
    latchProtocol (frames (callTrace s t)) = true := by
  rw [ran_frames h]
  simp only [latchProtocol, preceded, Bool.and_eq_true]
  exact ⟨⟨precededAux_flatten _ _ txns (fun fs hfs q => (hk fs hfs q).1) none,
    precededAux_flatten _ _ txns (fun fs hfs q => (hk fs hfs q).2.1) none⟩,
    precededAux_flatten _ _ txns (fun fs hfs q => (hk fs hfs q).2.2) none⟩

theorem keepsOrder_status (fam : sfe_flash_family_e) : KeepsOrder [statusFrame fam] := by
  intro q
  cases fam <;>
    simp [onBus, precededAux, startsProgramming, continuesAAI, hasOpcode, statusFrame,
      statusFrame25, statusFrame45]

theorem keepsOrder_status25 : KeepsOrder [[0x05, 0xFF]] := keepsOrder_status SFE_FLASH_FAMILY_25XX

theorem keepsOrder_status45 : KeepsOrder [[0xD7, 0xFF, 0xFF]] :=
  keepsOrder_status SFE_FLASH_FAMILY_45XX

theorem keepsOrder_jedec : KeepsOrder [[0x9F, 0xFF, 0xFF, 0xFF]] := by
  intro q
  simp [onBus, precededAux, startsProgramming, continuesAAI, hasOpcode]

theorem keepsOrder_writeByte (address thingToWrite : Nat) :
    KeepsOrder (writeByteFrames address thingToWrite) := by
  intro q
  simp [writeByteFrames, onBus, precededAux, startsProgramming, continuesAAI, hasOpcode,
    isWriteEnable]

theorem keepsOrder_writeBlock (address n : Nat) (dataArray : Nat → Nat) :
    KeepsOrder [[0x06], [0x02, address >>> 16, address >>> 8, address &&& 0xFF]
      ++ (List.range n).map dataArray] := by
  intro q
  simp [onBus, precededAux, startsProgramming, continuesAAI, hasOpcode, isWriteEnable]

theorem keepsOrder_readBlock (address n : Nat) :
    KeepsOrder [[0x03, address >>> 16, address >>> 8, address &&& 0xFF]
      ++ List.replicate n 0xFF] := by
  intro q
  simp [onBus, precededAux, startsProgramming, continuesAAI, hasOpcode]

theorem keepsOrder_readByte (address : Nat) :
    KeepsOrder [[0x03, address >>> 16, address >>> 8, address &&& 0xFF, 0xFF]] := by
  intro q
  simp [onBus, precededAux, startsProgramming, continuesAAI, hasOpcode]

theorem keepsOrder_erase : KeepsOrder [[0x06], [0xC7]] := by
  intro q
  simp [onBus, precededAux, startsProgramming, continuesAAI, hasOpcode, isWriteEnable]

theorem keepsOrder_disableWrite : KeepsOrder [[0x04]] := by
  intro q
  simp [onBus, precededAux, startsProgramming, continuesAAI, hasOpcode]

theorem keepsOrder_statusReg1 (statusByte : Nat) : KeepsOrder [[0x50], [0x01, statusByte]] := by
  intro q
  simp [onBus, precededAux, startsProgramming, continuesAAI, hasOpcode, isEnableWriteStatus]

theorem keepsOrder_statusReg16 (statusWord : Nat) :
    KeepsOrder [[0x50], [0x01, statusWord >>> 8, statusWord &&& 0xFF]] := by
  intro q
  simp [onBus, precededAux, startsProgramming, continuesAAI, hasOpcode, isEnableWriteStatus]

theorem onBus_aaiFrames (address : Nat) (dataArray : Nat → Nat) (n : Nat) :
    onBus (aaiFrames address dataArray n)
      = [[0x80], [0x06], [0xAD, (address >>> 16) % 256, (address >>> 8) % 256,
          (address &&& 0xFF) % 256, dataArray 0 % 256, dataArray 1 % 256]]
        ++ (List.range (n / 2 - 1)).map
            (fun k => [0xAD, dataArray (2 * k + 2) % 256, dataArray (2 * k + 3) % 256])
        ++ [[0x04]] := by
  simp [onBus, aaiFrames, Function.comp_def]

theorem keepsOrder_aai (address : Nat) (dataArray : Nat → Nat) (n : Nat) :
    KeepsOrder (aaiFrames address dataArray n) := by
  intro q
  rw [onBus_aaiFrames]
  have h04 : ∀ (T G : List Nat → Bool), T [0x04] = false →
      ∀ q, precededAux T G q [[0x04]] = true := by
    intro T G hT q
    simp [precededAux, hT]
  refine ⟨?_, ?_, ?_⟩
  · rw [List.append_assoc, precededAux_append]
    · simp [precededAux, startsProgramming, hasOpcode, isWriteEnable]
    · apply precededAux_no_target
      intro f hf
      simp only [List.mem_append, List.mem_map, List.mem_range, List.mem_singleton,
        List.mem_cons, List.not_mem_nil, or_false] at hf
      rcases hf with ⟨k, _, hfk⟩ | hfk
      · rw [← hfk]; simp [startsProgramming, hasOpcode]
      · rw [hfk]; simp [startsProgramming, hasOpcode]
  · rw [precededAux_append _ _ _ _ _ (h04 _ _ (by simp [continuesAAI, hasOpcode]))]
    simp only [List.cons_append, List.nil_append, precededAux]
    rw [precededAux_guarded_run]
    · simp [continuesAAI, hasOpcode]
    · intro f hf
      replace hf : f ∈ (List.range (n / 2 - 1)).map
          (fun k => [0xAD, dataArray (2 * k + 2) % 256, dataArray (2 * k + 3) % 256]) := hf
      simp only [List.mem_map, List.mem_range] at hf
      obtain ⟨k, _, rfl⟩ := hf
      simp [hasOpcode]
    · simp [hasOpcode]
  · apply precededAux_no_target
    intro f hf
    simp only [List.mem_append, List.mem_cons, List.mem_map, List.mem_range,
      List.mem_singleton, List.not_mem_nil, or_false] at hf
    rcases hf with ((rfl | rfl | rfl) | ⟨k, _, rfl⟩) | rfl <;> simp [hasOpcode]

/-! ## Identification: the JEDEC read -/

theorem getJEDEC_eq (s : SFE_SPI_FLASH) :
    getJEDEC s =
      ((s.resp (s.pos + 1) % 256) * 65536 + (s.resp (s.pos + 2) % 256) * 256
        + s.resp (s.pos + 3) % 256,
      { s with pos := s.pos + 4,
               trace := s.trace ++ [Event.beginTransaction, Event.csLow,
                 Event.transfer 0x9F (s.resp s.pos % 256),
                 Event.transfer 0xFF (s.resp (s.pos + 1) % 256),
                 Event.transfer 0xFF (s.resp (s.pos + 2) % 256),
                 Event.transfer 0xFF (s.resp (s.pos + 3) % 256),
                 Event.csHigh, Event.endTransaction] }) := by
  have h256 : ∀ x : Nat, x % 256 < 256 := fun x => Nat.mod_lt _ (by decide)
  simp only [getJEDEC, getJEDECLoop, beginTransaction, endTransaction, csLow, csHigh, send,
    transfer, List.append_assoc, List.cons_append, List.nil_append]
  rw [jedec_value _ _ _ (h256 _) (h256 _) (h256 _)]
  simp [Nat.add_assoc]

theorem jedec_manu (b0 b1 b2 : Nat) (h0 : b0 < 256) (h1 : b1 < 256) (h2 : b2 < 256) :
    ((b0 * 65536 + b1 * 256 + b2) >>> 16) % 256 = b0 := by
  rw [Nat.shiftRight_eq_div_pow]
  omega

theorem getManufacturerID_fst (s : SFE_SPI_FLASH) :
    (getManufacturerID s).1 =
      if firstJedecByte s = 0x01 then SFE_FLASH_MFG_INFINEON
      else if firstJedecByte s = 0x1F then SFE_FLASH_MFG_ADESTO
      else if firstJedecByte s = 0x20 then SFE_FLASH_MFG_MICRON
      else if firstJedecByte s = 0x9D then SFE_FLASH_MFG_ISSI
      else if firstJedecByte s = 0xBF then SFE_FLASH_MFG_MICROCHIP
      else if firstJedecByte s = 0xC2 then SFE_FLASH_MFG_MACRONIX
      else if firstJedecByte s = 0xC8 then SFE_FLASH_MFG_GIGADEVICE
      else if firstJedecByte s = 0xEF then SFE_FLASH_MFG_WINBOND
      else SFE_FLASH_MFG_UNKNOWN := by
  have h256 : ∀ x : Nat, x % 256 < 256 := fun x => Nat.mod_lt _ (by decide)
  simp only [getManufacturerID, getJEDEC_eq, jedec_manu _ _ _ (h256 _) (h256 _) (h256 _),
    sfe_flash_manufacturer_e.code, firstJedecByte, apply_ite Prod.fst]

theorem debugHex_eq (label : String) (thresholds : List Nat) (value : Nat)
    (s : SFE_SPI_FLASH) :
    ∃ out, debugHex label thresholds value s = { s with debugOut := out } := by
  have hfold : ∀ (l : List Nat) (t : SFE_SPI_FLASH), ∃ out,
      l.foldl (fun st th => if value < th then debug (Printed.text "0" false) st else st) t
        = { t with debugOut := out } := by
    intro l
    induction l with
    | nil => intro t; exact ⟨t.debugOut, rfl⟩
    | cons th l ih =>
      intro t
      simp only [List.foldl_cons]
      by_cases hv : value < th
      · obtain ⟨out, ho⟩ := ih (debug (Printed.text "0" false) t)
        exact ⟨out, by rw [if_pos hv, ho]; rfl⟩
      · obtain ⟨out, ho⟩ := ih t
        exact ⟨out, by rw [if_neg hv, ho]⟩
  obtain ⟨out, ho⟩ := hfold thresholds (debug (Printed.text label false) s)
  exact ⟨out ++ [Printed.hex value true], by simp only [debugHex, ho]; rfl⟩

theorem getManufacturerID_snd (s : SFE_SPI_FLASH) :
    ∃ out, (getManufacturerID s).2 = { (getJEDEC s).2 with debugOut := out } := by
  have h : (getManufacturerID s).2 =
      if (getJEDEC s).2.printDebug = true then
        debugHex "SFE_SPI_FLASH::getManufacturerID: Manu ID: 0x" [0x10]
          (((getJEDEC s).1 >>> 16) % 256) (getJEDEC s).2
      else (getJEDEC s).2 := by
    simp only [getManufacturerID, apply_ite Prod.snd, ite_self]
  rw [h]
  by_cases hd : (getJEDEC s).2.printDebug = true
  · rw [if_pos hd]; exact debugHex_eq _ _ _ _
  · rw [if_neg hd]; exact ⟨_, rfl⟩

theorem getManufacturerID_trace (s : SFE_SPI_FLASH) :
    (getManufacturerID s).2.trace = (getJEDEC s).2.trace := by
  obtain ⟨out, h⟩ := getManufacturerID_snd s
  rw [h]

theorem isConnected_fst (s : SFE_SPI_FLASH) :
    (isConnected s).1 = decide ((getManufacturerID s).1 ≠ SFE_FLASH_MFG_UNKNOWN) := by
  simp only [isConnected]
  generalize getManufacturerID s = m
  rcases m with ⟨mf, t⟩
  cases mf <;> simp

/-! ## The remaining operations as bus acquisitions -/

theorem ran_getStatus1 (s : SFE_SPI_FLASH) : Ran s (getStatus1 s).2 [[[0x05, 0xFF]]] := by
  rw [getStatus1_eq]
  simp [Ran, txnsLength, txnsEvents, txnEvents, framesEvents, frameEvents, xferEvents,
    framesLength, Nat.add_assoc]

theorem ran_getStatus16 (s : SFE_SPI_FLASH) :
    Ran s (getStatus16 s).2 [[[0xD7, 0xFF, 0xFF]]] := by
  rw [getStatus16_eq]
  simp [Ran, txnsLength, txnsEvents, txnEvents, framesEvents, frameEvents, xferEvents,
    framesLength, Nat.add_assoc]

theorem ran_getJEDEC (s : SFE_SPI_FLASH) :
    Ran s (getJEDEC s).2 [[[0x9F, 0xFF, 0xFF, 0xFF]]] := by
  rw [getJEDEC_eq]
  simp [Ran, txnsLength, txnsEvents, txnEvents, framesEvents, frameEvents, xferEvents,
    framesLength, Nat.add_assoc]

theorem ran_getManufacturerID (s : SFE_SPI_FLASH) :
    Ran s (getManufacturerID s).2 [[[0x9F, 0xFF, 0xFF, 0xFF]]] := by
  obtain ⟨out, h⟩ := getManufacturerID_snd s
  rw [h]
  have := ran_trans (ran_getJEDEC s) (ran_debugOut (getJEDEC s).2 out)
  simpa using this

theorem getRawManufacturerID_snd (s : SFE_SPI_FLASH) :
    ∃ out, (getRawManufacturerID s).2 = { (getJEDEC s).2 with debugOut := out } := by
  simp only [getRawManufacturerID]
  by_cases hd : (getJEDEC s).2.printDebug = true
  · rw [if_pos hd]; exact debugHex_eq _ _ _ _
  · rw [if_neg hd]; exact ⟨_, rfl⟩

theorem ran_getRawManufacturerID (s : SFE_SPI_FLASH) :
    Ran s (getRawManufacturerID s).2 [[[0x9F, 0xFF, 0xFF, 0xFF]]] := by
  obtain ⟨out, h⟩ := getRawManufacturerID_snd s
  rw [h]
  have := ran_trans (ran_getJEDEC s) (ran_debugOut (getJEDEC s).2 out)
  simpa using this

theorem getDeviceID_snd (s : SFE_SPI_FLASH) :
    ∃ out, (getDeviceID s).2 = { (getJEDEC s).2 with debugOut := out } := by
  simp only [getDeviceID]
  by_cases hd : (getJEDEC s).2.printDebug = true
  · rw [if_pos hd]; exact debugHex_eq _ _ _ _
  · rw [if_neg hd]; exact ⟨_, rfl⟩

theorem ran_getDeviceID (s : SFE_SPI_FLASH) :
    Ran s (getDeviceID s).2 [[[0x9F, 0xFF, 0xFF, 0xFF]]] := by
  obtain ⟨out, h⟩ := getDeviceID_snd s
  rw [h]
  have := ran_trans (ran_getJEDEC s) (ran_debugOut (getJEDEC s).2 out)
  simpa using this

theorem ran_blockingBusyWait (m : Nat) (s : SFE_SPI_FLASH) :
    ∃ k, k ≤ m + 1 ∧
      Ran s (blockingBusyWait m s).2 (List.replicate k [statusFrame s.flashFamily]) := by
  rcases blockingBusyWait_cases m s with ⟨_, he⟩ | ⟨k, hk, _, _, he⟩
  · exact ⟨m + 1, Nat.le_refl _, by rw [he]; exact ran_afterPolls s _ _⟩
  · exact ⟨k + 1, by omega, by rw [he]; exact ran_afterPolls s _ _⟩

theorem readByte_shape (s : SFE_SPI_FLASH) (address : Nat)
    (result : Option sfe_flash_read_write_result_e) :
    ((blockingBusyWait 100 s).1 = false ∧
      Ran s (readByte address result s).2.2
        (List.replicate 101 [statusFrame s.flashFamily])) ∨
    ((blockingBusyWait 100 s).1 = true ∧ ∃ k, k < 101 ∧
      Ran s (readByte address result s).2.2
        (List.replicate (k + 1) [statusFrame s.flashFamily]
          ++ [[[0x03, address >>> 16, address >>> 8, address &&& 0xFF, 0xFF]]])) := by
  rcases blockingBusyWait_cases 100 s with ⟨_, he⟩ | ⟨k, hk, _, _, he⟩
  · left
    refine ⟨by rw [he], ?_⟩
    have : (readByte address result s).2.2 = afterPolls s 101 100 := by
      simp [readByte, he]
    rw [this]
    exact ran_afterPolls s _ _
  · right
    refine ⟨by rw [he], k, by omega, ?_⟩
    rw [readByte_ready s _ address result he]
    exact ran_trans (ran_afterPolls s _ _) (ran_withTxn _ _)

/-- The bus acquisitions of isConnected: one JEDEC read, or two when the manufacturer is
the one whose family has to be told from the device ID; the object afterwards is as
after these reads, up to the stored family. -/
theorem isConnected_ran (s : SFE_SPI_FLASH) :
    ∃ u fam, (isConnected s).2 = { u with flashFamily := fam } ∧
      (Ran s u [[[0x9F, 0xFF, 0xFF, 0xFF]]] ∨
       Ran s u [[[0x9F, 0xFF, 0xFF, 0xFF]], [[0x9F, 0xFF, 0xFF, 0xFF]]]) := by
  have hm := ran_getManufacturerID s
  have hd := ran_getDeviceID (getManufacturerID s).2
  have hself : ∀ u : SFE_SPI_FLASH, u = { u with flashFamily := u.flashFamily } :=
    fun u => rfl
  simp only [isConnected]
  generalize getManufacturerID s = m at hm hd
  rcases m with ⟨mf, t⟩
  cases mf
  case SFE_FLASH_MFG_ADESTO =>
    simp only [reduceCtorEq, if_false, if_true]
    by_cases h4 : ((getDeviceID t).1 &&& 0xFF00) >>> 13 = 0b100
    · rw [if_pos h4]
      exact ⟨(getDeviceID t).2, SFE_FLASH_FAMILY_25XX, rfl, Or.inr (ran_trans hm hd)⟩
    · rw [if_neg h4]
      by_cases h1 : ((getDeviceID t).1 &&& 0xFF00) >>> 13 = 0b001
      · rw [if_pos h1]
        exact ⟨(getDeviceID t).2, SFE_FLASH_FAMILY_45XX, rfl, Or.inr (ran_trans hm hd)⟩
      · rw [if_neg h1]
        exact ⟨(getDeviceID t).2, _, hself _, Or.inr (ran_trans hm hd)⟩
  case SFE_FLASH_MFG_UNKNOWN =>
    simp only [reduceCtorEq, if_false]
    by_cases hp : t.printDebug = true
    · obtain ⟨out, ho⟩ := debugHex_eq
        "SFE_SPI_FLASH::isConnected: Unknown manufacturer code: 0x" [0x10]
        SFE_FLASH_MFG_UNKNOWN.code t
      refine ⟨_, _, hself _, Or.inl ?_⟩
      rw [if_pos hp, ho]
      have := ran_trans hm (ran_debugOut t out)
      simpa using this
    · refine ⟨_, _, hself _, Or.inl ?_⟩
      rw [if_neg hp]
      exact hm
  all_goals
    simp only [reduceCtorEq, if_false, if_true]
    exact ⟨t, _, hself t, Or.inl hm⟩

theorem keepsOrder_polls (fam : sfe_flash_family_e) (k : Nat) :
    ∀ fs ∈ List.replicate k [statusFrame fam], KeepsOrder fs := by
  intro fs hfs
  rw [List.eq_of_mem_replicate hfs]
  exact keepsOrder_status fam

theorem keepsLatchOrder_of_waitThen {s t : SFE_SPI_FLASH} {r : sfe_flash_read_write_result_e}
    {polls : Nat} {fs : List (List Nat)} (h : WaitThen s t r polls fs) (hfs : KeepsOrder fs) :
    KeepsLatchOrder s t := by
  rcases h with ⟨_, hran⟩ | ⟨_, k, _, hran⟩
  · exact latchProtocol_of_ran hran (keepsOrder_polls _ _)
  · apply latchProtocol_of_ran hran
    intro gs hgs
    rcases List.mem_append.mp hgs with h1 | h1
    · exact keepsOrder_polls _ _ gs h1
    · rw [List.mem_singleton.mp h1]; exact hfs

theorem keepsLatchOrder_self (s : SFE_SPI_FLASH) : KeepsLatchOrder s s :=
  latchProtocol_of_ran (ran_refl s) (by intro fs hfs; cases hfs)

theorem keepsLatchOrder_writeBlockAAI (s : SFE_SPI_FLASH) (address : Nat)
    (dataArray : Nat → Nat) (n : Nat) (hn : n < 65536) :
    KeepsLatchOrder s (writeBlockAAI address dataArray n s).2 := by
  by_cases h0 : n = 0
  · subst h0
    simp only [writeBlockAAI, if_true]
    exact keepsLatchOrder_self s
  by_cases h1 : n = 1
  · subst h1
    have e : writeBlockAAI address dataArray 1 s = writeByte address (dataArray 0) s := by
      simp [writeBlockAAI]
    rw [e]
    exact keepsLatchOrder_of_waitThen (writeByte_shape s _ _) (keepsOrder_writeByte _ _)
  have hmem : ∀ k, ∀ fs ∈ List.replicate (k + 1) [statusFrame s.flashFamily]
      ++ [aaiFrames address dataArray n], KeepsOrder fs := by
    intro k fs hfs
    rcases List.mem_append.mp hfs with h | h
    · exact keepsOrder_polls _ _ fs h
    · rw [List.mem_singleton.mp h]; exact keepsOrder_aai _ _ _
  rcases writeBlockAAI_shape s address dataArray n (by omega) hn with
    ⟨_, _, hran⟩ | ⟨k, W, _, _, hsW, ⟨_, he⟩ | ⟨_, he⟩⟩
  · exact latchProtocol_of_ran hran (keepsOrder_polls _ _)
  · rw [he]
    exact latchProtocol_of_ran hsW (hmem k)
  · rw [he]
    rcases writeByte_shape W ((address + n - 1) % 4294967296) (dataArray (n - 1)) with
      ⟨_, hran⟩ | ⟨_, j, _, hran⟩
    · apply latchProtocol_of_ran (ran_trans hsW hran)
      intro fs hfs
      rcases List.mem_append.mp hfs with h | h
      · exact hmem k fs h
      · exact keepsOrder_polls _ _ fs h
    · apply latchProtocol_of_ran (ran_trans hsW hran)
      intro fs hfs
      rcases List.mem_append.mp hfs with h | h
      · exact hmem k fs h
      · rcases List.mem_append.mp h with h' | h'
        · exact keepsOrder_polls _ _ fs h'
        · rw [List.mem_singleton.mp h']; exact keepsOrder_writeByte _ _

theorem keepsLatchOrder_erase (fuel : Nat) (s t : SFE_SPI_FLASH)
    (r : sfe_flash_read_write_result_e) (h : erase fuel s = some (r, t)) :
    KeepsLatchOrder s t := by
  rcases erase_shape fuel s t r h with ⟨_, hran⟩ | ⟨_, k, j, _, hran⟩
  · exact latchProtocol_of_ran hran (keepsOrder_polls _ _)
  · apply latchProtocol_of_ran hran
    intro fs hfs
    rcases List.mem_append.mp hfs with h1 | h1
    · rcases List.mem_append.mp h1 with h2 | h2
      · exact keepsOrder_polls _ _ fs h2
      · rw [List.mem_singleton.mp h2]; exact keepsOrder_erase
    · exact keepsOrder_polls _ _ fs h1

theorem keepsLatchOrder_readByte (s : SFE_SPI_FLASH) (address : Nat)
    (result : Option sfe_flash_read_write_result_e) :
    KeepsLatchOrder s (readByte address result s).2.2 := by
  rcases readByte_shape s address result with ⟨_, hran⟩ | ⟨_, k, _, hran⟩
  · exact latchProtocol_of_ran hran (keepsOrder_polls _ _)
  · apply latchProtocol_of_ran hran
    intro fs hfs
    rcases List.mem_append.mp hfs with h1 | h1
    · exact keepsOrder_polls _ _ fs h1
    · rw [List.mem_singleton.mp h1]; exact keepsOrder_readByte _

theorem keepsLatchOrder_isConnected (s : SFE_SPI_FLASH) :
    KeepsLatchOrder s (isConnected s).2 := by
  obtain ⟨u, fam, he, hran⟩ := isConnected_ran s
  have hu : KeepsLatchOrder s u := by
    rcases hran with h | h
    · apply latchProtocol_of_ran h
      intro fs hfs
      rw [List.mem_singleton.mp hfs]; exact keepsOrder_jedec
    · apply latchProtocol_of_ran h
      intro fs hfs
      simp only [List.mem_cons, List.mem_singleton, List.not_mem_nil, or_false, or_self] at hfs
      rw [hfs]; exact keepsOrder_jedec
  rw [he]
  exact hu

theorem blockingBusyWait_idle (m : Nat) (s : SFE_SPI_FLASH) (h : pollBusy s 0 = false) :
    blockingBusyWait m s = (true, afterPolls s 1 0) :=
  blockingBusyWait_ready m s 0 (Nat.zero_le _) (fun j hj => absurd hj (Nat.not_lt_zero j)) h

theorem frames_after_one_poll (s : SFE_SPI_FLASH) (fs : List (List Nat)) :
    frames (callTrace s (withTxn (afterPolls s 1 0) fs))
      = statusFrame s.flashFamily :: onBus fs := by
  rw [ran_frames (ran_trans (ran_afterPolls s 1 0) (ran_withTxn _ fs))]
  simp only [List.flatten_append, onBus_append, onBus_polls]
  simp

/-! ## Counting frames of the auto-increment write -/

theorem and_255 (x : Nat) : x &&& 255 = x % 256 :=
  Nat.and_pow_two_sub_one_eq_mod x 8

theorem onBus_writeByteFrames (address value : Nat) :
    onBus (writeByteFrames (address % 4294967296) value)
      = [[0x06], pageProgramFrame address value] := by
  have h16 : ((address % 4294967296) >>> 16) % 256 = (address >>> 16) % 256 := by
    simp only [Nat.shiftRight_eq_div_pow]; omega
  have h8 : ((address % 4294967296) >>> 8) % 256 = (address >>> 8) % 256 := by
    simp only [Nat.shiftRight_eq_div_pow]; omega
  have h0 : ((address % 4294967296) &&& 255) % 256 = address % 256 := by
    rw [and_255]; omega
  simp [onBus, writeByteFrames, pageProgramFrame, h16, h8, h0]

theorem onBus_writeByteFrames_exact (address value : Nat) :
    onBus (writeByteFrames address value) = [[0x06], pageProgramFrame address value] := by
  have h0 : (address &&& 255) % 256 = address % 256 := by
    rw [and_255]; omega
  simp [onBus, writeByteFrames, pageProgramFrame, h0]

theorem filter_aai_words (address : Nat) (dataArray : Nat → Nat) (n : Nat) :
    ((onBus (aaiFrames address dataArray n)).filter (hasOpcode 0xAD)).length
        = 1 + (n / 2 - 1) ∧
    (onBus (aaiFrames address dataArray n)).filter (hasOpcode 0x02) = [] := by
  rw [onBus_aaiFrames]
  have hall : ((List.range (n / 2 - 1)).map
      (fun k => [0xAD, dataArray (2 * k + 2) % 256, dataArray (2 * k + 3) % 256])).filter
        (hasOpcode 0xAD)
      = (List.range (n / 2 - 1)).map
          (fun k => [0xAD, dataArray (2 * k + 2) % 256, dataArray (2 * k + 3) % 256]) := by
    rw [List.filter_eq_self]
    intro f hf
    simp only [List.mem_map, List.mem_range] at hf
    obtain ⟨k, _, rfl⟩ := hf
    simp [hasOpcode]
  have hnone : ((List.range (n / 2 - 1)).map
      (fun k => [0xAD, dataArray (2 * k + 2) % 256, dataArray (2 * k + 3) % 256])).filter
        (hasOpcode 0x02) = [] := by
    rw [List.filter_eq_nil_iff]
    intro f hf
    simp only [List.mem_map, List.mem_range] at hf
    obtain ⟨k, _, rfl⟩ := hf
    simp [hasOpcode]
  constructor
  · rw [List.filter_append, List.filter_append, hall]
    simp [hasOpcode, List.filter]
    omega
  · rw [List.filter_append, List.filter_append, hnone]
    simp [hasOpcode, List.filter]

theorem busyAt_of_ran {s t : SFE_SPI_FLASH} {txns : List (List (List Nat))}
    (h : Ran s t txns) (p : Nat) : busyAt t p = busyAt s p :=
  busyAt_congr s t p h.1 h.2.2.1

theorem filter_status_cons (fam : sfe_flash_family_e) (l : List (List Nat)) :
    (statusFrame fam :: l).filter (hasOpcode 0xAD) = l.filter (hasOpcode 0xAD) ∧
    (statusFrame fam :: l).filter (hasOpcode 0x02) = l.filter (hasOpcode 0x02) := by
  have hst : hasOpcode 0xAD (statusFrame fam) = false ∧
      hasOpcode 0x02 (statusFrame fam) = false := by
    cases fam <;> decide
  simp [List.filter_cons, hst.1, hst.2]

theorem filter_writeByte (address value : Nat) :
    [[0x06], pageProgramFrame address value].filter (hasOpcode 0xAD) = [] ∧
    [[0x06], pageProgramFrame address value].filter (hasOpcode 0x02)
      = [pageProgramFrame address value] := by
  simp [List.filter_cons, hasOpcode, pageProgramFrame]

theorem aaiPayload_append (a b : List (List Nat)) :
    aaiPayload (a ++ b) = aaiPayload a ++ aaiPayload b := by
  induction a with
  | nil => simp [aaiPayload]
  | cons f fs ih =>
    rw [List.cons_append]
    simp only [aaiPayload]
    rw [ih, List.append_assoc]

theorem aaiPayload_pairs (d : Nat → Nat) (j : Nat) :
    [d 0 % 256, d 1 % 256] ++ aaiPayload ((List.range j).map
        (fun k => [0xAD, d (2 * k + 2) % 256, d (2 * k + 3) % 256]))
      = (List.range (2 * (j + 1))).map (fun i => d i % 256) := by
  induction j with
  | zero => simp [aaiPayload, List.range_succ]
  | succ j ih =>
    have e : 2 * (j + 1 + 1) = 2 * (j + 1) + 1 + 1 := by omega
    rw [List.range_succ, List.map_append, aaiPayload_append, ← List.append_assoc, ih, e,
      List.range_succ, List.range_succ]
    have e2 : 2 * j + 2 = 2 * (j + 1) := by omega
    have e3 : 2 * j + 3 = 2 * (j + 1) + 1 := by omega
    simp [aaiPayload, hasOpcode, e2, e3]

/-! ## After a successful wait -/

theorem wait_success (m : Nat) (s : SFE_SPI_FLASH) (hw : (blockingBusyWait m s).1 = true) :
    ∃ k, k ≤ m ∧ (∀ j, j < k → pollBusy s j = true) ∧ pollBusy s k = false ∧
      blockingBusyWait m s = (true, afterPolls s (k + 1) k) := by
  rcases blockingBusyWait_cases m s with ⟨_, he⟩ | ⟨k, hk, hlt, hk0, he⟩
  · rw [he] at hw; simp at hw
  · exact ⟨k, hk, hlt, hk0, he⟩

theorem wait_failure (m : Nat) (s : SFE_SPI_FLASH) (hw : (blockingBusyWait m s).1 = false) :
    (∀ k, k ≤ m → pollBusy s k = true) ∧
      blockingBusyWait m s = (false, afterPolls s (m + 1) m) := by
  rcases blockingBusyWait_cases m s with ⟨hall, he⟩ | ⟨k, _, _, _, he⟩
  · exact ⟨hall, he⟩
  · rw [he] at hw; simp at hw

theorem ran_after_polls_txn (s : SFE_SPI_FLASH) (k d : Nat) (fs : List (List Nat)) :
    Ran s (withTxn (afterPolls s k d) fs)
      (List.replicate k [statusFrame s.flashFamily] ++ [fs]) :=
  ran_trans (ran_afterPolls s k d) (ran_withTxn _ fs)

theorem frames_after_polls_txn (s : SFE_SPI_FLASH) (k d : Nat) (fs : List (List Nat)) :
    frames (callTrace s (withTxn (afterPolls s k d) fs))
      = List.replicate k (statusFrame s.flashFamily) ++ onBus fs := by
  rw [ran_frames (ran_after_polls_txn s k d fs)]
  simp only [List.flatten_append, onBus_append, onBus_polls]
  simp

theorem onBus_pageProgram (address : Nat) (data : List Nat) :
    onBus [[0x06], [0x02, address >>> 16, address >>> 8, address &&& 0xFF] ++ data]
      = [[0x06], [0x02, (address >>> 16) % 256, (address >>> 8) % 256, address % 256]
          ++ data.map (· % 256)] := by
  have h0 : (address &&& 255) % 256 = address % 256 := by
    rw [and_255]; omega
  simp [onBus, h0]

/-! ## Bytes received -/

theorem received_append (a b : List Event) : received (a ++ b) = received a ++ received b := by
  induction a with
  | nil => simp [received]
  | cons e es ih =>
    rw [List.cons_append]
    cases e <;> simp only [received, ih, List.cons_append]

theorem received_xferEvents (resp : Nat → Nat) (outs : List Nat) : ∀ p : Nat,
    received (xferEvents resp p outs)
      = (List.range outs.length).map (fun i => resp (p + i) % 256) := by
  induction outs with
  | nil => intro p; simp [xferEvents, received]
  | cons x xs ih =>
    intro p
    rw [xferEvents, received, ih, List.length_cons, List.range_succ_eq_map, List.map_cons,
      List.map_map]
    have hf : ((fun i => resp (p + i) % 256) ∘ Nat.succ)
        = (fun i => resp (p + 1 + i) % 256) := by
      funext i
      have e : p + Nat.succ i = p + 1 + i := by omega
      simp only [Function.comp, e]
    rw [hf]
    rfl

theorem received_single_frame (resp : Nat → Nat) (p : Nat) (f : List Nat) :
    received (txnEvents resp p [f])
      = (List.range f.length).map (fun i => resp (p + i) % 256) := by
  have e : txnEvents resp p [f] = Event.beginTransaction :: Event.csLow ::
      (xferEvents resp p f ++ [Event.csHigh, Event.endTransaction]) := by
    simp [txnEvents, framesEvents, frameEvents]
  rw [e, received, received, received_append, received_xferEvents]
  simp [received]

/-! ## Values read from the JEDEC identifier -/

theorem and_65535 (x : Nat) : x &&& 65535 = x % 65536 :=
  Nat.and_pow_two_sub_one_eq_mod x 16

theorem getRawManufacturerID_fst (s : SFE_SPI_FLASH) :
    (getRawManufacturerID s).1 = s.resp (s.pos + 1) % 256 := by
  have h256 : ∀ x : Nat, x % 256 < 256 := fun x => Nat.mod_lt _ (by decide)
  simp only [getRawManufacturerID, getJEDEC_eq, jedec_manu _ _ _ (h256 _) (h256 _) (h256 _)]

theorem getDeviceID_fst (s : SFE_SPI_FLASH) :
    (getDeviceID s).1 = (s.resp (s.pos + 2) % 256) * 256 + s.resp (s.pos + 3) % 256 := by
  have h256 : ∀ x : Nat, x % 256 < 256 := fun x => Nat.mod_lt _ (by decide)
  have h1 := h256 (s.resp (s.pos + 1))
  have h2 := h256 (s.resp (s.pos + 2))
  have h3 := h256 (s.resp (s.pos + 3))
  simp only [getDeviceID, getJEDEC_eq, and_65535]
  omega

theorem family_of_waitThen {s t : SFE_SPI_FLASH} {r : sfe_flash_read_write_result_e}
    {polls : Nat} {fs : List (List Nat)} (h : WaitThen s t r polls fs) :
    t.flashFamily = s.flashFamily := by
  rcases h with ⟨_, hran⟩ | ⟨_, _, _, hran⟩ <;> exact hran.1

theorem family_writeBlockAAI (s : SFE_SPI_FLASH) (address : Nat) (dataArray : Nat → Nat)
    (n : Nat) (hn : n < 65536) :
    (writeBlockAAI address dataArray n s).2.flashFamily = s.flashFamily := by
  by_cases h0 : n = 0
  · subst h0; simp [writeBlockAAI]
  by_cases h1 : n = 1
  · subst h1
    have e : writeBlockAAI address dataArray 1 s = writeByte address (dataArray 0) s := by
      simp [writeBlockAAI]
    rw [e]
    exact family_of_waitThen (writeByte_shape s _ _)
  rcases writeBlockAAI_shape s address dataArray n (by omega) hn with
    ⟨_, _, hran⟩ | ⟨k, W, _, _, hsW, ⟨_, he⟩ | ⟨_, he⟩⟩
  · exact hran.1
  · rw [he]; exact hsW.1
  · rw [he, family_of_waitThen (writeByte_shape W _ _)]; exact hsW.1

/-! ## Addresses -/

theorem send_congr (x y : Nat) (h : x % 256 = y % 256) : send x = send y := by
  funext s
  simp [send, transfer, h]

theorem address_congr (a b : Nat) (h : a % 16777216 = b % 16777216) :
    send (a >>> 16) = send (b >>> 16) ∧ send (a >>> 8) = send (b >>> 8) ∧
      send (a &&& 0xFF) = send (b &&& 0xFF) := by
  refine ⟨send_congr _ _ ?_, send_congr _ _ ?_, send_congr _ _ ?_⟩
  · simp only [Nat.shiftRight_eq_div_pow]; omega
  · simp only [Nat.shiftRight_eq_div_pow]; omega
  · rw [and_255, and_255]; omega

theorem writeByte_congr (a b : Nat) (h : a % 16777216 = b % 16777216) :
    writeByte a = writeByte b := by
  obtain ⟨e16, e8, e0⟩ := address_congr a b h
  funext v s
  simp only [writeByte, e16, e8, e0]

theorem shiftRight_and (x m i : Nat) : (x &&& m) >>> i = (x >>> i) &&& (m >>> i) := by
  apply Nat.eq_of_testBit_eq
  intro j
  simp [Nat.testBit_shiftRight, Nat.testBit_and]

theorem family_code (b1 b2 : Nat) (h1 : b1 < 256) (h2 : b2 < 256) :
    ((b1 * 256 + b2) &&& 0xFF00) >>> 13 = b1 / 32 := by
  have e7 : (0xFF00 : Nat) >>> 13 = 2 ^ 3 - 1 := by decide
  rw [shiftRight_and, e7, Nat.and_pow_two_sub_one_eq_mod, Nat.shiftRight_eq_div_pow]
  omega

theorem frames_writeBlockAAI_head (s : SFE_SPI_FLASH) (address : Nat)
    (dataArray : Nat → Nat) (n : Nat) (h2 : 2 ≤ n) (hn : n < 65536)
    (hw : (blockingBusyWait 100 s).1 = true) :
    ∃ k rest, k < 101 ∧ (∀ j, j < k → pollBusy s j = true) ∧ pollBusy s k = false ∧
      frames (callTrace s (writeBlockAAI address dataArray n s).2)
        = List.replicate (k + 1) (statusFrame s.flashFamily)
          ++ onBus (aaiFrames address dataArray n) ++ rest := by
  obtain ⟨k, hk, hlt, hk0, he⟩ := wait_success 100 s hw
  have hsW := ran_after_polls_txn s (k + 1) k (aaiFrames address dataArray n)
  rw [writeBlockAAI_ready s _ address dataArray n h2 hn he]
  by_cases hodd : n % 2 = 1
  · rw [if_pos hodd]
    have hsplit : ∃ txns, Ran (withTxn (afterPolls s (k + 1) k) (aaiFrames address dataArray n))
        (writeByte ((address + n - 1) % 4294967296) (dataArray (n - 1))
          (withTxn (afterPolls s (k + 1) k) (aaiFrames address dataArray n))).2 txns := by
      rcases writeByte_shape (withTxn (afterPolls s (k + 1) k) (aaiFrames address dataArray n))
        ((address + n - 1) % 4294967296) (dataArray (n - 1)) with ⟨_, h⟩ | ⟨_, _, _, h⟩
      · exact ⟨_, h⟩
      · exact ⟨_, h⟩
    obtain ⟨txns, htx⟩ := hsplit
    refine ⟨k, onBus txns.flatten, by omega, hlt, hk0, ?_⟩
    rw [ran_frames (ran_trans hsW htx)]
    simp only [List.flatten_append, onBus_append, onBus_polls, List.flatten_cons,
      List.flatten_nil, List.append_nil]
  · rw [if_neg hodd]
    refine ⟨k, [], by omega, hlt, hk0, ?_⟩
    rw [frames_after_polls_txn, List.append_nil]

/-! ## The family told from the device ID -/

theorem getManufacturerID_adesto (s : SFE_SPI_FLASH) (hm : firstJedecByte s = 0x1F) :
    (getManufacturerID s).1 = SFE_FLASH_MFG_ADESTO := by
  rw [getManufacturerID_fst, hm]
  decide

theorem familyCode_isConnected (s : SFE_SPI_FLASH) :
    ((getDeviceID (getManufacturerID s).2).1 &&& 0xFF00) >>> 13 = deviceIdByte s / 32 := by
  have hr := ran_getManufacturerID s
  have hp : (getManufacturerID s).2.pos = s.pos + 4 := by
    rw [hr.2.2.2.1]
    simp [txnsLength, framesLength]
  rw [getDeviceID_fst, hr.2.2.1, hp,
    family_code _ _ (Nat.mod_lt _ (by decide)) (Nat.mod_lt _ (by decide))]
  rfl

theorem isConnected_adesto (s : SFE_SPI_FLASH) (hm : firstJedecByte s = 0x1F) :
    isConnected s = (true,
      if deviceIdByte s / 32 = 0b100 then
        { (getDeviceID (getManufacturerID s).2).2 with flashFamily := SFE_FLASH_FAMILY_25XX }
      else if deviceIdByte s / 32 = 0b001 then
        { (getDeviceID (getManufacturerID s).2).2 with flashFamily := SFE_FLASH_FAMILY_45XX }
      else (getDeviceID (getManufacturerID s).2).2) := by
  simp only [isConnected, getManufacturerID_adesto s hm, familyCode_isConnected, reduceCtorEq,
    if_false, if_true]

/-! ## The wait after the erase command -/

theorem pollBusy_of_ran {u t : SFE_SPI_FLASH} {m : Nat}
    (h : Ran u t (List.replicate m [statusFrame u.flashFamily])) (j : Nat) :
    pollBusy t j = pollBusy u (m + j) := by
  have hp : t.pos = u.pos + pollWidth u.flashFamily * m := by
    rw [h.2.2.2.1, txnsLength_polls]
  simp only [pollBusy]
  rw [busyAt_of_ran h, hp, h.1, Nat.mul_add, Nat.add_assoc]

theorem isBusy_fst (u : SFE_SPI_FLASH) : (isBusy u).1 = pollBusy u 0 := by
  rw [isBusy_eq]
  simp only [pollBusy, Nat.mul_zero, Nat.add_zero]

theorem isBusy_fst_delay (d : Nat) (u : SFE_SPI_FLASH) :
    (isBusy (delay d u)).1 = pollBusy u 0 := by
  rw [isBusy_eq]
  simp only [pollBusy, delay, busyAt_eq, Nat.mul_zero, Nat.add_zero]

theorem ran_isBusy_delay (d : Nat) (u : SFE_SPI_FLASH) :
    Ran u (isBusy (delay d u)).2 (List.replicate 1 [statusFrame u.flashFamily]) := by
  have := ran_trans (ran_delay u d) (ran_isBusy (delay d u))
  simpa [delay] using this

/-- The inner loop when every poll it makes reads busy: it runs all its iterations. -/
theorem eraseInner_busy (n : Nat) : ∀ u : SFE_SPI_FLASH,
    (∀ j, j < n → pollBusy u j = true) →
    Ran u (eraseInner n u) (List.replicate n [statusFrame u.flashFamily]) := by
  induction n with
  | zero => intro u _; exact ran_refl u
  | succ n ih =>
    intro u hb
    have h1 := ran_isBusy_delay 10 u
    have h0 : (isBusy (delay 10 u)).1 = true := by
      rw [isBusy_fst_delay]; exact hb 0 (Nat.succ_pos n)
    simp only [eraseInner]
    rw [if_neg (by rw [h0]; decide)]
    have h2 := ih (isBusy (delay 10 u)).2
      (fun j hj => by rw [pollBusy_of_ran h1]; exact hb (1 + j) (by omega))
    have h := ran_polls_trans h1 h2
    have e : 1 + n = n + 1 := Nat.add_comm 1 n
    rw [e] at h
    exact h

/-- The inner loop when poll `r` is the first that reads idle: it stops after it. -/
theorem eraseInner_idle (n : Nat) : ∀ (u : SFE_SPI_FLASH) (r : Nat), r < n →
    (∀ j, j < r → pollBusy u j = true) → pollBusy u r = false →
    Ran u (eraseInner n u) (List.replicate (r + 1) [statusFrame u.flashFamily]) := by
  induction n with
  | zero => intro u r hr; exact absurd hr (Nat.not_lt_zero r)
  | succ n ih =>
    intro u r hr hb hi
    have h1 := ran_isBusy_delay 10 u
    simp only [eraseInner]
    cases r with
    | zero =>
      have h0 : (isBusy (delay 10 u)).1 = false := by rw [isBusy_fst_delay]; exact hi
      rw [if_pos h0]
      exact h1
    | succ r =>
      have h0 : (isBusy (delay 10 u)).1 = true := by
        rw [isBusy_fst_delay]; exact hb 0 (Nat.succ_pos r)
      rw [if_neg (by rw [h0]; decide)]
      have h2 := ih (isBusy (delay 10 u)).2 r (by omega)
        (fun j hj => by rw [pollBusy_of_ran h1]; exact hb (1 + j) (by omega))
        (by rw [pollBusy_of_ran h1, Nat.add_comm]; exact hi)
      have h := ran_polls_trans h1 h2
      have e : 1 + (r + 1) = r + 1 + 1 := by omega
      rw [e] at h
      exact h

/-- The wait after the erase command on a device that reads busy at exactly the first
`k` polls: it ends, after `erasePolls k` polls, whatever the fuel from `k + 1` on. -/
theorem eraseWait_exact (k : Nat) : ∀ u : SFE_SPI_FLASH,
    (∀ j, pollBusy u j = decide (j < k)) →
    ∃ t, Ran u t (List.replicate (erasePolls k) [statusFrame u.flashFamily]) ∧
      ∀ fuel, k + 1 ≤ fuel → eraseWait fuel u = some t := by
  induction k using Nat.strong_induction_on with
  | _ k ih =>
    intro u hp
    have h1 : Ran u (isBusy u).2 (List.replicate 1 [statusFrame u.flashFamily]) :=
      ran_isBusy u
    by_cases hk0 : k = 0
    · subst hk0
      refine ⟨(isBusy u).2, h1, ?_⟩
      intro fuel hf
      obtain ⟨fuel, rfl⟩ : ∃ f, fuel = f + 1 := ⟨fuel - 1, by omega⟩
      have h0 : (isBusy u).1 = false := by rw [isBusy_fst, hp 0]; decide
      simp only [eraseWait]
      rw [if_neg (by rw [h0]; decide)]
    · have h0 : (isBusy u).1 = true := by
        rw [isBusy_fst, hp 0]; exact decide_eq_true (by omega)
      obtain ⟨D, hD⟩ : ∃ D, D = (if (isBusy u).2.printDebug = true
          then debug (Printed.text "." false) (isBusy u).2 else (isBusy u).2) := ⟨_, rfl⟩
      have hstep : ∀ fuel, eraseWait (fuel + 1) u = eraseWait fuel (eraseInner 50 D) := by
        intro fuel
        simp only [eraseWait]
        rw [if_pos h0, ← hD]
      have hDran : Ran u D (List.replicate (1 + 0) [statusFrame u.flashFamily]) := by
        have h2 : Ran (isBusy u).2 D
            (List.replicate 0 [statusFrame (isBusy u).2.flashFamily]) := by
          rw [hD]
          split
          · exact ran_debug _ _
          · exact ran_refl _
        exact ran_polls_trans h1 h2
      have hDp : ∀ j, pollBusy D j = decide (1 + 0 + j < k) := fun j => by
        rw [pollBusy_of_ran hDran, hp]
      by_cases hk : k ≤ 50
      · have hE := eraseInner_idle 50 D (k - 1) (by omega)
          (fun j hj => by rw [hDp]; exact decide_eq_true (by omega))
          (by rw [hDp]; exact decide_eq_false (by omega))
        have hE2 := ran_polls_trans hDran hE
        obtain ⟨t, ht, hfu⟩ := ih 0 (by omega) (eraseInner 50 D) (fun j => by
          rw [pollBusy_of_ran hE2, hp, decide_eq_decide]; omega)
        have e : 1 + 0 + (k - 1 + 1) + erasePolls 0 = erasePolls k := by
          simp only [erasePolls]
          split_ifs <;> omega
        refine ⟨t, ?_, ?_⟩
        · rw [← e]; exact ran_polls_trans hE2 ht
        · intro fuel hf
          obtain ⟨fuel, rfl⟩ : ∃ f, fuel = f + 1 := ⟨fuel - 1, by omega⟩
          rw [hstep]
          exact hfu fuel (by omega)
      · have hE := eraseInner_busy 50 D
          (fun j hj => by rw [hDp]; exact decide_eq_true (by omega))
        have hE2 := ran_polls_trans hDran hE
        obtain ⟨t, ht, hfu⟩ := ih (k - 51) (by omega) (eraseInner 50 D) (fun j => by
          rw [pollBusy_of_ran hE2, hp, decide_eq_decide]; omega)
        have e : 1 + 0 + 50 + erasePolls (k - 51) = erasePolls k := by
          simp only [erasePolls]
          split_ifs <;> omega
        refine ⟨t, ?_, ?_⟩
        · rw [← e]; exact ran_polls_trans hE2 ht
        · intro fuel hf
          obtain ⟨fuel, rfl⟩ : ∃ f, fuel = f + 1 := ⟨fuel - 1, by omega⟩
          rw [hstep]
          exact hfu fuel (by omega)

theorem erase_cmd (w : SFE_SPI_FLASH) :
    endTransaction (csHigh (send SFE_FLASH_COMMAND_CHIP_ERASE (csLow (csHigh
      (send SFE_FLASH_COMMAND_WRITE_ENABLE (csLow (beginTransaction w)))))))
      = withTxn w [[0x06], [0xC7]] := by
  simp [beginTransaction, endTransaction, csLow, csHigh, send, transfer, withTxn,
    txnEvents, framesEvents, frameEvents, xferEvents, framesLength, Nat.add_assoc]

/-- The erase call when the initial wait ends at poll `i` and the device then reads busy
at exactly the first `k` polls after the command. -/
theorem erase_exact (s : SFE_SPI_FLASH) (i k : Nat)
    (he : blockingBusyWait 1000 s = (true, afterPolls s (i + 1) i))
    (hpost : ∀ j, busyAt s (s.pos + pollWidth s.flashFamily * (i + 1) + 2
        + pollWidth s.flashFamily * j) = decide (j < k)) :
    ∃ t, Ran s t (List.replicate (i + 1) [statusFrame s.flashFamily] ++ [[[0x06], [0xC7]]]
        ++ List.replicate (erasePolls k) [statusFrame s.flashFamily]) ∧
      ∀ fuel, k + 1 ≤ fuel → erase fuel s = some (SFE_FLASH_READ_WRITE_SUCCESS, t) := by
  obtain ⟨W, hW⟩ : ∃ W, W =
      (if (withTxn (afterPolls s (i + 1) i) [[0x06], [0xC7]]).printDebug = true
        then debug (Printed.text "SFE_SPI_FLASH::erase: Erasing entire space" true)
          (withTxn (afterPolls s (i + 1) i) [[0x06], [0xC7]])
        else withTxn (afterPolls s (i + 1) i) [[0x06], [0xC7]]) := ⟨_, rfl⟩
  have hWran : Ran (withTxn (afterPolls s (i + 1) i) [[0x06], [0xC7]]) W [] := by
    rw [hW]
    split
    · exact ran_debug _ _
    · exact ran_refl _
  have hsW : Ran s W (List.replicate (i + 1) [statusFrame s.flashFamily]
      ++ [[[0x06], [0xC7]]]) := by
    have := ran_trans (ran_trans (ran_afterPolls s (i + 1) i) (ran_withTxn _ _)) hWran
    simpa using this
  have hWp : ∀ j, pollBusy W j = decide (j < k) := by
    intro j
    have hp : W.pos = s.pos + pollWidth s.flashFamily * (i + 1) + 2 := by
      rw [hsW.2.2.2.1, txnsLength_append, txnsLength_polls]
      simp [txnsLength, framesLength, Nat.add_assoc]
    simp only [pollBusy]
    rw [busyAt_of_ran hsW, hp, hsW.1]
    exact hpost j
  obtain ⟨u, hu, hfu⟩ := eraseWait_exact k W hWp
  rw [hsW.1] at hu
  refine ⟨if u.printDebug = true then
      debug (Printed.seconds (u.millis - W.millis) true)
        (debug (Printed.text "SFE_SPI_FLASH::erase: Time taken: " false)
          (debug (Printed.text "\nSFE_SPI_FLASH::erase: Erase complete" true) u))
      else u, ?_, ?_⟩
  · have hlast : Ran u (if u.printDebug = true then
        debug (Printed.seconds (u.millis - W.millis) true)
          (debug (Printed.text "SFE_SPI_FLASH::erase: Time taken: " false)
            (debug (Printed.text "\nSFE_SPI_FLASH::erase: Erase complete" true) u))
        else u) [] := by
      split
      · exact ran_trans (ran_trans (ran_debug _ _) (ran_debug _ _)) (ran_debug _ _)
      · exact ran_refl _
    have := ran_trans (ran_trans hsW hu) hlast
    simpa using this
  · intro fuel hf
    simp only [erase, he, Bool.true_eq_false, if_false, erase_cmd]
    rw [← hW, hfu fuel hf]

theorem filter_ne_replicate {α : Type} [DecidableEq α] (x : α) (n : Nat) :
    (List.replicate n x).filter (fun f => decide (f ≠ x)) = [] := by
  rw [List.filter_eq_nil_iff]
  intro a ha
  rw [List.eq_of_mem_replicate ha]
  simp

theorem eraseScript_wait :
    blockingBusyWait 1000
        (scriptedBus SFE_FLASH_FAMILY_25XX [0, 0, 0, 0, 0, 1, 0, 1, 0, 1] 0)
      = (true, afterPolls
          (scriptedBus SFE_FLASH_FAMILY_25XX [0, 0, 0, 0, 0, 1, 0, 1, 0, 1] 0) 1 0) :=
  blockingBusyWait_idle 1000 _ (by simp [pollBusy, busyAt_eq, scriptedBus])

theorem eraseScript_post (j : Nat) :
    busyAt (scriptedBus SFE_FLASH_FAMILY_25XX [0, 0, 0, 0, 0, 1, 0, 1, 0, 1] 0)
      ((blockingBusyWait 1000
          (scriptedBus SFE_FLASH_FAMILY_25XX [0, 0, 0, 0, 0, 1, 0, 1, 0, 1] 0)).2.pos + 2
        + pollWidth
            (scriptedBus SFE_FLASH_FAMILY_25XX [0, 0, 0, 0, 0, 1, 0, 1, 0, 1] 0).flashFamily
          * j)
      = decide (j < 3) := by
  rw [eraseScript_wait]
  simp only [busyAt_eq, afterPolls, scriptedBus, pollWidth]
  rcases j with _ | _ | _ | j
  · decide
  · decide
  · decide
  · have e : 0 + 2 * 1 + 2 + 2 * (j + 1 + 1 + 1) + 1 = 2 * j + 11 := by omega
    rw [e, List.getD_eq_default _ _ (by simp)]
    simp

/-! ## The family after isConnected -/

theorem getManufacturerID_ne_adesto (s : SFE_SPI_FLASH) (h : firstJedecByte s ≠ 0x1F) :
    (getManufacturerID s).1 ≠ SFE_FLASH_MFG_ADESTO := by
  rw [getManufacturerID_fst]
  split_ifs <;> simp_all

theorem isConnected_other (s : SFE_SPI_FLASH) (h : firstJedecByte s ≠ 0x1F) :
    (isConnected s).2.flashFamily = s.flashFamily := by
  have hm := ran_getManufacturerID s
  have hne := getManufacturerID_ne_adesto s h
  simp only [isConnected]
  generalize getManufacturerID s = m at hm hne
  rcases m with ⟨mf, t⟩
  cases mf
  case SFE_FLASH_MFG_ADESTO => exact absurd rfl hne
  case SFE_FLASH_MFG_UNKNOWN =>
    simp only [reduceCtorEq, if_false]
    by_cases hp : t.printDebug = true
    · obtain ⟨out, ho⟩ := debugHex_eq
        "SFE_SPI_FLASH::isConnected: Unknown manufacturer code: 0x" [0x10]
        SFE_FLASH_MFG_UNKNOWN.code t
      rw [if_pos hp, ho]
      exact hm.1
    · rw [if_neg hp]
      exact hm.1
  all_goals
    simp only [reduceCtorEq, if_false, if_true]
    exact hm.1

theorem isConnected_adesto_other (s : SFE_SPI_FLASH) (hm : firstJedecByte s = 0x1F)
    (h4 : deviceIdByte s / 32 ≠ 0b100) (h1 : deviceIdByte s / 32 ≠ 0b001) :
    (isConnected s).2.flashFamily = s.flashFamily := by
  rw [isConnected_adesto s hm, if_neg h4, if_neg h1]
  exact ((ran_getDeviceID _).1).trans (ran_getManufacturerID s).1

theorem isConnected_known (s : SFE_SPI_FLASH) :
    (isConnected s).1 = decide (firstJedecByte s ∈ knownManufacturerCodes) := by
  rw [isConnected_fst, getManufacturerID_fst]
  simp only [knownManufacturerCodes, List.mem_cons, List.mem_singleton, List.mem_nil_iff,
    or_false]
  split_ifs <;> simp_all

/-! ## The polls after the erase command -/

theorem framesAfterErase_polls (fam : sfe_flash_family_e) (a : Nat)
    (rest : List (List Nat)) :
    framesAfterErase (List.replicate a (statusFrame fam) ++ [[0x06], [0xC7]] ++ rest)
      = rest := by
  have hst : (statusFrame fam != [0xC7]) = true := by cases fam <;> decide
  induction a with
  | zero =>
    show (List.dropWhile (fun f => f != [0xC7]) ([0x06] :: [0xC7] :: rest)).tail = rest
    rw [List.dropWhile_cons, if_pos (by decide), List.dropWhile_cons, if_neg (by decide)]
    rfl
  | succ a ih =>
    simp only [framesAfterErase] at ih ⊢
    rw [List.replicate_succ, List.cons_append, List.cons_append, List.dropWhile_cons,
      if_pos hst]
    exact ih

theorem callTrace_polls_txn_polls {s t : SFE_SPI_FLASH} {a b : Nat} {fs : List (List Nat)}
    (h : Ran s t (List.replicate a [statusFrame s.flashFamily] ++ [fs]
      ++ List.replicate b [statusFrame s.flashFamily])) :
    callTrace s t = pollEvents s.flashFamily s.resp s.pos a
      ++ txnEvents s.resp (s.pos + pollWidth s.flashFamily * a) fs
      ++ pollEvents s.flashFamily s.resp
          (s.pos + pollWidth s.flashFamily * a + framesLength fs) b := by
  have e1 : txnsLength [fs] = framesLength fs := by simp [txnsLength]
  have e2 : ∀ p, txnsEvents s.resp p [fs] = txnEvents s.resp p fs := by
    intro p; simp [txnsEvents]
  rw [ran_callTrace h, txnsEvents_append, txnsEvents_append, txnsLength_append,
    txnsLength_polls, e1, e2, ← pollEvents_eq, ← pollEvents_eq, Nat.add_assoc]

theorem busyBetween_wait :
    blockingBusyWait 1000 (busyBetween 4 106)
      = (true, afterPolls (busyBetween 4 106) 1 0) :=
  blockingBusyWait_idle 1000 _ (by simp [pollBusy, busyAt_eq, busyBetween])

theorem busyBetween_post (j : Nat) :
    busyAt (busyBetween 4 106)
      ((blockingBusyWait 1000 (busyBetween 4 106)).2.pos + 2
        + pollWidth (busyBetween 4 106).flashFamily * j)
      = decide (j < 51) := by
  rw [busyBetween_wait]
  simp only [busyAt_eq, afterPolls, busyBetween, pollWidth]
  by_cases hj : j < 51
  · have h1 : 4 ≤ 0 + 2 * 1 + 2 + 2 * j + 1 ∧ 0 + 2 * 1 + 2 + 2 * j + 1 < 106 := by omega
    rw [if_pos h1, decide_eq_true hj]
    decide
  · have h1 : ¬ (4 ≤ 0 + 2 * 1 + 2 + 2 * j + 1 ∧ 0 + 2 * 1 + 2 + 2 * j + 1 < 106) := by
      omega
    rw [if_neg h1, decide_eq_false hj]
    decide

/-! ## Bracketing of bus and chip select -/

theorem portRun_xferEvents (resp : Nat → Nat) (outs : List Nat) :
    ∀ (p : Nat) (rest : List Event),
      portRun (true, true) (xferEvents resp p outs ++ rest) = portRun (true, true) rest := by
  induction outs with
  | nil => intro p rest; rfl
  | cons o os ih =>
    intro p rest
    have e : xferEvents resp p (o :: os) ++ rest
        = Event.transfer (o % 256) (resp p % 256) :: (xferEvents resp (p + 1) os ++ rest) :=
      rfl
    rw [e]
    simp only [portRun, portStep]
    exact ih _ _

theorem portRun_frameEvents (resp : Nat → Nat) (p : Nat) (outs : List Nat)
    (rest : List Event) :
    portRun (true, false) (frameEvents resp p outs ++ rest) = portRun (true, false) rest := by
  have e : frameEvents resp p outs ++ rest
      = Event.csLow :: (xferEvents resp p outs ++ Event.csHigh :: rest) := by
    simp [frameEvents]
  rw [e]
  simp only [portRun, portStep]
  rw [portRun_xferEvents]
  simp only [portRun, portStep]

theorem portRun_framesEvents (resp : Nat → Nat) (fs : List (List Nat)) :
    ∀ (p : Nat) (rest : List Event),
      portRun (true, false) (framesEvents resp p fs ++ rest)
        = portRun (true, false) rest := by
  induction fs with
  | nil => intro p rest; rfl
  | cons f fs ih =>
    intro p rest
    have e : framesEvents resp p (f :: fs) ++ rest
        = frameEvents resp p f ++ (framesEvents resp (p + f.length) fs ++ rest) := by
      simp [framesEvents]
    rw [e, portRun_frameEvents, ih]

theorem portRun_txnEvents (resp : Nat → Nat) (p : Nat) (fs : List (List Nat))
    (rest : List Event) :
    portRun (false, false) (txnEvents resp p fs ++ rest) = portRun (false, false) rest := by
  have e : txnEvents resp p fs ++ rest
      = Event.beginTransaction :: (framesEvents resp p fs ++ Event.endTransaction :: rest) := by
    simp [txnEvents]
  rw [e]
  simp only [portRun, portStep]
  rw [portRun_framesEvents]
  simp only [portRun, portStep]

theorem portRun_txnsEvents (resp : Nat → Nat) (txns : List (List (List Nat))) :
    ∀ p : Nat, portRun (false, false) (txnsEvents resp p txns) = some (false, false) := by
  induction txns with
  | nil => intro p; rfl
  | cons fs txns ih =>
    intro p
    rw [txnsEvents, portRun_txnEvents, ih]

theorem wellBracketed_of_ran {s t : SFE_SPI_FLASH} {txns : List (List (List Nat))}
    (h : Ran s t txns) : wellBracketed (callTrace s t) = true := by
  rw [ran_callTrace h, wellBracketed, portRun_txnsEvents]
  rfl

theorem exists_ran_of_waitThen {s t : SFE_SPI_FLASH} {r : sfe_flash_read_write_result_e}
    {polls : Nat} {fs : List (List Nat)} (h : WaitThen s t r polls fs) :
    ∃ txns, Ran s t txns := by
  rcases h with ⟨_, hran⟩ | ⟨_, _, _, hran⟩
  · exact ⟨_, hran⟩
  · exact ⟨_, hran⟩

theorem exists_ran_readByte (s : SFE_SPI_FLASH) (address : Nat)
    (result : Option sfe_flash_read_write_result_e) :
    ∃ txns, Ran s (readByte address result s).2.2 txns := by
  rcases readByte_shape s address result with ⟨_, hran⟩ | ⟨_, _, _, hran⟩
  · exact ⟨_, hran⟩
  · exact ⟨_, hran⟩

theorem exists_ran_readBlock (s : SFE_SPI_FLASH) (address : Nat) (dataArray : Nat → Nat)
    (n : Nat) : ∃ txns, Ran s (readBlock address dataArray n s).2.2 txns := by
  by_cases hn : n = 0
  · subst hn
    simp only [readBlock, if_true]
    exact ⟨[], ran_refl s⟩
  · exact exists_ran_of_waitThen (readBlock_shape s address dataArray n hn)

theorem exists_ran_writeBlock (s : SFE_SPI_FLASH) (address : Nat) (dataArray : Nat → Nat)
    (n : Nat) : ∃ txns, Ran s (writeBlock address dataArray n s).2 txns := by
  by_cases hn : n = 0
  · subst hn
    simp only [writeBlock, if_true]
    exact ⟨[], ran_refl s⟩
  · exact exists_ran_of_waitThen (writeBlock_shape s address dataArray n hn)

theorem exists_ran_writeBlockAAI (s : SFE_SPI_FLASH) (address : Nat)
    (dataArray : Nat → Nat) (n : Nat) (hn : n < 65536) :
    ∃ txns, Ran s (writeBlockAAI address dataArray n s).2 txns := by
  by_cases h0 : n = 0
  · subst h0
    simp only [writeBlockAAI, if_true]
    exact ⟨[], ran_refl s⟩
  by_cases h1 : n = 1
  · subst h1
    have e : writeBlockAAI address dataArray 1 s = writeByte address (dataArray 0) s := by
      simp [writeBlockAAI]
    rw [e]
    exact exists_ran_of_waitThen (writeByte_shape s _ _)
  rcases writeBlockAAI_shape s address dataArray n (by omega) hn with
    ⟨_, _, hran⟩ | ⟨k, W, _, _, hsW, ⟨_, he⟩ | ⟨_, he⟩⟩
  · exact ⟨_, hran⟩
  · rw [he]
    exact ⟨_, hsW⟩
  · rw [he]
    obtain ⟨txns, htx⟩ := exists_ran_of_waitThen
      (writeByte_shape W ((address + n - 1) % 4294967296) (dataArray (n - 1)))
    exact ⟨_, ran_trans hsW htx⟩

theorem exists_ran_erase (fuel : Nat) (s t : SFE_SPI_FLASH)
    (r : sfe_flash_read_write_result_e) (h : erase fuel s = some (r, t)) :
    ∃ txns, Ran s t txns := by
  rcases erase_shape fuel s t r h with ⟨_, hran⟩ | ⟨_, _, _, _, hran⟩
  · exact ⟨_, hran⟩
  · exact ⟨_, hran⟩

theorem wellBracketed_isConnected (s : SFE_SPI_FLASH) :
    wellBracketed (callTrace s (isConnected s).2) = true := by
  obtain ⟨u, fam, he, hran⟩ := isConnected_ran s
  have hu : wellBracketed (callTrace s u) = true := by
    rcases hran with h | h
    · exact wellBracketed_of_ran h
    · exact wellBracketed_of_ran h
  rw [he]
  exact hu

/-! ## Counting status polls -/

theorem statusPolls_of_ran {s t : SFE_SPI_FLASH} {txns : List (List (List Nat))}
    (h : Ran s t txns) :
    statusPolls (callTrace s t) = ((onBus txns.flatten).filter isStatusFrame).length := by
  rw [statusPolls, ran_frames h]

theorem filter_status_polls (fam : sfe_flash_family_e) (k : Nat) :
    (List.replicate k (statusFrame fam)).filter isStatusFrame
      = List.replicate k (statusFrame fam) := by
  rw [List.filter_eq_self]
  intro f hf
  rw [List.eq_of_mem_replicate hf]
  exact isStatusFrame_statusFrame fam

theorem statusPolls_polls {s t : SFE_SPI_FLASH} {k : Nat}
    (h : Ran s t (List.replicate k [statusFrame s.flashFamily])) :
    statusPolls (callTrace s t) = k := by
  rw [statusPolls_of_ran h, onBus_polls, filter_status_polls, List.length_replicate]

theorem statusPolls_polls_txn {s t : SFE_SPI_FLASH} {k : Nat} {fs : List (List Nat)}
    (h : Ran s t (List.replicate k [statusFrame s.flashFamily] ++ [fs]))
    (hfs : (onBus fs).filter isStatusFrame = []) :
    statusPolls (callTrace s t) = k := by
  have e : onBus [fs].flatten = onBus fs := by simp
  rw [statusPolls_of_ran h, List.flatten_append, onBus_append, onBus_polls,
    List.filter_append, filter_status_polls, e, hfs, List.append_nil, List.length_replicate]

theorem statusPolls_trans {s t u : SFE_SPI_FLASH} {a b : List (List (List Nat))}
    (h1 : Ran s t a) (h2 : Ran t u b) :
    statusPolls (callTrace s u) = statusPolls (callTrace s t) + statusPolls (callTrace t u) := by
  rw [statusPolls_of_ran (ran_trans h1 h2), statusPolls_of_ran h1, statusPolls_of_ran h2,
    List.flatten_append, onBus_append, List.filter_append, List.length_append]

theorem statusPolls_waitThen {s t : SFE_SPI_FLASH} {r : sfe_flash_read_write_result_e}
    {polls : Nat} {fs : List (List Nat)} (h : WaitThen s t r polls fs)
    (hfs : (onBus fs).filter isStatusFrame = []) :
    statusPolls (callTrace s t) ≤ polls := by
  rcases h with ⟨_, hran⟩ | ⟨_, k, hk, hran⟩
  · rw [statusPolls_polls hran]
  · rw [statusPolls_polls_txn hran hfs]
    omega

theorem noStatus_writeByte (address value : Nat) :
    (onBus (writeByteFrames address value)).filter isStatusFrame = [] := by
  simp [onBus, writeByteFrames, isStatusFrame, statusFrame25, statusFrame45]

theorem noStatus_statusReg1 (statusByte : Nat) :
    (onBus [[0x50], [0x01, statusByte]]).filter isStatusFrame = [] := by
  simp [onBus, isStatusFrame, statusFrame25, statusFrame45]

theorem noStatus_statusReg16 (statusWord : Nat) :
    (onBus [[0x50], [0x01, statusWord >>> 8, statusWord &&& 0xFF]]).filter isStatusFrame
      = [] := by
  simp [onBus, isStatusFrame, statusFrame25, statusFrame45]

theorem noStatus_disableWrite : (onBus [[0x04]]).filter isStatusFrame = [] := by
  simp [onBus, isStatusFrame, statusFrame25, statusFrame45]

theorem noStatus_readByte (address : Nat) :
    (onBus [[0x03, address >>> 16, address >>> 8, address &&& 0xFF, 0xFF]]).filter
      isStatusFrame = [] := by
  simp [onBus, isStatusFrame, statusFrame25, statusFrame45]

theorem noStatus_readBlock (address n : Nat) :
    (onBus [[0x03, address >>> 16, address >>> 8, address &&& 0xFF]
      ++ List.replicate n 0xFF]).filter isStatusFrame = [] := by
  simp [onBus, isStatusFrame, statusFrame25, statusFrame45]

theorem noStatus_writeBlock (address n : Nat) (dataArray : Nat → Nat) :
    (onBus [[0x06], [0x02, address >>> 16, address >>> 8, address &&& 0xFF]
      ++ (List.range n).map dataArray]).filter isStatusFrame = [] := by
  simp [onBus, isStatusFrame, statusFrame25, statusFrame45]

theorem noStatus_aai (address : Nat) (dataArray : Nat → Nat) (n : Nat) :
    (onBus (aaiFrames address dataArray n)).filter isStatusFrame = [] := by
  rw [onBus_aaiFrames, List.filter_eq_nil_iff]
  intro f hf
  simp only [List.mem_append, List.mem_cons, List.mem_singleton, List.not_mem_nil,
    or_false, List.mem_map, List.mem_range] at hf
  rcases hf with ((h | h | h) | ⟨k, _, h⟩) | h
  all_goals
    subst h
    simp [isStatusFrame, statusFrame25, statusFrame45]

theorem statusPolls_writeBlockAAI (s : SFE_SPI_FLASH) (address : Nat)
    (dataArray : Nat → Nat) (n : Nat) (hn : n < 65536) :
    statusPolls (callTrace s (writeBlockAAI address dataArray n s).2) ≤ 202 := by
  by_cases h0 : n = 0
  · subst h0
    simp only [writeBlockAAI, if_true]
    have h := statusPolls_of_ran (ran_refl s)
    rw [h]
    simp [onBus]
  by_cases h1 : n = 1
  · subst h1
    have e : writeBlockAAI address dataArray 1 s = writeByte address (dataArray 0) s := by
      simp [writeBlockAAI]
    rw [e]
    have := statusPolls_waitThen (writeByte_shape s address (dataArray 0))
      (noStatus_writeByte _ _)
    omega
  rcases writeBlockAAI_shape s address dataArray n (by omega) hn with
    ⟨_, _, hran⟩ | ⟨k, W, hk, _, hsW, ⟨_, he⟩ | ⟨_, he⟩⟩
  · rw [statusPolls_polls hran]
    omega
  · rw [he, statusPolls_polls_txn hsW (noStatus_aai _ _ _)]
    omega
  · rw [he]
    obtain ⟨txns, htx⟩ := exists_ran_of_waitThen
      (writeByte_shape W ((address + n - 1) % 4294967296) (dataArray (n - 1)))
    have h2 := statusPolls_waitThen
      (writeByte_shape W ((address + n - 1) % 4294967296) (dataArray (n - 1)))
      (noStatus_writeByte _ _)
    rw [statusPolls_trans hsW htx, statusPolls_polls_txn hsW (noStatus_aai _ _ _)]
    omega

theorem takeWhile_status_polls (fam : sfe_flash_family_e) (a : Nat)
    (rest : List (List Nat)) :
    ((List.replicate a (statusFrame fam) ++ [0x06] :: rest).takeWhile isStatusFrame).length
      = a ∧
    ((List.replicate a (statusFrame fam)).takeWhile isStatusFrame).length = a := by
  induction a with
  | zero =>
    constructor
    · show (List.takeWhile isStatusFrame ([0x06] :: rest)).length = 0
      rw [List.takeWhile_cons, if_neg (by decide)]
      rfl
    · rfl
  | succ a ih =>
    rw [List.replicate_succ, List.cons_append, List.takeWhile_cons, List.takeWhile_cons,
      if_pos (isStatusFrame_statusFrame fam), if_pos (isStatusFrame_statusFrame fam),
      List.length_cons, List.length_cons, ih.1, ih.2]
    exact ⟨rfl, rfl⟩

theorem erase_precommand_polls (fuel : Nat) (s t : SFE_SPI_FLASH)
    (r : sfe_flash_read_write_result_e) (h : erase fuel s = some (r, t)) :
    ((frames (callTrace s t)).takeWhile isStatusFrame).length ≤ 1001 := by
  rcases erase_shape fuel s t r h with ⟨_, hran⟩ | ⟨_, k, j, hk, hran⟩
  · rw [ran_frames hran, onBus_polls, (takeWhile_status_polls _ _ []).2]
  · have e : onBus [[[0x06], [0xC7]]].flatten = [[0x06], [0xC7]] := by simp [onBus]
    rw [ran_frames hran, List.flatten_append, List.flatten_append, onBus_append,
      onBus_append, onBus_polls, onBus_polls, e, List.append_assoc, List.cons_append,
      (takeWhile_status_polls _ _ _).1]
    omega

theorem erase_timeout (fuel : Nat) (s : SFE_SPI_FLASH)
    (h : (blockingBusyWait 1000 s).1 = false) :
    erase fuel s
      = some (SFE_FLASH_READ_WRITE_FAIL_DEVICE_BUSY, (blockingBusyWait 1000 s).2) := by
  simp [erase, h]

/-! ## The debug flag does not interfere -/

theorem sameButDebug_refl (s : SFE_SPI_FLASH) : SameButDebug s s :=
  ⟨rfl, rfl, rfl, rfl, rfl⟩

theorem sameButDebug_symm {s t : SFE_SPI_FLASH} (h : SameButDebug s t) : SameButDebug t s :=
  ⟨h.1.symm, h.2.1.symm, h.2.2.1.symm, h.2.2.2.1.symm, h.2.2.2.2.symm⟩

theorem sameButDebug_trans {s t u : SFE_SPI_FLASH} (h1 : SameButDebug s t)
    (h2 : SameButDebug t u) : SameButDebug s u :=
  ⟨h1.1.trans h2.1, h1.2.1.trans h2.2.1, h1.2.2.1.trans h2.2.2.1,
    h1.2.2.2.1.trans h2.2.2.2.1, h1.2.2.2.2.trans h2.2.2.2.2⟩

theorem sameButDebug_withDebug (b : Bool) (out : List Printed) (s : SFE_SPI_FLASH) :
    SameButDebug s (withDebug b out s) :=
  ⟨rfl, rfl, rfl, rfl, rfl⟩

theorem sameButDebug_debug (p : Printed) (s : SFE_SPI_FLASH) : SameButDebug s (debug p s) :=
  ⟨rfl, rfl, rfl, rfl, rfl⟩

theorem sameButDebug_eq {s t : SFE_SPI_FLASH} (h : SameButDebug s t) :
    ∃ b out, t = withDebug b out s := by
  obtain ⟨h1, h2, h3, h4, h5⟩ := h
  refine ⟨t.printDebug, t.debugOut, ?_⟩
  cases s
  cases t
  simp only [withDebug] at *
  simp_all

theorem sameOutcome_of_comm {α : Type} (f : SFE_SPI_FLASH → α × SFE_SPI_FLASH)
    (hf : ∀ b out s, f (withDebug b out s) = ((f s).1, withDebug b out (f s).2))
    {s t : SFE_SPI_FLASH} (h : SameButDebug s t) : SameOutcome (f s) (f t) := by
  obtain ⟨b, out, rfl⟩ := sameButDebug_eq h
  rw [hf]
  exact ⟨rfl, sameButDebug_withDebug _ _ _⟩

theorem getStatus1_dbg (b : Bool) (out : List Printed) (s : SFE_SPI_FLASH) :
    getStatus1 (withDebug b out s) = ((getStatus1 s).1, withDebug b out (getStatus1 s).2) := by
  rw [getStatus1_eq, getStatus1_eq]
  rfl

theorem getStatus16_dbg (b : Bool) (out : List Printed) (s : SFE_SPI_FLASH) :
    getStatus16 (withDebug b out s)
      = ((getStatus16 s).1, withDebug b out (getStatus16 s).2) := by
  rw [getStatus16_eq, getStatus16_eq]
  rfl

theorem getJEDEC_dbg (b : Bool) (out : List Printed) (s : SFE_SPI_FLASH) :
    getJEDEC (withDebug b out s) = ((getJEDEC s).1, withDebug b out (getJEDEC s).2) := by
  rw [getJEDEC_eq, getJEDEC_eq]
  rfl

theorem isBusy_dbg (b : Bool) (out : List Printed) (s : SFE_SPI_FLASH) :
    isBusy (withDebug b out s) = ((isBusy s).1, withDebug b out (isBusy s).2) := by
  have e : busyAt (withDebug b out s) (withDebug b out s).pos = busyAt s s.pos :=
    busyAt_congr s _ _ rfl rfl
  rw [isBusy_eq, isBusy_eq, e]
  rfl

theorem blockingBusyWait_dbg (b : Bool) (out : List Printed) (m : Nat) :
    ∀ s : SFE_SPI_FLASH, blockingBusyWait m (withDebug b out s)
      = ((blockingBusyWait m s).1, withDebug b out (blockingBusyWait m s).2) := by
  induction m with
  | zero =>
    intro s
    simp only [blockingBusyWait, isBusy_dbg]
    by_cases hb : (isBusy s).1 = true
    · rw [if_pos hb, if_pos hb]
    · rw [if_neg hb, if_neg hb]
  | succ m ih =>
    intro s
    simp only [blockingBusyWait, isBusy_dbg]
    by_cases hb : (isBusy s).1 = true
    · have e : delay 1 (withDebug b out (isBusy s).2)
          = withDebug b out (delay 1 (isBusy s).2) := rfl
      rw [if_pos hb, if_pos hb, e, ih]
    · rw [if_neg hb, if_neg hb]

/-- A command guarded by the bounded wait commutes with a change of the debug flag. -/
theorem guarded_dbg {α : Type} (f : SFE_SPI_FLASH → α × SFE_SPI_FLASH) (m : Nat)
    (fail : α) (ok : SFE_SPI_FLASH → α) (fs : List (List Nat))
    (hfail : ∀ s w, blockingBusyWait m s = (false, w) → f s = (fail, w))
    (hok : ∀ s w, blockingBusyWait m s = (true, w) → f s = (ok w, withTxn w fs))
    (hokd : ∀ b out w, ok (withDebug b out w) = ok w) (b : Bool) (out : List Printed)
    (s : SFE_SPI_FLASH) : f (withDebug b out s) = ((f s).1, withDebug b out (f s).2) := by
  have hw := blockingBusyWait_dbg b out m s
  rcases hb : blockingBusyWait m s with ⟨r, w⟩
  rw [hb] at hw
  cases r
  · rw [hfail s w hb, hfail _ _ hw]
  · rw [hok s w hb, hok _ _ hw, hokd]
    rfl

theorem writeByte_dbg (address thingToWrite : Nat) (b : Bool) (out : List Printed)
    (s : SFE_SPI_FLASH) :
    writeByte address thingToWrite (withDebug b out s)
      = ((writeByte address thingToWrite s).1,
          withDebug b out (writeByte address thingToWrite s).2) :=
  guarded_dbg (writeByte address thingToWrite) 100 SFE_FLASH_READ_WRITE_FAIL_DEVICE_BUSY
    (fun _ => SFE_FLASH_READ_WRITE_SUCCESS) (writeByteFrames address thingToWrite)
    (fun s w h => by simp [writeByte, h])
    (fun s w h => writeByte_ready s w _ _ h) (fun _ _ _ => rfl) b out s

theorem setWriteStatusReg1_dbg (statusByte : Nat) (b : Bool) (out : List Printed)
    (s : SFE_SPI_FLASH) :
    setWriteStatusReg1 statusByte (withDebug b out s)
      = ((setWriteStatusReg1 statusByte s).1,
          withDebug b out (setWriteStatusReg1 statusByte s).2) :=
  guarded_dbg (setWriteStatusReg1 statusByte) 100 SFE_FLASH_READ_WRITE_FAIL_DEVICE_BUSY
    (fun _ => SFE_FLASH_READ_WRITE_SUCCESS) [[0x50], [0x01, statusByte]]
    (fun s w h => by simp [setWriteStatusReg1, h])
    (fun s w h => setWriteStatusReg1_ready s w _ h) (fun _ _ _ => rfl) b out s

theorem setWriteStatusReg16_dbg (statusWord : Nat) (b : Bool) (out : List Printed)
    (s : SFE_SPI_FLASH) :
    setWriteStatusReg16 statusWord (withDebug b out s)
      = ((setWriteStatusReg16 statusWord s).1,
          withDebug b out (setWriteStatusReg16 statusWord s).2) :=
  guarded_dbg (setWriteStatusReg16 statusWord) 100 SFE_FLASH_READ_WRITE_FAIL_DEVICE_BUSY
    (fun _ => SFE_FLASH_READ_WRITE_SUCCESS)
    [[0x50], [0x01, statusWord >>> 8, statusWord &&& 0xFF]]
    (fun s w h => by simp [setWriteStatusReg16, h])
    (fun s w h => setWriteStatusReg16_ready s w _ h) (fun _ _ _ => rfl) b out s

theorem disableWrite_dbg (b : Bool) (out : List Printed) (s : SFE_SPI_FLASH) :
    disableWrite (withDebug b out s)
      = ((disableWrite s).1, withDebug b out (disableWrite s).2) :=
  guarded_dbg disableWrite 100 SFE_FLASH_READ_WRITE_FAIL_DEVICE_BUSY
    (fun _ => SFE_FLASH_READ_WRITE_SUCCESS) [[0x04]]
    (fun s w h => by simp [disableWrite, h])
    (fun s w h => disableWrite_ready s w h) (fun _ _ _ => rfl) b out s

theorem writeBlock_dbg (address : Nat) (dataArray : Nat → Nat) (n : Nat) (b : Bool)
    (out : List Printed) (s : SFE_SPI_FLASH) :
    writeBlock address dataArray n (withDebug b out s)
      = ((writeBlock address dataArray n s).1,
          withDebug b out (writeBlock address dataArray n s).2) := by
  by_cases hn : n = 0
  · subst hn
    simp [writeBlock]
  · exact guarded_dbg (writeBlock address dataArray n) 100
      SFE_FLASH_READ_WRITE_FAIL_DEVICE_BUSY (fun _ => SFE_FLASH_READ_WRITE_SUCCESS)
      [[0x06], [0x02, address >>> 16, address >>> 8, address &&& 0xFF]
        ++ (List.range n).map dataArray]
      (fun s w h => by simp [writeBlock, h, hn])
      (fun s w h => writeBlock_ready s w _ _ n hn h) (fun _ _ _ => rfl) b out s

theorem readByte_dbg (address : Nat) (result : Option sfe_flash_read_write_result_e)
    (b : Bool) (out : List Printed) (s : SFE_SPI_FLASH) :
    readByte address result (withDebug b out s)
      = ((readByte address result s).1, (readByte address result s).2.1,
          withDebug b out (readByte address result s).2.2) := by
  have h := guarded_dbg
    (fun s => (((readByte address result s).1, (readByte address result s).2.1),
      (readByte address result s).2.2)) 100
    (0xBB, result.map (fun _ => SFE_FLASH_READ_WRITE_FAIL_DEVICE_BUSY))
    (fun w => (w.resp (w.pos + 4) % 256, result.map (fun _ => SFE_FLASH_READ_WRITE_SUCCESS)))
    [[0x03, address >>> 16, address >>> 8, address &&& 0xFF, 0xFF]]
    (fun s w h => by cases result <;> simp [readByte, h])
    (fun s w h => by beta_reduce; rw [readByte_ready s w _ _ h]) (fun _ _ _ => rfl) b out s
  simp only [Prod.mk.injEq] at h
  exact Prod.ext h.1.1 (Prod.ext h.1.2 h.2)

theorem readBlock_dbg (address : Nat) (dataArray : Nat → Nat) (n : Nat) (b : Bool)
    (out : List Printed) (s : SFE_SPI_FLASH) :
    readBlock address dataArray n (withDebug b out s)
      = ((readBlock address dataArray n s).1, (readBlock address dataArray n s).2.1,
          withDebug b out (readBlock address dataArray n s).2.2) := by
  by_cases hn : n = 0
  · subst hn
    simp [readBlock]
  have h := guarded_dbg
    (fun s => (((readBlock address dataArray n s).1, (readBlock address dataArray n s).2.1),
      (readBlock address dataArray n s).2.2)) 100
    (SFE_FLASH_READ_WRITE_FAIL_DEVICE_BUSY, dataArray)
    (fun w => (SFE_FLASH_READ_WRITE_SUCCESS,
      fun i => if i < n then w.resp (w.pos + 4 + i) % 256 else dataArray i))
    [[0x03, address >>> 16, address >>> 8, address &&& 0xFF] ++ List.replicate n 0xFF]
    (fun s w h => by simp [readBlock, h, hn])
    (fun s w h => by beta_reduce; rw [readBlock_ready s w _ _ n hn h]) (fun _ _ _ => rfl) b out s
  simp only [Prod.mk.injEq] at h
  exact Prod.ext h.1.1 (Prod.ext h.1.2 h.2)

theorem writeBlockAAI_dbg (address : Nat) (dataArray : Nat → Nat) (n : Nat) (hn : n < 65536)
    (b : Bool) (out : List Printed) (s : SFE_SPI_FLASH) :
    writeBlockAAI address dataArray n (withDebug b out s)
      = ((writeBlockAAI address dataArray n s).1,
          withDebug b out (writeBlockAAI address dataArray n s).2) := by
  by_cases h0 : n = 0
  · subst h0
    simp [writeBlockAAI]
  by_cases h1 : n = 1
  · subst h1
    have e : ∀ u, writeBlockAAI address dataArray 1 u = writeByte address (dataArray 0) u := by
      intro u; simp [writeBlockAAI]
    rw [e, e, writeByte_dbg]
  have hw := blockingBusyWait_dbg b out 100 s
  rcases hb : blockingBusyWait 100 s with ⟨r, w⟩
  rw [hb] at hw
  cases r
  · have e1 : writeBlockAAI address dataArray n s
        = (SFE_FLASH_READ_WRITE_FAIL_DEVICE_BUSY, w) := by
      simp [writeBlockAAI, h0, h1, hb]
    have e2 : writeBlockAAI address dataArray n (withDebug b out s)
        = (SFE_FLASH_READ_WRITE_FAIL_DEVICE_BUSY, withDebug b out w) := by
      simp [writeBlockAAI, h0, h1, hw]
    rw [e1, e2]
  · rw [writeBlockAAI_ready s w address dataArray n (by omega) hn hb,
      writeBlockAAI_ready _ _ address dataArray n (by omega) hn hw]
    have e : withTxn (withDebug b out w) (aaiFrames address dataArray n)
        = withDebug b out (withTxn w (aaiFrames address dataArray n)) := rfl
    by_cases hodd : n % 2 = 1
    · rw [if_pos hodd, if_pos hodd, e, writeByte_dbg]
    · rw [if_neg hodd, if_neg hodd, e]

theorem sameButDebug_ite_debug (p : Printed) (s : SFE_SPI_FLASH) :
    SameButDebug s (if s.printDebug = true then debug p s else s) := by
  split
  · exact sameButDebug_debug p s
  · exact sameButDebug_refl s

theorem sameButDebug_withTxn {s t : SFE_SPI_FLASH} (h : SameButDebug s t)
    (fs : List (List Nat)) : SameButDebug (withTxn s fs) (withTxn t fs) := by
  obtain ⟨b, out, rfl⟩ := sameButDebug_eq h
  exact sameButDebug_withDebug b out (withTxn s fs)

theorem eraseInner_dbg (b : Bool) (out : List Printed) (n : Nat) :
    ∀ s : SFE_SPI_FLASH,
      eraseInner n (withDebug b out s) = withDebug b out (eraseInner n s) := by
  induction n with
  | zero => intro s; rfl
  | succ n ih =>
    intro s
    have e : delay 10 (withDebug b out s) = withDebug b out (delay 10 s) := rfl
    simp only [eraseInner, e, isBusy_dbg]
    by_cases hb : (isBusy (delay 10 s)).1 = false
    · rw [if_pos hb, if_pos hb]
    · rw [if_neg hb, if_neg hb, ih]

theorem sameButDebug_eraseInner (n : Nat) {s t : SFE_SPI_FLASH} (h : SameButDebug s t) :
    SameButDebug (eraseInner n s) (eraseInner n t) := by
  obtain ⟨b, out, rfl⟩ := sameButDebug_eq h
  rw [eraseInner_dbg]
  exact sameButDebug_withDebug _ _ _

theorem sameButDebug_eraseWait (fuel : Nat) : ∀ {s t : SFE_SPI_FLASH}, SameButDebug s t →
    ((eraseWait fuel s = none ∧ eraseWait fuel t = none) ∨
      ∃ a b, eraseWait fuel s = some a ∧ eraseWait fuel t = some b ∧ SameButDebug a b) := by
  induction fuel with
  | zero => intro s t _; left; exact ⟨rfl, rfl⟩
  | succ fuel ih =>
    intro s t h
    have hb : SameOutcome (isBusy s) (isBusy t) := sameOutcome_of_comm isBusy isBusy_dbg h
    simp only [eraseWait]
    by_cases hs : (isBusy s).1 = true
    · have ht : (isBusy t).1 = true := by rw [← hb.1]; exact hs
      rw [if_pos hs, if_pos ht]
      apply ih
      apply sameButDebug_eraseInner
      exact sameButDebug_trans
        (sameButDebug_symm (sameButDebug_ite_debug (Printed.text "." false) (isBusy s).2))
        (sameButDebug_trans hb.2 (sameButDebug_ite_debug (Printed.text "." false) (isBusy t).2))
    · have ht : ¬ (isBusy t).1 = true := by rw [← hb.1]; exact hs
      rw [if_neg hs, if_neg ht]
      right
      exact ⟨_, _, rfl, rfl, hb.2⟩

theorem sameButDebug_erase (fuel : Nat) {s t : SFE_SPI_FLASH} (h : SameButDebug s t) :
    (erase fuel s = none ∧ erase fuel t = none) ∨
      ∃ r a b, erase fuel s = some (r, a) ∧ erase fuel t = some (r, b) ∧ SameButDebug a b := by
  have hw : SameOutcome (blockingBusyWait 1000 s) (blockingBusyWait 1000 t) :=
    sameOutcome_of_comm (blockingBusyWait 1000)
      (fun b out u => blockingBusyWait_dbg b out 1000 u) h
  simp only [erase, erase_cmd]
  by_cases hf : (blockingBusyWait 1000 s).1 = false
  · have ht : (blockingBusyWait 1000 t).1 = false := by rw [← hw.1]; exact hf
    rw [if_pos hf, if_pos ht]
    right
    exact ⟨_, _, _, rfl, rfl, hw.2⟩
  · have ht : ¬ (blockingBusyWait 1000 t).1 = false := by rw [← hw.1]; exact hf
    rw [if_neg hf, if_neg ht]
    have hW := sameButDebug_trans
      (sameButDebug_symm (sameButDebug_ite_debug
        (Printed.text "SFE_SPI_FLASH::erase: Erasing entire space" true)
        (withTxn (blockingBusyWait 1000 s).2 [[0x06], [0xC7]])))
      (sameButDebug_trans (sameButDebug_withTxn hw.2 [[0x06], [0xC7]])
        (sameButDebug_ite_debug
          (Printed.text "SFE_SPI_FLASH::erase: Erasing entire space" true)
          (withTxn (blockingBusyWait 1000 t).2 [[0x06], [0xC7]])))
    rcases sameButDebug_eraseWait fuel hW with ⟨e1, e2⟩ | ⟨a, b, e1, e2, hab⟩
    · left
      rw [e1, e2]
      exact ⟨rfl, rfl⟩
    · right
      rw [e1, e2]
      refine ⟨_, _, _, rfl, rfl, ?_⟩
      have hlast : ∀ (u : SFE_SPI_FLASH) (ms : Nat), SameButDebug u
          (if u.printDebug = true then
            debug (Printed.seconds ms true)
              (debug (Printed.text "SFE_SPI_FLASH::erase: Time taken: " false)
                (debug (Printed.text "\nSFE_SPI_FLASH::erase: Erase complete" true) u))
          else u) := by
        intro u ms
        split
        · exact ⟨rfl, rfl, rfl, rfl, rfl⟩
        · exact sameButDebug_refl u
      exact sameButDebug_trans (sameButDebug_symm (hlast a _))
        (sameButDebug_trans hab (hlast b _))

theorem sameOutcome_getManufacturerID {s t : SFE_SPI_FLASH} (h : SameButDebug s t) :
    SameOutcome (getManufacturerID s) (getManufacturerID t) := by
  have hj : SameOutcome (getJEDEC s) (getJEDEC t) := sameOutcome_of_comm getJEDEC getJEDEC_dbg h
  obtain ⟨o1, e1⟩ := getManufacturerID_snd s
  obtain ⟨o2, e2⟩ := getManufacturerID_snd t
  refine ⟨?_, ?_⟩
  · rw [getManufacturerID_fst, getManufacturerID_fst]
    simp only [firstJedecByte, h.2.1, h.2.2.1]
  · rw [e1, e2]
    exact hj.2

theorem sameOutcome_getRawManufacturerID {s t : SFE_SPI_FLASH} (h : SameButDebug s t) :
    SameOutcome (getRawManufacturerID s) (getRawManufacturerID t) := by
  have hj : SameOutcome (getJEDEC s) (getJEDEC t) := sameOutcome_of_comm getJEDEC getJEDEC_dbg h
  obtain ⟨o1, e1⟩ := getRawManufacturerID_snd s
  obtain ⟨o2, e2⟩ := getRawManufacturerID_snd t
  refine ⟨?_, ?_⟩
  · rw [getRawManufacturerID_fst, getRawManufacturerID_fst, h.2.1, h.2.2.1]
  · rw [e1, e2]
    exact hj.2

theorem sameOutcome_getDeviceID {s t : SFE_SPI_FLASH} (h : SameButDebug s t) :
    SameOutcome (getDeviceID s) (getDeviceID t) := by
  have hj : SameOutcome (getJEDEC s) (getJEDEC t) := sameOutcome_of_comm getJEDEC getJEDEC_dbg h
  obtain ⟨o1, e1⟩ := getDeviceID_snd s
  obtain ⟨o2, e2⟩ := getDeviceID_snd t
  refine ⟨?_, ?_⟩
  · rw [getDeviceID_fst, getDeviceID_fst, h.2.1, h.2.2.1]
  · rw [e1, e2]
    exact hj.2

theorem sameOutcome_isConnected {s t : SFE_SPI_FLASH} (h : SameButDebug s t) :
    SameOutcome (isConnected s) (isConnected t) := by
  have hm := sameOutcome_getManufacturerID h
  simp only [isConnected]
  generalize getManufacturerID s = ms at hm
  generalize getManufacturerID t = mt at hm
  rcases ms with ⟨mf, a⟩
  rcases mt with ⟨mf2, b⟩
  obtain ⟨hmf, hab⟩ := hm
  simp only at hmf hab
  subst hmf
  cases mf
  case SFE_FLASH_MFG_ADESTO =>
    simp only [reduceCtorEq, if_false, if_true]
    have hd := sameOutcome_getDeviceID hab
    rw [← hd.1]
    by_cases h4 : ((getDeviceID a).1 &&& 0xFF00) >>> 13 = 0b100
    · rw [if_pos h4, if_pos h4]
      exact ⟨rfl, rfl, hd.2.2⟩
    · rw [if_neg h4, if_neg h4]
      by_cases h1 : ((getDeviceID a).1 &&& 0xFF00) >>> 13 = 0b001
      · rw [if_pos h1, if_pos h1]
        exact ⟨rfl, rfl, hd.2.2⟩
      · rw [if_neg h1, if_neg h1]
        exact ⟨rfl, hd.2⟩
  case SFE_FLASH_MFG_UNKNOWN =>
    simp only [reduceCtorEq, if_false]
    have hu : ∀ u : SFE_SPI_FLASH, SameButDebug u
        (if u.printDebug = true then
          debugHex "SFE_SPI_FLASH::isConnected: Unknown manufacturer code: 0x" [0x10]
            SFE_FLASH_MFG_UNKNOWN.code u
        else u) := by
      intro u
      split
      · obtain ⟨o, ho⟩ := debugHex_eq
          "SFE_SPI_FLASH::isConnected: Unknown manufacturer code: 0x" [0x10]
          SFE_FLASH_MFG_UNKNOWN.code u
        rw [ho]
        exact ⟨rfl, rfl, rfl, rfl, rfl⟩
      · exact sameButDebug_refl u
    exact ⟨rfl, sameButDebug_trans (sameButDebug_symm (hu a))
      (sameButDebug_trans hab (hu b))⟩
  all_goals
    simp only [reduceCtorEq, if_false, if_true]
    exact ⟨rfl, hab⟩

/-! ## Claims -/


/-- C1: for erase, readByte, readBlock (n > 0), writeByte, writeBlock (n > 0),
writeBlockAAI (n ≥ 2), setWriteStatusReg1, setWriteStatusReg16 and disableWrite, in
either family: when every poll of the initial bounded wait (1001 polls for erase, 101
for the others) reads busy, the operation reports the busy failure and the trace of
the call is exactly these status polls, so that every frame is a status read and no
byte of the command itself is sent.  For readByte the failure is reported through the
result slot (when there is one) and the value returned is the placeholder 0xBB. -/
theorem busy_timeout_sends_no_command (s : SFE_SPI_FLASH) (fuel address n thingToWrite
    statusByte statusWord : Nat) (dataArray : Nat → Nat)
    (slot : sfe_flash_read_write_result_e) :
    ((∀ k, k < 1001 → pollBusy s k = true) →
      ∃ t, erase fuel s = some (SFE_FLASH_READ_WRITE_FAIL_DEVICE_BUSY, t) ∧
        IsPollTrace s 1001 (callTrace s t)) ∧
    ((∀ k, k < 101 → pollBusy s k = true) →
      (∃ t, readByte address (some slot) s
          = (0xBB, some SFE_FLASH_READ_WRITE_FAIL_DEVICE_BUSY, t) ∧
        IsPollTrace s 101 (callTrace s t)) ∧
      (∃ t, readByte address none s = (0xBB, none, t) ∧
        IsPollTrace s 101 (callTrace s t)) ∧
      (0 < n → ∃ t, readBlock address dataArray n s
          = (SFE_FLASH_READ_WRITE_FAIL_DEVICE_BUSY, dataArray, t) ∧
        IsPollTrace s 101 (callTrace s t)) ∧
      (∃ t, writeByte address thingToWrite s = (SFE_FLASH_READ_WRITE_FAIL_DEVICE_BUSY, t) ∧
        IsPollTrace s 101 (callTrace s t)) ∧
      (0 < n → ∃ t, writeBlock address dataArray n s
          = (SFE_FLASH_READ_WRITE_FAIL_DEVICE_BUSY, t) ∧
        IsPollTrace s 101 (callTrace s t)) ∧
      (2 ≤ n → ∃ t, writeBlockAAI address dataArray n s
          = (SFE_FLASH_READ_WRITE_FAIL_DEVICE_BUSY, t) ∧
        IsPollTrace s 101 (callTrace s t)) ∧
      (∃ t, setWriteStatusReg1 statusByte s = (SFE_FLASH_READ_WRITE_FAIL_DEVICE_BUSY, t) ∧
        IsPollTrace s 101 (callTrace s t)) ∧
      (∃ t, setWriteStatusReg16 statusWord s = (SFE_FLASH_READ_WRITE_FAIL_DEVICE_BUSY, t) ∧
        IsPollTrace s 101 (callTrace s t)) ∧
      (∃ t, disableWrite s = (SFE_FLASH_READ_WRITE_FAIL_DEVICE_BUSY, t) ∧
        IsPollTrace s 101 (callTrace s t))) := by
  constructor
  · intro h
    have hw := blockingBusyWait_timeout 1000 s (fun k hk => h k (by omega))
    exact ⟨afterPolls s 1001 1000, by simp [erase, hw], isPollTrace_afterPolls s _ _⟩
  · intro h
    have hw := blockingBusyWait_timeout 100 s (fun k hk => h k (by omega))
    have hp := isPollTrace_afterPolls s 101 100
    refine ⟨⟨_, by simp [readByte, hw], hp⟩, ⟨_, by simp [readByte, hw], hp⟩, ?_,
      ⟨_, by simp [writeByte, hw], hp⟩, ?_, ?_,
      ⟨_, by simp [setWriteStatusReg1, hw], hp⟩,
      ⟨_, by simp [setWriteStatusReg16, hw], hp⟩, ⟨_, by simp [disableWrite, hw], hp⟩⟩
    · intro hn
      exact ⟨_, by simp [readBlock, hw, Nat.ne_of_gt hn], hp⟩
    · intro hn
      exact ⟨_, by simp [writeBlock, hw, Nat.ne_of_gt hn], hp⟩
    · intro hn
      have h0 : n ≠ 0 := by omega
      have h1 : n ≠ 1 := by omega
      exact ⟨_, by simp [writeBlockAAI, hw, h0, h1], hp⟩

/-- C1, witness: a 25xx device whose status byte always reads 0x01 (busy); each
operation gives up after its polls without sending a command. -/
theorem busy_timeout_sends_no_command_witness :
    (∃ t, erase 0 (constBus SFE_FLASH_FAMILY_25XX 1)
        = some (SFE_FLASH_READ_WRITE_FAIL_DEVICE_BUSY, t) ∧
      IsPollTrace (constBus SFE_FLASH_FAMILY_25XX 1) 1001
        (callTrace (constBus SFE_FLASH_FAMILY_25XX 1) t)) ∧
    (∃ t, writeBlockAAI 0 (fun _ => 0) 3 (constBus SFE_FLASH_FAMILY_25XX 1)
        = (SFE_FLASH_READ_WRITE_FAIL_DEVICE_BUSY, t) ∧
      IsPollTrace (constBus SFE_FLASH_FAMILY_25XX 1) 101
        (callTrace (constBus SFE_FLASH_FAMILY_25XX 1) t)) :=
  ⟨(busy_timeout_sends_no_command (constBus SFE_FLASH_FAMILY_25XX 1) 0 0 3 0 0 0
      (fun _ => 0) SFE_FLASH_READ_WRITE_SUCCESS).1
      (fun k _ => by rw [pollBusy_constBus_25]; decide),
   (busy_timeout_sends_no_command (constBus SFE_FLASH_FAMILY_25XX 1) 0 0 3 0 0 0
      (fun _ => 0) SFE_FLASH_READ_WRITE_SUCCESS).2
      (fun k _ => by rw [pollBusy_constBus_25]; decide) |>.2.2.2.2.2.1 (by decide)⟩

/-- C2: for a 16-bit `maxWait` = m and any script, blockingBusyWait returns true exactly
when one of the first m + 1 polls reads not busy; when it returns true it has stopped at
the first such poll (k + 1 polls, the first k of them busy), and when it returns false
it has made exactly m + 1 polls, all of them busy. -/
theorem blockingBusyWait_spec (m : Nat) (_hm : m < 65536) (s : SFE_SPI_FLASH) :
    ((blockingBusyWait m s).1 = true ↔ ∃ k, k ≤ m ∧ pollBusy s k = false) ∧
    ((blockingBusyWait m s).1 = true →
      ∃ k, k ≤ m ∧ (∀ j, j < k → pollBusy s j = true) ∧ pollBusy s k = false ∧
        callTrace s (blockingBusyWait m s).2
          = pollEvents s.flashFamily s.resp s.pos (k + 1) ∧
        (blockingBusyWait m s).2.pos = s.pos + pollWidth s.flashFamily * (k + 1)) ∧
    ((blockingBusyWait m s).1 = false →
      (∀ k, k ≤ m → pollBusy s k = true) ∧
        callTrace s (blockingBusyWait m s).2
          = pollEvents s.flashFamily s.resp s.pos (m + 1) ∧
        (blockingBusyWait m s).2.pos = s.pos + pollWidth s.flashFamily * (m + 1)) := by
  rcases blockingBusyWait_cases m s with ⟨hall, he⟩ | ⟨k, hk, hlt, hk0, he⟩
  · rw [he]
    refine ⟨⟨fun h => by simp at h, ?_⟩, fun h => by simp at h, fun _ => ?_⟩
    · rintro ⟨k, hk, hb⟩
      rw [hall k hk] at hb
      simp at hb
    · exact ⟨hall, callTrace_afterPolls s _ _, rfl⟩
  · rw [he]
    refine ⟨⟨fun _ => ⟨k, hk, hk0⟩, fun _ => rfl⟩, fun _ => ?_, fun h => by simp at h⟩
    exact ⟨k, hk, hlt, hk0, callTrace_afterPolls s _ _, rfl⟩

/-- C2, witness: with `maxWait` = 2 on a 25xx device that reads busy, busy, not busy,
the wait returns true exactly when one of the first three polls reads not busy. -/
theorem blockingBusyWait_spec_witness :
    (blockingBusyWait 2 (scriptedBus SFE_FLASH_FAMILY_25XX [0, 1, 0, 1, 0, 0] 0)).1 = true ↔
      ∃ k, k ≤ 2 ∧ pollBusy (scriptedBus SFE_FLASH_FAMILY_25XX [0, 1, 0, 1, 0, 0] 0) k = false :=
  (blockingBusyWait_spec 2 (by decide)
    (scriptedBus SFE_FLASH_FAMILY_25XX [0, 1, 0, 1, 0, 0] 0)).1

/-- C3: isBusy brings both families to one boolean.  In the 25xx family it issues the
8-bit status read [0x05, 0xFF] and returns true exactly when bit 0 of the byte read is
set; in the 45xx family it issues the 16-bit status read [0xD7, 0xFF, 0xFF] and returns
true exactly when bit 15 of the status, which is bit 7 of the first byte read, is
clear. -/
theorem isBusy_polarity (s : SFE_SPI_FLASH) :
    match s.flashFamily with
    | SFE_FLASH_FAMILY_25XX =>
      callTrace s (isBusy s).2 =
        [Event.beginTransaction, Event.csLow, Event.transfer 0x05 (s.resp s.pos % 256),
         Event.transfer 0xFF (s.resp (s.pos + 1) % 256), Event.csHigh,
         Event.endTransaction] ∧
      frames (callTrace s (isBusy s).2) = [[0x05, 0xFF]] ∧
      (getStatus1 s).1 = s.resp (s.pos + 1) % 256 ∧
      ((isBusy s).1 = true ↔ (getStatus1 s).1.testBit 0 = true)
    | SFE_FLASH_FAMILY_45XX =>
      callTrace s (isBusy s).2 =
        [Event.beginTransaction, Event.csLow, Event.transfer 0xD7 (s.resp s.pos % 256),
         Event.transfer 0xFF (s.resp (s.pos + 1) % 256),
         Event.transfer 0xFF (s.resp (s.pos + 2) % 256), Event.csHigh,
         Event.endTransaction] ∧
      frames (callTrace s (isBusy s).2) = [[0xD7, 0xFF, 0xFF]] ∧
      (getStatus16 s).1 = (s.resp (s.pos + 1) % 256) * 256 + s.resp (s.pos + 2) % 256 ∧
      ((getStatus16 s).1.testBit 15 = (s.resp (s.pos + 1) % 256).testBit 7) ∧
      ((isBusy s).1 = true ↔ (getStatus16 s).1.testBit 15 = false) ∧
      ((isBusy s).1 = false ↔ (getStatus16 s).1.testBit 15 = true) := by
  have hb := busyAt_eq s s.pos
  have h256 : ∀ x : Nat, x % 256 < 256 := fun x => Nat.mod_lt _ (by decide)
  have hbusy : (isBusy s).1 = busyAt s s.pos := rfl
  cases hf : s.flashFamily with
  | SFE_FLASH_FAMILY_25XX =>
    simp only [hf] at hb
    have htr : callTrace s (isBusy s).2 = statusEvents SFE_FLASH_FAMILY_25XX s.resp s.pos := by
      rw [isBusy_eq, hf]; exact callTrace_append _ _ _ rfl
    have hv : (getStatus1 s).1 = s.resp (s.pos + 1) % 256 := by rw [getStatus1_eq]
    refine ⟨htr, ?_, hv, ?_⟩
    · rw [htr]; simp [statusEvents, frames, framesAux]
    · rw [hbusy, hb, hv]
  | SFE_FLASH_FAMILY_45XX =>
    simp only [hf] at hb
    have htr : callTrace s (isBusy s).2 = statusEvents SFE_FLASH_FAMILY_45XX s.resp s.pos := by
      rw [isBusy_eq, hf]; exact callTrace_append _ _ _ rfl
    have hv : (getStatus16 s).1
        = (s.resp (s.pos + 1) % 256) * 256 + s.resp (s.pos + 2) % 256 := by
      rw [getStatus16_eq]; exact status16_value _ _ (h256 _) (h256 _)
    have hbit : (getStatus16 s).1.testBit 15 = (s.resp (s.pos + 1) % 256).testBit 7 := by
      rw [getStatus16_eq]; exact status16_testBit _ _ (h256 _) (h256 _)
    refine ⟨htr, ?_, hv, hbit, ?_, ?_⟩
    · rw [htr]; simp [statusEvents, frames, framesAux]
    · rw [hbusy, hb, hbit]; simp
    · rw [hbusy, hb, hbit]; simp

/-- C4: let b be the first byte the bus returns in the JEDEC read made by
getManufacturerID.  If b is one of 0x01, 0x1F, 0x20, 0x9D, 0xBF, 0xC2, 0xC8, 0xEF then
getManufacturerID returns the enumerator whose code is b and isConnected returns true;
for every other b (there are 248, among them 0x00 and 0xFF) getManufacturerID returns
Unknown and isConnected returns false. -/
theorem manufacturer_lookup (s : SFE_SPI_FLASH) :
    callTrace s (getManufacturerID s).2 =
      [Event.beginTransaction, Event.csLow, Event.transfer 0x9F (s.resp s.pos % 256),
       Event.transfer 0xFF (firstJedecByte s),
       Event.transfer 0xFF (s.resp (s.pos + 2) % 256),
       Event.transfer 0xFF (s.resp (s.pos + 3) % 256), Event.csHigh,
       Event.endTransaction] ∧
    (firstJedecByte s ∈ knownManufacturerCodes →
      (getManufacturerID s).1.code = firstJedecByte s ∧
      (getManufacturerID s).1 ≠ SFE_FLASH_MFG_UNKNOWN ∧ (isConnected s).1 = true) ∧
    (firstJedecByte s ∉ knownManufacturerCodes →
      (getManufacturerID s).1 = SFE_FLASH_MFG_UNKNOWN ∧ (isConnected s).1 = false) ∧
    (knownManufacturerCodes.Nodup ∧ (∀ c ∈ knownManufacturerCodes, c < 256) ∧
      256 - knownManufacturerCodes.length = 248) ∧
    0x00 ∉ knownManufacturerCodes ∧ 0xFF ∉ knownManufacturerCodes := by
  refine ⟨?_, ?_, ?_, by decide, by decide, by decide⟩
  · apply callTrace_append
    rw [getManufacturerID_trace, getJEDEC_eq]
    rfl
  · intro hb
    rw [isConnected_fst, getManufacturerID_fst]
    simp only [knownManufacturerCodes, List.mem_cons, List.mem_singleton, List.mem_nil_iff,
      or_false] at hb
    rcases hb with h | h | h | h | h | h | h | h <;> rw [h] <;> decide
  · intro hb
    rw [isConnected_fst, getManufacturerID_fst]
    simp only [knownManufacturerCodes, List.mem_cons, List.mem_singleton, List.mem_nil_iff,
      or_false, not_or] at hb
    obtain ⟨h1, h2, h3, h4, h5, h6, h7, h8⟩ := hb
    simp [h1, h2, h3, h4, h5, h6, h7, h8]

/-- C4, witness: on a bus answering 0xEF to every transfer the manufacturer is Winbond
(code 0xEF) and the device counts as connected. -/
theorem manufacturer_lookup_witness :
    (getManufacturerID (constBus SFE_FLASH_FAMILY_25XX 0xEF)).1.code
        = firstJedecByte (constBus SFE_FLASH_FAMILY_25XX 0xEF) ∧
    (getManufacturerID (constBus SFE_FLASH_FAMILY_25XX 0xEF)).1 ≠ SFE_FLASH_MFG_UNKNOWN ∧
    (isConnected (constBus SFE_FLASH_FAMILY_25XX 0xEF)).1 = true :=
  (manufacturer_lookup (constBus SFE_FLASH_FAMILY_25XX 0xEF)).2.1 (by decide)

/-- C5: with a byte count of zero, readBlock, writeBlock and writeBlockAAI return the
zero-size code and leave the object as it was, for every address, array and state: the
trace of the call is empty (no bus acquisition, no chip-select change, no transfer, no
status poll), and readBlock leaves the array untouched. -/
theorem zero_length_touches_nothing (s : SFE_SPI_FLASH) (address : Nat)
    (dataArray : Nat → Nat) :
    readBlock address dataArray 0 s = (SFE_FLASH_READ_WRITE_ZERO_SIZE, dataArray, s) ∧
    writeBlock address dataArray 0 s = (SFE_FLASH_READ_WRITE_ZERO_SIZE, s) ∧
    writeBlockAAI address dataArray 0 s = (SFE_FLASH_READ_WRITE_ZERO_SIZE, s) ∧
    callTrace s (readBlock address dataArray 0 s).2.2 = [] ∧
    callTrace s (writeBlock address dataArray 0 s).2 = [] ∧
    callTrace s (writeBlockAAI address dataArray 0 s).2 = [] := by
  simp [readBlock, writeBlock, writeBlockAAI, callTrace]

/-- C9: for every address, byte, family and script, writeBlockAAI called with a single
byte is the same call as writeByte with that byte: the same result and the same object
afterwards (trace, script position, delay and debug output), the busy timeout
included. -/
theorem writeBlockAAI_one_eq_writeByte (s : SFE_SPI_FLASH) (address : Nat)
    (dataArray : Nat → Nat) :
    writeBlockAAI address dataArray 1 s = writeByte address (dataArray 0) s ∧
    callTrace s (writeBlockAAI address dataArray 1 s).2
      = callTrace s (writeByte address (dataArray 0) s).2 := by
  have h : writeBlockAAI address dataArray 1 s = writeByte address (dataArray 0) s := by
    simp [writeBlockAAI]
  exact ⟨h, by rw [h]⟩

/-- C6, as claimed, fails: writeBlockAAI with three bytes on a 25xx device that is idle
at the first poll and busy afterwards returns the busy failure, yet the trace of the call
holds the frames [0x80], [0x06], [0xAD, ...] and [0x04] between the status reads. -/
theorem failure_after_partial_sequence :
    (writeBlockAAI 0 (fun _ => 0) 3 (scriptedBus SFE_FLASH_FAMILY_25XX [0, 0] 1)).1
      = SFE_FLASH_READ_WRITE_FAIL_DEVICE_BUSY ∧
    frames (callTrace (scriptedBus SFE_FLASH_FAMILY_25XX [0, 0] 1)
        (writeBlockAAI 0 (fun _ => 0) 3 (scriptedBus SFE_FLASH_FAMILY_25XX [0, 0] 1)).2)
      = [[0x05, 0xFF], [0x80], [0x06], [0xAD, 0, 0, 0, 0, 0], [0x04]]
        ++ List.replicate 101 [0x05, 0xFF] ∧
    onlyStatusReads (callTrace (scriptedBus SFE_FLASH_FAMILY_25XX [0, 0] 1)
        (writeBlockAAI 0 (fun _ => 0) 3 (scriptedBus SFE_FLASH_FAMILY_25XX [0, 0] 1)).2)
      = false := by
  have hran := ran_trans (ran_trans
    (ran_afterPolls (scriptedBus SFE_FLASH_FAMILY_25XX [0, 0] 1) 1 0)
    (ran_withTxn (afterPolls (scriptedBus SFE_FLASH_FAMILY_25XX [0, 0] 1) 1 0)
      (aaiFrames 0 (fun _ => 0) 3)))
    (ran_afterPolls (withTxn (afterPolls (scriptedBus SFE_FLASH_FAMILY_25XX [0, 0] 1) 1 0)
      (aaiFrames 0 (fun _ => 0) 3)) 101 100)
  have hfr := ran_frames hran
  have hfr2 : frames (callTrace (scriptedBus SFE_FLASH_FAMILY_25XX [0, 0] 1)
      (afterPolls (withTxn (afterPolls (scriptedBus SFE_FLASH_FAMILY_25XX [0, 0] 1) 1 0)
        (aaiFrames 0 (fun _ => 0) 3)) 101 100))
      = [[0x05, 0xFF], [0x80], [0x06], [0xAD, 0, 0, 0, 0, 0], [0x04]]
        ++ List.replicate 101 [0x05, 0xFF] := by
    rw [hfr]
    simp only [List.flatten_append, onBus_append, onBus_polls]
    simp [onBus, aaiFrames, statusFrame, statusFrame25, withTxn, afterPolls, scriptedBus]
  rw [writeBlockAAI_three_then_busy]
  refine ⟨rfl, hfr2, ?_⟩
  simp only [onlyStatusReads, hfr2]
  decide


/-- C6, amended: when erase, readBlock, writeByte, writeBlock, setWriteStatusReg1,
setWriteStatusReg16 or disableWrite returns the busy or the zero-size failure, every
frame of the call is a status read; the same holds for writeBlockAAI when the byte count
is 0, 1 or even.  For writeBlockAAI with an odd count n ≥ 3 it holds when the initial wait
fails; when that wait succeeds and the trailing writeByte times out, the call has sent the
complete auto-increment sequence (disable SO, write enable, the word programs, write
disable) between the status reads, and nothing of the trailing page program. -/
theorem failure_sends_only_status_reads (s : SFE_SPI_FLASH) (fuel address n thingToWrite
    statusByte statusWord : Nat) (dataArray : Nat → Nat) :
    (∀ r t, erase fuel s = some (r, t) → Failed r → onlyStatusReads (callTrace s t) = true) ∧
    (Failed (readBlock address dataArray n s).1 →
      onlyStatusReads (callTrace s (readBlock address dataArray n s).2.2) = true) ∧
    (Failed (writeByte address thingToWrite s).1 →
      onlyStatusReads (callTrace s (writeByte address thingToWrite s).2) = true) ∧
    (Failed (writeBlock address dataArray n s).1 →
      onlyStatusReads (callTrace s (writeBlock address dataArray n s).2) = true) ∧
    (Failed (setWriteStatusReg1 statusByte s).1 →
      onlyStatusReads (callTrace s (setWriteStatusReg1 statusByte s).2) = true) ∧
    (Failed (setWriteStatusReg16 statusWord s).1 →
      onlyStatusReads (callTrace s (setWriteStatusReg16 statusWord s).2) = true) ∧
    (Failed (disableWrite s).1 →
      onlyStatusReads (callTrace s (disableWrite s).2) = true) ∧
    (n < 65536 → (n ≤ 1 ∨ n % 2 = 0) → Failed (writeBlockAAI address dataArray n s).1 →
      onlyStatusReads (callTrace s (writeBlockAAI address dataArray n s).2) = true) ∧
    (n < 65536 → 3 ≤ n → n % 2 = 1 → Failed (writeBlockAAI address dataArray n s).1 →
      ((blockingBusyWait 100 s).1 = false ∧
        onlyStatusReads (callTrace s (writeBlockAAI address dataArray n s).2) = true) ∨
      ((blockingBusyWait 100 s).1 = true ∧ ∃ k, k < 101 ∧
        frames (callTrace s (writeBlockAAI address dataArray n s).2)
          = List.replicate (k + 1) (statusFrame s.flashFamily)
            ++ onBus (aaiFrames address dataArray n)
            ++ List.replicate 101 (statusFrame s.flashFamily))) := by
  refine ⟨?_, ?_, ?_, ?_, ?_, ?_, ?_, ?_, ?_⟩
  · intro r t h hr
    rcases erase_shape fuel s t r h with ⟨_, hran⟩ | ⟨hs, _⟩
    · exact onlyStatusReads_of_ran_polls hran
    · exact absurd hs hr.ne_success
  · intro hr
    by_cases hn : n = 0
    · subst hn
      simp only [readBlock, if_true]
      exact onlyStatusReads_callTrace_self s
    · exact onlyStatusReads_of_waitThen (readBlock_shape s address dataArray n hn) hr
  · exact onlyStatusReads_of_waitThen (writeByte_shape s address thingToWrite)
  · intro hr
    by_cases hn : n = 0
    · subst hn
      simp only [writeBlock, if_true]
      exact onlyStatusReads_callTrace_self s
    · exact onlyStatusReads_of_waitThen (writeBlock_shape s address dataArray n hn) hr
  · exact onlyStatusReads_of_waitThen (setWriteStatusReg1_shape s statusByte)
  · exact onlyStatusReads_of_waitThen (setWriteStatusReg16_shape s statusWord)
  · exact onlyStatusReads_of_waitThen (disableWrite_shape s)
  · intro hn hcase hr
    by_cases h0 : n = 0
    · subst h0
      simp only [writeBlockAAI, if_true]
      exact onlyStatusReads_callTrace_self s
    by_cases h1 : n = 1
    · subst h1
      have e : writeBlockAAI address dataArray 1 s = writeByte address (dataArray 0) s := by
        simp [writeBlockAAI]
      rw [e] at hr ⊢
      exact onlyStatusReads_of_waitThen (writeByte_shape s address (dataArray 0)) hr
    have hev : n % 2 = 0 := by omega
    rcases writeBlockAAI_shape s address dataArray n (by omega) hn with
      ⟨_, _, hran⟩ | ⟨k, W, _, _, _, ⟨_, he⟩ | ⟨hodd, _⟩⟩
    · exact onlyStatusReads_of_ran_polls hran
    · rw [he] at hr
      exact absurd rfl hr.ne_success
    · omega
  · intro hn h3 hodd hr
    rcases writeBlockAAI_shape s address dataArray n (by omega) hn with
      ⟨hw, _, hran⟩ | ⟨k, W, hk, hw, hsW, ⟨hev, _⟩ | ⟨_, he⟩⟩
    · left; exact ⟨hw, onlyStatusReads_of_ran_polls hran⟩
    · omega
    · right
      refine ⟨hw, k, hk, ?_⟩
      rw [he] at hr ⊢
      have hWt := (waitThen_failed (writeByte_shape W _ _) hr.ne_success).2
      rw [hsW.1] at hWt
      rw [ran_frames (ran_trans hsW hWt)]
      simp only [List.flatten_append, onBus_append, onBus_polls, List.flatten_cons,
        List.flatten_nil, List.append_nil]

/-- C6, amended, witness: the three-byte auto-increment write to a 25xx device that is
idle at the first poll and busy afterwards fails after its initial wait has succeeded;
the frames of the call are one status read, the complete auto-increment sequence and the
101 status reads of the trailing write. -/
theorem failure_sends_only_status_reads_witness :
    ((blockingBusyWait 100 (scriptedBus SFE_FLASH_FAMILY_25XX [0, 0] 1)).1 = false ∧
      onlyStatusReads (callTrace (scriptedBus SFE_FLASH_FAMILY_25XX [0, 0] 1)
        (writeBlockAAI 0 (fun _ => 0) 3 (scriptedBus SFE_FLASH_FAMILY_25XX [0, 0] 1)).2)
        = true) ∨
    ((blockingBusyWait 100 (scriptedBus SFE_FLASH_FAMILY_25XX [0, 0] 1)).1 = true ∧
      ∃ k, k < 101 ∧
        frames (callTrace (scriptedBus SFE_FLASH_FAMILY_25XX [0, 0] 1)
          (writeBlockAAI 0 (fun _ => 0) 3 (scriptedBus SFE_FLASH_FAMILY_25XX [0, 0] 1)).2)
          = List.replicate (k + 1)
              (statusFrame (scriptedBus SFE_FLASH_FAMILY_25XX [0, 0] 1).flashFamily)
            ++ onBus (aaiFrames 0 (fun _ => 0) 3)
            ++ List.replicate 101
              (statusFrame (scriptedBus SFE_FLASH_FAMILY_25XX [0, 0] 1).flashFamily)) :=
  (failure_sends_only_status_reads (scriptedBus SFE_FLASH_FAMILY_25XX [0, 0] 1) 0 0 3 0 0 0
    (fun _ => 0)).2.2.2.2.2.2.2.2 (by decide) (by decide) (by decide)
    (Or.inl (by rw [writeBlockAAI_three_then_busy]))

/-- C7, as claimed, fails in two places.  On an idle 25xx device setWriteStatusReg1 sends
the write-status-register frame [0x01, v] right after [0x50], not after [0x06]; and
writeBlockAAI with four bytes sends its second word program [0xAD, d2, d3] right after
the first word program. -/
theorem mutation_without_write_enable :
    frames (callTrace (constBus SFE_FLASH_FAMILY_25XX 0)
        (setWriteStatusReg1 0 (constBus SFE_FLASH_FAMILY_25XX 0)).2)
      = [[0x05, 0xFF], [0x50], [0x01, 0]] ∧
    preceded isMutating isWriteEnable
      (frames (callTrace (constBus SFE_FLASH_FAMILY_25XX 0)
        (setWriteStatusReg1 0 (constBus SFE_FLASH_FAMILY_25XX 0)).2)) = false ∧
    frames (callTrace (constBus SFE_FLASH_FAMILY_25XX 0)
        (writeBlockAAI 0 (fun _ => 0) 4 (constBus SFE_FLASH_FAMILY_25XX 0)).2)
      = [[0x05, 0xFF], [0x80], [0x06], [0xAD, 0, 0, 0, 0, 0], [0xAD, 0, 0], [0x04]] ∧
    preceded isMutating isWriteEnable
      (frames (callTrace (constBus SFE_FLASH_FAMILY_25XX 0)
        (writeBlockAAI 0 (fun _ => 0) 4 (constBus SFE_FLASH_FAMILY_25XX 0)).2)) = false := by
  have hidle : blockingBusyWait 100 (constBus SFE_FLASH_FAMILY_25XX 0)
      = (true, afterPolls (constBus SFE_FLASH_FAMILY_25XX 0) 1 0) :=
    blockingBusyWait_idle 100 _ (by rw [pollBusy_constBus_25]; decide)
  have h1 : frames (callTrace (constBus SFE_FLASH_FAMILY_25XX 0)
      (setWriteStatusReg1 0 (constBus SFE_FLASH_FAMILY_25XX 0)).2)
      = [[0x05, 0xFF], [0x50], [0x01, 0]] := by
    rw [setWriteStatusReg1_ready _ _ 0 hidle, frames_after_one_poll]
    decide
  have h2 : frames (callTrace (constBus SFE_FLASH_FAMILY_25XX 0)
      (writeBlockAAI 0 (fun _ => 0) 4 (constBus SFE_FLASH_FAMILY_25XX 0)).2)
      = [[0x05, 0xFF], [0x80], [0x06], [0xAD, 0, 0, 0, 0, 0], [0xAD, 0, 0], [0x04]] := by
    rw [writeBlockAAI_ready _ _ 0 _ 4 (by omega) (by omega) hidle, if_neg (by decide),
      frames_after_one_poll]
    decide
  refine ⟨h1, ?_, h2, ?_⟩
  · rw [h1]; decide
  · rw [h2]; decide

/-- C7, amended: in the trace of every operation, for every input, a page-program frame
(0x02), a chip-erase frame (0xC7) and an AAI word-program frame that carries an address
come immediately after a frame that is the single write-enable byte 0x06; an AAI
word-program frame without address comes immediately after another AAI word-program
frame; a write-status-register frame (0x01) comes immediately after the single byte 0x50
(enable write status register). -/
theorem frames_keep_latch_order (s : SFE_SPI_FLASH) (fuel maxWait address n thingToWrite
    statusByte statusWord : Nat) (dataArray : Nat → Nat)
    (result : Option sfe_flash_read_write_result_e) :
    (∀ r t, erase fuel s = some (r, t) → KeepsLatchOrder s t) ∧
    KeepsLatchOrder s (readByte address result s).2.2 ∧
    KeepsLatchOrder s (readBlock address dataArray n s).2.2 ∧
    KeepsLatchOrder s (writeByte address thingToWrite s).2 ∧
    KeepsLatchOrder s (writeBlock address dataArray n s).2 ∧
    (n < 65536 → KeepsLatchOrder s (writeBlockAAI address dataArray n s).2) ∧
    KeepsLatchOrder s (setWriteStatusReg1 statusByte s).2 ∧
    KeepsLatchOrder s (setWriteStatusReg16 statusWord s).2 ∧
    KeepsLatchOrder s (disableWrite s).2 ∧
    KeepsLatchOrder s (isBusy s).2 ∧
    KeepsLatchOrder s (blockingBusyWait maxWait s).2 ∧
    KeepsLatchOrder s (getStatus1 s).2 ∧
    KeepsLatchOrder s (getStatus16 s).2 ∧
    KeepsLatchOrder s (getJEDEC s).2 ∧
    KeepsLatchOrder s (getManufacturerID s).2 ∧
    KeepsLatchOrder s (getRawManufacturerID s).2 ∧
    KeepsLatchOrder s (getDeviceID s).2 ∧
    KeepsLatchOrder s (isConnected s).2 := by
  have hone : ∀ {t : SFE_SPI_FLASH} {fs : List (List Nat)}, Ran s t [fs] → KeepsOrder fs →
      KeepsLatchOrder s t := by
    intro t fs hran hfs
    apply latchProtocol_of_ran hran
    intro gs hgs
    rw [List.mem_singleton.mp hgs]; exact hfs
  refine ⟨fun r t h => keepsLatchOrder_erase fuel s t r h, keepsLatchOrder_readByte s _ _,
    ?_, keepsLatchOrder_of_waitThen (writeByte_shape s _ _) (keepsOrder_writeByte _ _), ?_,
    keepsLatchOrder_writeBlockAAI s address dataArray n,
    keepsLatchOrder_of_waitThen (setWriteStatusReg1_shape s _) (keepsOrder_statusReg1 _),
    keepsLatchOrder_of_waitThen (setWriteStatusReg16_shape s _) (keepsOrder_statusReg16 _),
    keepsLatchOrder_of_waitThen (disableWrite_shape s) keepsOrder_disableWrite,
    hone (ran_isBusy s) (keepsOrder_status _), ?_,
    hone (ran_getStatus1 s) keepsOrder_status25, hone (ran_getStatus16 s) keepsOrder_status45,
    hone (ran_getJEDEC s) keepsOrder_jedec, hone (ran_getManufacturerID s) keepsOrder_jedec,
    hone (ran_getRawManufacturerID s) keepsOrder_jedec,
    hone (ran_getDeviceID s) keepsOrder_jedec, keepsLatchOrder_isConnected s⟩
  · by_cases hn : n = 0
    · subst hn
      simp only [readBlock, if_true]
      exact keepsLatchOrder_self s
    · exact keepsLatchOrder_of_waitThen (readBlock_shape s address dataArray n hn)
        (keepsOrder_readBlock _ _)
  · by_cases hn : n = 0
    · subst hn
      simp only [writeBlock, if_true]
      exact keepsLatchOrder_self s
    · exact keepsLatchOrder_of_waitThen (writeBlock_shape s address dataArray n hn)
        (keepsOrder_writeBlock _ _ _)
  · obtain ⟨k, _, hran⟩ := ran_blockingBusyWait maxWait s
    exact latchProtocol_of_ran hran (keepsOrder_polls _ _)

/-- C7, amended, witness: the four-byte auto-increment write to an idle 25xx device
keeps the order of frames. -/
theorem frames_keep_latch_order_witness :
    KeepsLatchOrder (constBus SFE_FLASH_FAMILY_25XX 0)
      (writeBlockAAI 0 (fun _ => 0) 4 (constBus SFE_FLASH_FAMILY_25XX 0)).2 :=
  (frames_keep_latch_order (constBus SFE_FLASH_FAMILY_25XX 0) 0 0 0 4 0 0 0 (fun _ => 0)
    none).2.2.2.2.2.1 (by decide)

/-- C8: for 1 ≤ n ≤ 65535 on a device that reads not busy at every poll, writeBlockAAI
returns success and sends exactly ⌊n/2⌋ AAI word-program frames (opcode 0xAD).  When n is
odd it sends in addition exactly one page-program frame, the last frame of the call,
which writes the single byte dataArray[n-1] at address + n - 1; when n is even it sends
no page-program frame. -/
theorem writeBlockAAI_word_count (s : SFE_SPI_FLASH) (address n : Nat)
    (dataArray : Nat → Nat) (h1 : 1 ≤ n) (hn : n ≤ 65535)
    (hidle : ∀ p, busyAt s p = false) :
    (writeBlockAAI address dataArray n s).1 = SFE_FLASH_READ_WRITE_SUCCESS ∧
    ((frames (callTrace s (writeBlockAAI address dataArray n s).2)).filter
      (hasOpcode 0xAD)).length = n / 2 ∧
    (frames (callTrace s (writeBlockAAI address dataArray n s).2)).filter (hasOpcode 0x02)
      = (if n % 2 = 1 then [pageProgramFrame (address + n - 1) (dataArray (n - 1))]
         else []) ∧
    (n % 2 = 1 →
      (frames (callTrace s (writeBlockAAI address dataArray n s).2)).getLast?
        = some (pageProgramFrame (address + n - 1) (dataArray (n - 1)))) := by
  have hw := blockingBusyWait_idle 100 s (by simpa [pollBusy] using hidle s.pos)
  by_cases hone : n = 1
  · subst hone
    have e : writeBlockAAI address dataArray 1 s
        = (SFE_FLASH_READ_WRITE_SUCCESS,
            withTxn (afterPolls s 1 0) (writeByteFrames address (dataArray 0))) := by
      simp [writeBlockAAI, writeByte_ready s _ address (dataArray 0) hw]
    rw [e]
    simp only [frames_after_one_poll, onBus_writeByteFrames_exact,
      (filter_status_cons _ _).1, (filter_status_cons _ _).2, (filter_writeByte _ _).1,
      (filter_writeByte _ _).2]
    simp
  · have hsW := ran_trans (ran_afterPolls s 1 0)
      (ran_withTxn (afterPolls s 1 0) (aaiFrames address dataArray n))
    have hcnt := filter_aai_words address dataArray n
    rw [writeBlockAAI_ready s _ address dataArray n (by omega) (by omega) hw]
    by_cases hodd : n % 2 = 1
    · have hw2 := blockingBusyWait_idle 100
        (withTxn (afterPolls s 1 0) (aaiFrames address dataArray n))
        (by simp only [pollBusy, Nat.mul_zero, Nat.add_zero]
            rw [busyAt_of_ran hsW]; exact hidle _)
      rw [if_pos hodd, writeByte_ready _ _ _ _ hw2]
      have hran := ran_trans hsW (ran_trans
        (ran_afterPolls (withTxn (afterPolls s 1 0) (aaiFrames address dataArray n)) 1 0)
        (ran_withTxn _ (writeByteFrames ((address + n - 1) % 4294967296)
          (dataArray (n - 1)))))
      rw [hsW.1] at hran
      have hfr : frames (callTrace s (withTxn (afterPolls
          (withTxn (afterPolls s 1 0) (aaiFrames address dataArray n)) 1 0)
          (writeByteFrames ((address + n - 1) % 4294967296) (dataArray (n - 1)))))
          = statusFrame s.flashFamily :: (onBus (aaiFrames address dataArray n)
            ++ statusFrame s.flashFamily ::
              [[0x06], pageProgramFrame (address + n - 1) (dataArray (n - 1))]) := by
        rw [ran_frames hran]
        simp only [List.flatten_append, onBus_append, onBus_polls, List.flatten_cons,
          List.flatten_nil, List.append_nil, onBus_writeByteFrames]
        simp
      rw [hfr]
      simp only [(filter_status_cons _ _).1, (filter_status_cons _ _).2, List.filter_append,
        (filter_writeByte _ _).1, (filter_writeByte _ _).2, hcnt.2, if_pos hodd,
        List.append_nil, List.nil_append, hcnt.1]
      refine ⟨trivial, by omega, trivial, fun _ => ?_⟩
      rw [List.getLast?_eq_some_iff]
      exact ⟨statusFrame s.flashFamily :: (onBus (aaiFrames address dataArray n)
        ++ [statusFrame s.flashFamily, [0x06]]), by simp⟩
    · rw [if_neg hodd]
      simp only [frames_after_one_poll, (filter_status_cons _ _).1,
        (filter_status_cons _ _).2, hcnt.2, if_neg hodd, hcnt.1]
      exact ⟨trivial, by omega, trivial, fun h => absurd h hodd⟩

/-- C8, witness: five bytes to an idle 25xx device give two word programs and one
trailing page program of dataArray[4] at address + 4. -/
theorem writeBlockAAI_word_count_witness :
    (writeBlockAAI 0x10 (fun i => i + 1) 5 (constBus SFE_FLASH_FAMILY_25XX 0)).1
      = SFE_FLASH_READ_WRITE_SUCCESS ∧
    ((frames (callTrace (constBus SFE_FLASH_FAMILY_25XX 0)
      (writeBlockAAI 0x10 (fun i => i + 1) 5 (constBus SFE_FLASH_FAMILY_25XX 0)).2)).filter
      (hasOpcode 0xAD)).length = 5 / 2 ∧
    (frames (callTrace (constBus SFE_FLASH_FAMILY_25XX 0)
      (writeBlockAAI 0x10 (fun i => i + 1) 5 (constBus SFE_FLASH_FAMILY_25XX 0)).2)).filter
      (hasOpcode 0x02)
      = (if 5 % 2 = 1 then [pageProgramFrame (0x10 + 5 - 1) ((fun i => i + 1) (5 - 1))]
         else []) ∧
    (5 % 2 = 1 →
      (frames (callTrace (constBus SFE_FLASH_FAMILY_25XX 0)
        (writeBlockAAI 0x10 (fun i => i + 1) 5 (constBus SFE_FLASH_FAMILY_25XX 0)).2)).getLast?
        = some (pageProgramFrame (0x10 + 5 - 1) ((fun i => i + 1) (5 - 1)))) :=
  writeBlockAAI_word_count (constBus SFE_FLASH_FAMILY_25XX 0) 0x10 5 (fun i => i + 1)
    (by decide) (by decide) (fun p => by simp [busyAt_eq, constBus])

/-- C10: for 2 ≤ n (a 16-bit count), once the initial wait has succeeded writeBlockAAI
makes exactly one bus acquisition right after the status polls of that wait; what
follows is nothing when n is even and the trailing writeByte when n is odd.  The frames
of that acquisition are, in order: [0x80]; [0x06]; [0xAD, a2, a1, a0, d[0], d[1]]; for
k = 1 .. ⌊n/2⌋ - 1 the frame [0xAD, d[2k], d[2k+1]] without address; [0x04].  So [0x80],
[0x06] and [0x04] occur once each, every frame between [0x06] and [0x04] is a word
program (no status read, no write enable in between), and the data bytes carried are
d[0], ..., d[2⌊n/2⌋ - 1], each once and in index order. -/
theorem writeBlockAAI_sequence (s : SFE_SPI_FLASH) (address n : Nat)
    (dataArray : Nat → Nat) (h2 : 2 ≤ n) (hn : n < 65536)
    (hw : (blockingBusyWait 100 s).1 = true) :
    (∃ k W, k < 101 ∧
      Ran s W (List.replicate (k + 1) [statusFrame s.flashFamily]
        ++ [aaiFrames address dataArray n]) ∧
      writeBlockAAI address dataArray n s
        = if n % 2 = 1 then
            writeByte ((address + n - 1) % 4294967296) (dataArray (n - 1)) W
          else (SFE_FLASH_READ_WRITE_SUCCESS, W)) ∧
    onBus (aaiFrames address dataArray n)
      = [[0x80], [0x06], [0xAD, (address >>> 16) % 256, (address >>> 8) % 256,
          (address &&& 0xFF) % 256, dataArray 0 % 256, dataArray 1 % 256]]
        ++ (List.range (n / 2 - 1)).map
            (fun k => [0xAD, dataArray (2 * (k + 1)) % 256, dataArray (2 * (k + 1) + 1) % 256])
        ++ [[0x04]] ∧
    (onBus (aaiFrames address dataArray n)).count [0x80] = 1 ∧
    (onBus (aaiFrames address dataArray n)).count [0x06] = 1 ∧
    (onBus (aaiFrames address dataArray n)).count [0x04] = 1 ∧
    (((onBus (aaiFrames address dataArray n)).drop 2).dropLast).all (hasOpcode 0xAD) = true ∧
    (onBus (aaiFrames address dataArray n)).all (fun f => !isStatusFrame f) = true ∧
    aaiPayload (onBus (aaiFrames address dataArray n))
      = (List.range (2 * (n / 2))).map (fun i => dataArray i % 256) := by
  have hmapmem : ∀ f ∈ (List.range (n / 2 - 1)).map
      (fun k => [0xAD, dataArray (2 * k + 2) % 256, dataArray (2 * k + 3) % 256]),
      hasOpcode 0xAD f = true ∧ f.length = 3 := by
    intro f hf
    simp only [List.mem_map, List.mem_range] at hf
    obtain ⟨k, _, rfl⟩ := hf
    simp [hasOpcode]
  have hcount : ∀ b : Nat, ((List.range (n / 2 - 1)).map
      (fun k => [0xAD, dataArray (2 * k + 2) % 256, dataArray (2 * k + 3) % 256])).count [b]
      = 0 := by
    intro b
    rw [List.count_eq_zero]
    intro hmem
    have := (hmapmem _ hmem).2
    simp at this
  refine ⟨?_, ?_, ?_, ?_, ?_, ?_, ?_, ?_⟩
  · rcases writeBlockAAI_shape s address dataArray n h2 hn with
      ⟨hf, _, _⟩ | ⟨k, W, hk, _, hsW, ⟨hev, he⟩ | ⟨hodd, he⟩⟩
    · rw [hf] at hw; exact absurd hw (by decide)
    · exact ⟨k, W, hk, hsW, by rw [he, if_neg (by omega)]⟩
    · exact ⟨k, W, hk, hsW, by rw [he, if_pos hodd]⟩
  · have hf : (fun k => [0xAD, dataArray (2 * (k + 1)) % 256,
        dataArray (2 * (k + 1) + 1) % 256])
        = (fun k => [0xAD, dataArray (2 * k + 2) % 256, dataArray (2 * k + 3) % 256]) := by
      funext k
      have e1 : 2 * (k + 1) = 2 * k + 2 := by omega
      have e2 : 2 * k + 2 + 1 = 2 * k + 3 := by omega
      rw [e1, e2]
    rw [onBus_aaiFrames, hf]
  · rw [onBus_aaiFrames, List.count_append, List.count_append, hcount]
    simp [List.count_cons]
  · rw [onBus_aaiFrames, List.count_append, List.count_append, hcount]
    simp [List.count_cons]
  · rw [onBus_aaiFrames, List.count_append, List.count_append, hcount]
    simp [List.count_cons]
  · rw [onBus_aaiFrames]
    have hd : ∀ (a b c : List Nat) (M : List (List Nat)),
        (List.drop 2 ([a, b, c] ++ M ++ [[0x04]])).dropLast = c :: M := by
      intro a b c M
      have : List.drop 2 ([a, b, c] ++ M ++ [[0x04]]) = (c :: M) ++ [[0x04]] := by simp
      rw [this, List.dropLast_concat]
    rw [hd, List.all_cons, Bool.and_eq_true, List.all_eq_true]
    exact ⟨by simp [hasOpcode], fun f hf => (hmapmem f hf).1⟩
  · rw [onBus_aaiFrames]
    simp only [List.all_append, List.all_cons, List.all_nil, Bool.and_true, Bool.and_eq_true,
      List.all_eq_true]
    refine ⟨⟨⟨by decide, by decide, by simp [isStatusFrame, statusFrame25, statusFrame45]⟩,
      ?_⟩, by decide⟩
    intro f hf
    have hlen := hmapmem f hf
    have h173 : f.head? = some 0xAD := by simpa [hasOpcode] using hlen.1
    simp only [isStatusFrame, statusFrame25, statusFrame45, Bool.not_eq_true',
      Bool.or_eq_false_iff, beq_eq_false_iff_ne, ne_eq]
    constructor <;> intro hcontra <;> rw [hcontra] at h173 <;> simp at h173
  · rw [onBus_aaiFrames, aaiPayload_append, aaiPayload_append]
    have hn2 : 2 * (n / 2) = 2 * (n / 2 - 1 + 1) := by omega
    rw [hn2, ← aaiPayload_pairs]
    simp [aaiPayload, hasOpcode]

/-- C10, witness: six bytes written with auto address increment to an idle 25xx
device. -/
theorem writeBlockAAI_sequence_witness :
    aaiPayload (onBus (aaiFrames 0x012345 (fun i => i + 0x10) 6))
      = (List.range (2 * (6 / 2))).map (fun i => (fun i => i + 0x10) i % 256) :=
  (writeBlockAAI_sequence (constBus SFE_FLASH_FAMILY_25XX 0) 0x012345 6 (fun i => i + 0x10)
    (by decide) (by decide)
    (by rw [blockingBusyWait_idle 100 _ (by rw [pollBusy_constBus_25]; decide)])).2.2.2.2.2.2.2

/-- C11: for every address and 1 ≤ n ≤ 65535, when the initial wait succeeds writeBlock
returns success and, after the status polls of that wait, makes one bus acquisition of
exactly two frames: [0x06] and [0x02, a2, a1, a0, d[0], ..., d[n-1]].  writeByte returns
success with the frames [0x06], [0x02, a2, a1, a0, v], and it is the same call as
writeBlock with the one-byte array [v]. -/
theorem page_program_single_command (s : SFE_SPI_FLASH) (address n thingToWrite : Nat)
    (dataArray : Nat → Nat) (h1 : 1 ≤ n) (_hn : n ≤ 65535)
    (hw : (blockingBusyWait 100 s).1 = true) :
    (writeBlock address dataArray n s).1 = SFE_FLASH_READ_WRITE_SUCCESS ∧
    (∃ k, k < 101 ∧
      Ran s (writeBlock address dataArray n s).2
        (List.replicate (k + 1) [statusFrame s.flashFamily]
          ++ [[[0x06], [0x02, address >>> 16, address >>> 8, address &&& 0xFF]
                ++ (List.range n).map dataArray]]) ∧
      frames (callTrace s (writeBlock address dataArray n s).2)
        = List.replicate (k + 1) (statusFrame s.flashFamily)
          ++ [[0x06], [0x02, (address >>> 16) % 256, (address >>> 8) % 256, address % 256]
                ++ (List.range n).map (fun i => dataArray i % 256)]) ∧
    (writeByte address thingToWrite s).1 = SFE_FLASH_READ_WRITE_SUCCESS ∧
    (∃ k, k < 101 ∧
      Ran s (writeByte address thingToWrite s).2
        (List.replicate (k + 1) [statusFrame s.flashFamily]
          ++ [writeByteFrames address thingToWrite]) ∧
      frames (callTrace s (writeByte address thingToWrite s).2)
        = List.replicate (k + 1) (statusFrame s.flashFamily)
          ++ [[0x06], [0x02, (address >>> 16) % 256, (address >>> 8) % 256, address % 256,
                thingToWrite % 256]]) ∧
    writeBlock address (fun _ => thingToWrite) 1 s = writeByte address thingToWrite s := by
  obtain ⟨k, hk, _, _, he⟩ := wait_success 100 s hw
  have hn0 : n ≠ 0 := by omega
  refine ⟨?_, ⟨k, by omega, ?_, ?_⟩, ?_, ⟨k, by omega, ?_, ?_⟩, ?_⟩
  · rw [writeBlock_ready s _ address dataArray n hn0 he]
  · rw [writeBlock_ready s _ address dataArray n hn0 he]
    exact ran_after_polls_txn s _ _ _
  · rw [writeBlock_ready s _ address dataArray n hn0 he, frames_after_polls_txn,
      onBus_pageProgram, List.map_map]
    rfl
  · rw [writeByte_ready s _ address thingToWrite he]
  · rw [writeByte_ready s _ address thingToWrite he]
    exact ran_after_polls_txn s _ _ _
  · rw [writeByte_ready s _ address thingToWrite he, frames_after_polls_txn,
      onBus_writeByteFrames_exact]
    rfl
  · rw [writeBlock_ready s _ address _ 1 (by decide) he,
      writeByte_ready s _ address thingToWrite he]
    rfl

/-- C11, witness: three bytes written to an idle 25xx device at address 0x012345. -/
theorem page_program_single_command_witness :
    (writeBlock 0x012345 (fun i => i + 7) 3 (constBus SFE_FLASH_FAMILY_25XX 0)).1
      = SFE_FLASH_READ_WRITE_SUCCESS :=
  (page_program_single_command (constBus SFE_FLASH_FAMILY_25XX 0) 0x012345 3 0
    (fun i => i + 7) (by decide) (by decide)
    (by rw [blockingBusyWait_idle 100 _ (by rw [pollBusy_constBus_25]; decide)])).1

/-- C17: when the initial wait succeeds, setWriteStatusReg1(v) returns success and,
after the status polls of the wait, makes one bus acquisition with the frames [0x50] and
[0x01, v]; setWriteStatusReg16(w) returns success with the frames [0x50] and
[0x01, w >> 8, w mod 256].  The stored family enters only through the status polls of
the wait, not through the command frames. -/
theorem status_register_write_frames (s : SFE_SPI_FLASH) (statusByte statusWord : Nat)
    (hw : (blockingBusyWait 100 s).1 = true) :
    (setWriteStatusReg1 statusByte s).1 = SFE_FLASH_READ_WRITE_SUCCESS ∧
    (setWriteStatusReg16 statusWord s).1 = SFE_FLASH_READ_WRITE_SUCCESS ∧
    (∃ k, k < 101 ∧
      Ran s (setWriteStatusReg1 statusByte s).2
        (List.replicate (k + 1) [statusFrame s.flashFamily]
          ++ [[[0x50], [0x01, statusByte]]]) ∧
      frames (callTrace s (setWriteStatusReg1 statusByte s).2)
        = List.replicate (k + 1) (statusFrame s.flashFamily)
          ++ [[0x50], [0x01, statusByte % 256]] ∧
      Ran s (setWriteStatusReg16 statusWord s).2
        (List.replicate (k + 1) [statusFrame s.flashFamily]
          ++ [[[0x50], [0x01, statusWord >>> 8, statusWord &&& 0xFF]]]) ∧
      frames (callTrace s (setWriteStatusReg16 statusWord s).2)
        = List.replicate (k + 1) (statusFrame s.flashFamily)
          ++ [[0x50], [0x01, (statusWord >>> 8) % 256, statusWord % 256]]) := by
  obtain ⟨k, hk, _, _, he⟩ := wait_success 100 s hw
  have h0 : (statusWord &&& 255) % 256 = statusWord % 256 := by
    rw [and_255]; omega
  refine ⟨?_, ?_, k, by omega, ?_, ?_, ?_, ?_⟩
  · rw [setWriteStatusReg1_ready s _ statusByte he]
  · rw [setWriteStatusReg16_ready s _ statusWord he]
  · rw [setWriteStatusReg1_ready s _ statusByte he]
    exact ran_after_polls_txn s _ _ _
  · rw [setWriteStatusReg1_ready s _ statusByte he, frames_after_polls_txn]
    simp [onBus]
  · rw [setWriteStatusReg16_ready s _ statusWord he]
    exact ran_after_polls_txn s _ _ _
  · rw [setWriteStatusReg16_ready s _ statusWord he, frames_after_polls_txn]
    simp [onBus, h0]

/-- C17, witness: the status word 0x1234 written to an idle 45xx device. -/
theorem status_register_write_frames_witness :
    (setWriteStatusReg1 0x5A (constBus SFE_FLASH_FAMILY_45XX 0x80)).1
        = SFE_FLASH_READ_WRITE_SUCCESS ∧
    (setWriteStatusReg16 0x1234 (constBus SFE_FLASH_FAMILY_45XX 0x80)).1
        = SFE_FLASH_READ_WRITE_SUCCESS :=
  ⟨(status_register_write_frames (constBus SFE_FLASH_FAMILY_45XX 0x80) 0x5A 0x1234
      (by rw [blockingBusyWait_idle 100 _ (by rw [pollBusy_constBus_45]; decide)])).1,
   (status_register_write_frames (constBus SFE_FLASH_FAMILY_45XX 0x80) 0x5A 0x1234
      (by rw [blockingBusyWait_idle 100 _ (by rw [pollBusy_constBus_45]; decide)])).2.1⟩

/-- C18: getStatus1 and getStatus16 are unconditional raw reads.  In every state and for
either stored family, getStatus1 makes one bus acquisition with the single frame
[0x05, 0xFF] and returns the byte received for the filler; getStatus16 makes one bus
acquisition with the single frame [0xD7, 0xFF, 0xFF] and returns r1 * 256 + r2 for the
bytes r1, r2 received for the two fillers.  The trace of each call is this one
acquisition: no status poll comes before it. -/
theorem status_reads_are_raw (s : SFE_SPI_FLASH) :
    callTrace s (getStatus1 s).2 =
      [Event.beginTransaction, Event.csLow, Event.transfer 0x05 (s.resp s.pos % 256),
       Event.transfer 0xFF (s.resp (s.pos + 1) % 256), Event.csHigh,
       Event.endTransaction] ∧
    frames (callTrace s (getStatus1 s).2) = [[0x05, 0xFF]] ∧
    (getStatus1 s).1 = s.resp (s.pos + 1) % 256 ∧
    callTrace s (getStatus16 s).2 =
      [Event.beginTransaction, Event.csLow, Event.transfer 0xD7 (s.resp s.pos % 256),
       Event.transfer 0xFF (s.resp (s.pos + 1) % 256),
       Event.transfer 0xFF (s.resp (s.pos + 2) % 256), Event.csHigh,
       Event.endTransaction] ∧
    frames (callTrace s (getStatus16 s).2) = [[0xD7, 0xFF, 0xFF]] ∧
    (getStatus16 s).1 = (s.resp (s.pos + 1) % 256) * 256 + s.resp (s.pos + 2) % 256 := by
  have h256 : ∀ x : Nat, x % 256 < 256 := fun x => Nat.mod_lt _ (by decide)
  have h1 : callTrace s (getStatus1 s).2 =
      [Event.beginTransaction, Event.csLow, Event.transfer 0x05 (s.resp s.pos % 256),
       Event.transfer 0xFF (s.resp (s.pos + 1) % 256), Event.csHigh,
       Event.endTransaction] := by
    rw [getStatus1_eq]; exact callTrace_append _ _ _ rfl
  have h16 : callTrace s (getStatus16 s).2 =
      [Event.beginTransaction, Event.csLow, Event.transfer 0xD7 (s.resp s.pos % 256),
       Event.transfer 0xFF (s.resp (s.pos + 1) % 256),
       Event.transfer 0xFF (s.resp (s.pos + 2) % 256), Event.csHigh,
       Event.endTransaction] := by
    rw [getStatus16_eq]; exact callTrace_append _ _ _ rfl
  refine ⟨h1, ?_, ?_, h16, ?_, ?_⟩
  · rw [h1]; simp [frames, framesAux]
  · rw [getStatus1_eq]
  · rw [h16]; simp [frames, framesAux]
  · rw [getStatus16_eq]; exact status16_value _ _ (h256 _) (h256 _)

/-- C12: for every address and n ≥ 1, when the initial wait succeeds readBlock returns
success and, after the status polls of that wait, makes one bus acquisition of a single
frame: the opcode 0x03, the three address bytes, then exactly n filler bytes 0xFF.  No
write-enable frame is sent.  The byte received for the i-th filler (transfer number 4 + i
of the frame) is stored in dataArray[i] for every i < n, the rest of the array is left
alone.  readByte sends [0x03, a2, a1, a0, 0xFF] and returns the byte received for the
filler, with result success in the slot. -/
theorem read_frames (s : SFE_SPI_FLASH) (address n : Nat) (dataArray : Nat → Nat)
    (slot : sfe_flash_read_write_result_e) (h1 : 1 ≤ n)
    (hw : (blockingBusyWait 100 s).1 = true) :
    (readBlock address dataArray n s).1 = SFE_FLASH_READ_WRITE_SUCCESS ∧
    (readByte address (some slot) s).2.1 = some SFE_FLASH_READ_WRITE_SUCCESS ∧
    (∃ k, k < 101 ∧
      Ran s (readBlock address dataArray n s).2.2
        (List.replicate (k + 1) [statusFrame s.flashFamily]
          ++ [[[0x03, address >>> 16, address >>> 8, address &&& 0xFF]
                ++ List.replicate n 0xFF]]) ∧
      frames (callTrace s (readBlock address dataArray n s).2.2)
        = List.replicate (k + 1) (statusFrame s.flashFamily)
          ++ [[0x03, (address >>> 16) % 256, (address >>> 8) % 256, address % 256]
                ++ List.replicate n 0xFF] ∧
      received (txnEvents s.resp (s.pos + pollWidth s.flashFamily * (k + 1))
          [[0x03, address >>> 16, address >>> 8, address &&& 0xFF] ++ List.replicate n 0xFF])
        = (List.range (4 + n)).map
            (fun i => s.resp (s.pos + pollWidth s.flashFamily * (k + 1) + i) % 256) ∧
      (∀ i, i < n → (readBlock address dataArray n s).2.1 i
        = s.resp (s.pos + pollWidth s.flashFamily * (k + 1) + (4 + i)) % 256) ∧
      (∀ i, n ≤ i → (readBlock address dataArray n s).2.1 i = dataArray i) ∧
      Ran s (readByte address (some slot) s).2.2
        (List.replicate (k + 1) [statusFrame s.flashFamily]
          ++ [[[0x03, address >>> 16, address >>> 8, address &&& 0xFF, 0xFF]]]) ∧
      frames (callTrace s (readByte address (some slot) s).2.2)
        = List.replicate (k + 1) (statusFrame s.flashFamily)
          ++ [[0x03, (address >>> 16) % 256, (address >>> 8) % 256, address % 256, 0xFF]] ∧
      (readByte address (some slot) s).1
        = s.resp (s.pos + pollWidth s.flashFamily * (k + 1) + 4) % 256) ∧
    [0x06] ∉ frames (callTrace s (readBlock address dataArray n s).2.2) ∧
    [0x06] ∉ frames (callTrace s (readByte address (some slot) s).2.2) := by
  obtain ⟨k, hk, _, _, he⟩ := wait_success 100 s hw
  have hn0 : n ≠ 0 := by omega
  have h0 : (address &&& 255) % 256 = address % 256 := by
    rw [and_255]; omega
  have hst : [0x06] ≠ statusFrame s.flashFamily := by
    cases s.flashFamily <;> decide
  have hfb : frames (callTrace s (readBlock address dataArray n s).2.2)
      = List.replicate (k + 1) (statusFrame s.flashFamily)
        ++ [[0x03, (address >>> 16) % 256, (address >>> 8) % 256, address % 256]
              ++ List.replicate n 0xFF] := by
    rw [readBlock_ready s _ address dataArray n hn0 he, frames_after_polls_txn]
    simp [onBus, h0]
  have hfy : frames (callTrace s (readByte address (some slot) s).2.2)
      = List.replicate (k + 1) (statusFrame s.flashFamily)
        ++ [[0x03, (address >>> 16) % 256, (address >>> 8) % 256, address % 256, 0xFF]] := by
    rw [readByte_ready s _ address (some slot) he, frames_after_polls_txn]
    simp [onBus, h0]
  refine ⟨?_, ?_, ⟨k, by omega, ?_, hfb, ?_, ?_, ?_, ?_, hfy, ?_⟩, ?_, ?_⟩
  · rw [readBlock_ready s _ address dataArray n hn0 he]
  · rw [readByte_ready s _ address (some slot) he]; rfl
  · rw [readBlock_ready s _ address dataArray n hn0 he]
    exact ran_after_polls_txn s _ _ _
  · rw [received_single_frame]
    have e : ([0x03, address >>> 16, address >>> 8, address &&& 0xFF]
        ++ List.replicate n 0xFF).length = 4 + n := by
      simp; omega
    rw [e]
  · intro i hi
    rw [readBlock_ready s _ address dataArray n hn0 he]
    simp [hi, afterPolls, Nat.add_assoc]
  · intro i hi
    rw [readBlock_ready s _ address dataArray n hn0 he]
    have : ¬ i < n := by omega
    simp [this]
  · rw [readByte_ready s _ address (some slot) he]
    exact ran_after_polls_txn s _ _ _
  · rw [readByte_ready s _ address (some slot) he]
    simp [afterPolls]
  · rw [hfb]
    intro hmem
    rcases List.mem_append.mp hmem with h | h
    · exact hst (List.eq_of_mem_replicate h)
    · simp at h
  · rw [hfy]
    intro hmem
    rcases List.mem_append.mp hmem with h | h
    · exact hst (List.eq_of_mem_replicate h)
    · simp at h

/-- C12, witness: three bytes read from an idle 25xx device whose script holds 7, 8, 9
at the positions of the fillers. -/
theorem read_frames_witness :
    (readBlock 0x010203 (fun _ => 0) 3
      (scriptedBus SFE_FLASH_FAMILY_25XX [0, 0, 0, 0, 0, 0, 7, 8, 9] 0)).1
      = SFE_FLASH_READ_WRITE_SUCCESS :=
  (read_frames (scriptedBus SFE_FLASH_FAMILY_25XX [0, 0, 0, 0, 0, 0, 7, 8, 9] 0) 0x010203 3
    (fun _ => 0) SFE_FLASH_READ_WRITE_SUCCESS (by decide)
    (by rw [blockingBusyWait_idle 100 _ (by simp [pollBusy, busyAt_eq, scriptedBus])])).1

/-- C15: for all bytes b0, b1, b2 the bus returns after the Read-JEDEC-ID opcode,
getJEDEC sends the single frame [0x9F, 0xFF, 0xFF, 0xFF] and returns
b0 * 65536 + b1 * 256 + b2, getRawManufacturerID returns b0 and getDeviceID returns
b1 * 256 + b2.  On a bus that answers [0xEF, 0x40, 0x18], getManufacturerID is Winbond,
isConnected is true and getDeviceID is 0x4018. -/
theorem jedec_decoding (s : SFE_SPI_FLASH) :
    callTrace s (getJEDEC s).2 =
      [Event.beginTransaction, Event.csLow, Event.transfer 0x9F (s.resp s.pos % 256),
       Event.transfer 0xFF (s.resp (s.pos + 1) % 256),
       Event.transfer 0xFF (s.resp (s.pos + 2) % 256),
       Event.transfer 0xFF (s.resp (s.pos + 3) % 256), Event.csHigh,
       Event.endTransaction] ∧
    frames (callTrace s (getJEDEC s).2) = [[0x9F, 0xFF, 0xFF, 0xFF]] ∧
    (getJEDEC s).1 = (s.resp (s.pos + 1) % 256) * 65536 + (s.resp (s.pos + 2) % 256) * 256
      + s.resp (s.pos + 3) % 256 ∧
    (getRawManufacturerID s).1 = s.resp (s.pos + 1) % 256 ∧
    (getDeviceID s).1 = (s.resp (s.pos + 2) % 256) * 256 + s.resp (s.pos + 3) % 256 ∧
    (getManufacturerID (scriptedBus SFE_FLASH_FAMILY_25XX [0, 0xEF, 0x40, 0x18] 0)).1
      = SFE_FLASH_MFG_WINBOND ∧
    (isConnected (scriptedBus SFE_FLASH_FAMILY_25XX [0, 0xEF, 0x40, 0x18] 0)).1 = true ∧
    (getDeviceID (scriptedBus SFE_FLASH_FAMILY_25XX [0, 0xEF, 0x40, 0x18] 0)).1 = 0x4018 := by
  have htr : callTrace s (getJEDEC s).2 =
      [Event.beginTransaction, Event.csLow, Event.transfer 0x9F (s.resp s.pos % 256),
       Event.transfer 0xFF (s.resp (s.pos + 1) % 256),
       Event.transfer 0xFF (s.resp (s.pos + 2) % 256),
       Event.transfer 0xFF (s.resp (s.pos + 3) % 256), Event.csHigh,
       Event.endTransaction] := by
    rw [getJEDEC_eq]; exact callTrace_append _ _ _ rfl
  have hW : (getManufacturerID (scriptedBus SFE_FLASH_FAMILY_25XX [0, 0xEF, 0x40, 0x18] 0)).1
      = SFE_FLASH_MFG_WINBOND := by
    rw [getManufacturerID_fst]; decide
  refine ⟨htr, ?_, ?_, getRawManufacturerID_fst s, getDeviceID_fst s, hW, ?_, ?_⟩
  · rw [htr]; simp [frames, framesAux]
  · rw [getJEDEC_eq]
  · rw [isConnected_fst, hW]; decide
  · rw [getDeviceID_fst]; decide

/-- C19: readByte reports failure only through its result slot.  A slot that is supplied
holds the busy failure after the call exactly when the initial wait failed; then the value
returned is the placeholder 0xBB and the call has sent nothing but status reads.
Otherwise the slot holds success.  A slot that is not supplied stays so.  The value alone
does not tell the two cases apart: on a device that stays busy the call returns 0xBB with
the busy failure, and on an idle device whose byte at the address is 0xBB it returns 0xBB
with success. -/
theorem readByte_result_code (s : SFE_SPI_FLASH) (address : Nat)
    (slot : sfe_flash_read_write_result_e) :
    ((readByte address (some slot) s).2.1 = some SFE_FLASH_READ_WRITE_FAIL_DEVICE_BUSY ↔
      (blockingBusyWait 100 s).1 = false) ∧
    ((readByte address (some slot) s).2.1 = some SFE_FLASH_READ_WRITE_SUCCESS ↔
      (blockingBusyWait 100 s).1 = true) ∧
    ((blockingBusyWait 100 s).1 = false →
      (readByte address (some slot) s).1 = 0xBB ∧
      onlyStatusReads (callTrace s (readByte address (some slot) s).2.2) = true) ∧
    (readByte address none s).2.1 = none ∧
    (readByte address none s).1 = (readByte address (some slot) s).1 ∧
    (readByte 0 (some SFE_FLASH_READ_WRITE_SUCCESS) (constBus SFE_FLASH_FAMILY_25XX 1)).1
      = 0xBB ∧
    (readByte 0 (some SFE_FLASH_READ_WRITE_SUCCESS) (constBus SFE_FLASH_FAMILY_25XX 1)).2.1
      = some SFE_FLASH_READ_WRITE_FAIL_DEVICE_BUSY ∧
    (readByte 0 (some SFE_FLASH_READ_WRITE_FAIL_DEVICE_BUSY)
      (scriptedBus SFE_FLASH_FAMILY_25XX [0, 0, 0, 0, 0, 0, 0xBB] 0)).1 = 0xBB ∧
    (readByte 0 (some SFE_FLASH_READ_WRITE_FAIL_DEVICE_BUSY)
      (scriptedBus SFE_FLASH_FAMILY_25XX [0, 0, 0, 0, 0, 0, 0xBB] 0)).2.1
      = some SFE_FLASH_READ_WRITE_SUCCESS := by
  have hfail : ∀ (t : SFE_SPI_FLASH) (r : Option sfe_flash_read_write_result_e),
      (blockingBusyWait 100 t).1 = false →
      readByte address r t
        = (0xBB, r.map (fun _ => SFE_FLASH_READ_WRITE_FAIL_DEVICE_BUSY),
            afterPolls t 101 100) := by
    intro t r h
    have he := (wait_failure 100 t h).2
    cases r <;> simp [readByte, he]
  have hbusy : blockingBusyWait 100 (constBus SFE_FLASH_FAMILY_25XX 1)
      = (false, afterPolls (constBus SFE_FLASH_FAMILY_25XX 1) 101 100) :=
    blockingBusyWait_timeout 100 _ (fun k _ => by rw [pollBusy_constBus_25]; decide)
  have hidle : blockingBusyWait 100
      (scriptedBus SFE_FLASH_FAMILY_25XX [0, 0, 0, 0, 0, 0, 0xBB] 0)
      = (true, afterPolls (scriptedBus SFE_FLASH_FAMILY_25XX [0, 0, 0, 0, 0, 0, 0xBB] 0) 1 0) :=
    blockingBusyWait_idle 100 _ (by simp [pollBusy, busyAt_eq, scriptedBus])
  cases hb : (blockingBusyWait 100 s).1 with
  | false =>
    have e1 := hfail s (some slot) hb
    have e2 := hfail s none hb
    refine ⟨by rw [e1]; simp, by rw [e1]; simp, fun _ => ?_, by rw [e2]; rfl,
      by rw [e1, e2], ?_, ?_, ?_, ?_⟩
    · rw [e1]
      exact ⟨rfl, onlyStatusReads_of_ran_polls (ran_afterPolls s 101 100)⟩
    · simp [readByte, hbusy]
    · simp [readByte, hbusy]
    · rw [readByte_ready _ _ 0 _ hidle]; simp [afterPolls, scriptedBus, pollWidth]
    · rw [readByte_ready _ _ 0 _ hidle]; rfl
  | true =>
    obtain ⟨k, _, _, _, he⟩ := wait_success 100 s hb
    have e1 := readByte_ready s _ address (some slot) he
    have e2 := readByte_ready s _ address none he
    refine ⟨by rw [e1]; simp, by rw [e1]; simp, fun h => by simp at h, by rw [e2]; rfl,
      by rw [e1, e2], ?_, ?_, ?_, ?_⟩
    · simp [readByte, hbusy]
    · simp [readByte, hbusy]
    · rw [readByte_ready _ _ 0 _ hidle]; simp [afterPolls, scriptedBus, pollWidth]
    · rw [readByte_ready _ _ 0 _ hidle]; rfl

/-- C19, witness: on a 25xx device that stays busy the wait fails, so the call returns the
placeholder and has sent only status reads. -/
theorem readByte_result_code_witness :
    (readByte 5 (some SFE_FLASH_READ_WRITE_SUCCESS) (constBus SFE_FLASH_FAMILY_25XX 1)).1
      = 0xBB ∧
    onlyStatusReads (callTrace (constBus SFE_FLASH_FAMILY_25XX 1)
      (readByte 5 (some SFE_FLASH_READ_WRITE_SUCCESS)
        (constBus SFE_FLASH_FAMILY_25XX 1)).2.2) = true :=
  (readByte_result_code (constBus SFE_FLASH_FAMILY_25XX 1) 5
    SFE_FLASH_READ_WRITE_SUCCESS).2.2.1
    (by rw [blockingBusyWait_timeout 100 _
      (fun k _ => by rw [pollBusy_constBus_25]; decide)])

/-- C20: the stored family is the same after the call as before it, for each of erase,
readByte, readBlock, writeByte, writeBlock, writeBlockAAI (with a 16-bit count), isBusy,
blockingBusyWait, getStatus1, getStatus16, setWriteStatusReg1, setWriteStatusReg16,
disableWrite, getJEDEC, getManufacturerID, getRawManufacturerID and getDeviceID, for
every input and every script. -/
theorem family_is_preserved (s : SFE_SPI_FLASH) (fuel maxWait address n thingToWrite
    statusByte statusWord : Nat) (dataArray : Nat → Nat)
    (result : Option sfe_flash_read_write_result_e) :
    (∀ r t, erase fuel s = some (r, t) → t.flashFamily = s.flashFamily) ∧
    (readByte address result s).2.2.flashFamily = s.flashFamily ∧
    (readBlock address dataArray n s).2.2.flashFamily = s.flashFamily ∧
    (writeByte address thingToWrite s).2.flashFamily = s.flashFamily ∧
    (writeBlock address dataArray n s).2.flashFamily = s.flashFamily ∧
    (n < 65536 → (writeBlockAAI address dataArray n s).2.flashFamily = s.flashFamily) ∧
    (isBusy s).2.flashFamily = s.flashFamily ∧
    (blockingBusyWait maxWait s).2.flashFamily = s.flashFamily ∧
    (getStatus1 s).2.flashFamily = s.flashFamily ∧
    (getStatus16 s).2.flashFamily = s.flashFamily ∧
    (setWriteStatusReg1 statusByte s).2.flashFamily = s.flashFamily ∧
    (setWriteStatusReg16 statusWord s).2.flashFamily = s.flashFamily ∧
    (disableWrite s).2.flashFamily = s.flashFamily ∧
    (getJEDEC s).2.flashFamily = s.flashFamily ∧
    (getManufacturerID s).2.flashFamily = s.flashFamily ∧
    (getRawManufacturerID s).2.flashFamily = s.flashFamily ∧
    (getDeviceID s).2.flashFamily = s.flashFamily := by
  refine ⟨?_, ?_, ?_, family_of_waitThen (writeByte_shape s _ _), ?_,
    family_writeBlockAAI s address dataArray n, (ran_isBusy s).1, ?_, (ran_getStatus1 s).1,
    (ran_getStatus16 s).1, family_of_waitThen (setWriteStatusReg1_shape s _),
    family_of_waitThen (setWriteStatusReg16_shape s _),
    family_of_waitThen (disableWrite_shape s), (ran_getJEDEC s).1,
    (ran_getManufacturerID s).1, (ran_getRawManufacturerID s).1, (ran_getDeviceID s).1⟩
  · intro r t h
    rcases erase_shape fuel s t r h with ⟨_, hran⟩ | ⟨_, _, _, _, hran⟩ <;> exact hran.1
  · rcases readByte_shape s address result with ⟨_, hran⟩ | ⟨_, _, _, hran⟩ <;> exact hran.1
  · by_cases hn : n = 0
    · subst hn; simp [readBlock]
    · exact family_of_waitThen (readBlock_shape s address dataArray n hn)
  · by_cases hn : n = 0
    · subst hn; simp [writeBlock]
    · exact family_of_waitThen (writeBlock_shape s address dataArray n hn)
  · obtain ⟨_, _, hran⟩ := ran_blockingBusyWait maxWait s
    exact hran.1

/-- C20, witness: a five-byte auto-increment write leaves a 45xx object a 45xx object. -/
theorem family_is_preserved_witness :
    (writeBlockAAI 0 (fun _ => 0) 5 (constBus SFE_FLASH_FAMILY_45XX 0x80)).2.flashFamily
      = (constBus SFE_FLASH_FAMILY_45XX 0x80).flashFamily :=
  (family_is_preserved (constBus SFE_FLASH_FAMILY_45XX 0x80) 0 0 0 5 0 0 0 (fun _ => 0)
    none).2.2.2.2.2.1 (by decide)

/-- C13: the three address bytes sent by readByte, readBlock, writeByte, writeBlock and by
the first AAI word program are, in this order, (a >> 16) mod 256, (a >> 8) mod 256 and
a mod 256.  For a < 2^24 they satisfy b2 * 65536 + b1 * 256 + b0 = a.  Two addresses that
agree modulo 2^24 give the same call (result and object, hence the same trace): bits
31..24 are dropped and nothing checks the address against a bound. -/
theorem address_is_24_bit_msb_first (s : SFE_SPI_FLASH) (a b n thingToWrite : Nat)
    (dataArray : Nat → Nat) (slot : Option sfe_flash_read_write_result_e) :
    addressBytes a = [(a >>> 16) % 256, (a >>> 8) % 256, a % 256] ∧
    ((blockingBusyWait 100 s).1 = true → ∃ k, k < 101 ∧
      frames (callTrace s (readByte a slot s).2.2)
        = List.replicate (k + 1) (statusFrame s.flashFamily)
          ++ [[0x03] ++ addressBytes a ++ [0xFF]] ∧
      (1 ≤ n → frames (callTrace s (readBlock a dataArray n s).2.2)
        = List.replicate (k + 1) (statusFrame s.flashFamily)
          ++ [[0x03] ++ addressBytes a ++ List.replicate n 0xFF]) ∧
      frames (callTrace s (writeByte a thingToWrite s).2)
        = List.replicate (k + 1) (statusFrame s.flashFamily)
          ++ [[0x06], [0x02] ++ addressBytes a ++ [thingToWrite % 256]] ∧
      (1 ≤ n → frames (callTrace s (writeBlock a dataArray n s).2)
        = List.replicate (k + 1) (statusFrame s.flashFamily)
          ++ [[0x06], [0x02] ++ addressBytes a
                ++ (List.range n).map (fun i => dataArray i % 256)]) ∧
      (2 ≤ n → n < 65536 → ∃ rest,
        frames (callTrace s (writeBlockAAI a dataArray n s).2)
          = List.replicate (k + 1) (statusFrame s.flashFamily)
            ++ [[0x80], [0x06],
                [0xAD] ++ addressBytes a ++ [dataArray 0 % 256, dataArray 1 % 256]]
            ++ rest)) ∧
    (a < 16777216 →
      ((a >>> 16) % 256) * 65536 + ((a >>> 8) % 256) * 256 + a % 256 = a) ∧
    (a % 16777216 = b % 16777216 →
      readByte a slot s = readByte b slot s ∧
      readBlock a dataArray n s = readBlock b dataArray n s ∧
      writeByte a thingToWrite s = writeByte b thingToWrite s ∧
      writeBlock a dataArray n s = writeBlock b dataArray n s ∧
      writeBlockAAI a dataArray n s = writeBlockAAI b dataArray n s) := by
  have h0 : (a &&& 255) % 256 = a % 256 := by
    rw [and_255]; omega
  refine ⟨rfl, ?_, ?_, ?_⟩
  · intro hw
    obtain ⟨k, hk, hlt, hk0, he⟩ := wait_success 100 s hw
    refine ⟨k, by omega, ?_, ?_, ?_, ?_, ?_⟩
    · rw [readByte_ready s _ a slot he, frames_after_polls_txn]
      simp [onBus, addressBytes, h0]
    · intro h1
      rw [readBlock_ready s _ a dataArray n (by omega) he, frames_after_polls_txn]
      simp [onBus, addressBytes, h0]
    · rw [writeByte_ready s _ a thingToWrite he, frames_after_polls_txn]
      simp [onBus, addressBytes, h0, writeByteFrames]
    · intro h1
      rw [writeBlock_ready s _ a dataArray n (by omega) he, frames_after_polls_txn]
      simp [onBus, addressBytes, h0, Function.comp_def]
    · intro h2 hn
      obtain ⟨k', rest, _, hlt', hk0', hfr⟩ :=
        frames_writeBlockAAI_head s a dataArray n h2 hn hw
      have hkk : k' = k := by
        rcases Nat.lt_trichotomy k' k with h | h | h
        · have := hlt k' h; rw [hk0'] at this; exact absurd this (by decide)
        · exact h
        · have := hlt' k h; rw [hk0] at this; exact absurd this (by decide)
      subst hkk
      refine ⟨(List.range (n / 2 - 1)).map
          (fun j => [0xAD, dataArray (2 * j + 2) % 256, dataArray (2 * j + 3) % 256])
        ++ [[0x04]] ++ rest, ?_⟩
      rw [hfr, onBus_aaiFrames]
      simp [addressBytes, h0]
  · intro ha
    simp only [Nat.shiftRight_eq_div_pow]
    omega
  · intro hab
    obtain ⟨e16, e8, e0⟩ := address_congr a b hab
    refine ⟨?_, ?_, by rw [writeByte_congr a b hab], ?_, ?_⟩
    · simp only [readByte, e16, e8, e0]
    · simp only [readBlock, e16, e8, e0]
    · simp only [writeBlock, e16, e8, e0]
    · by_cases hn0 : n = 0
      · subst hn0; simp [writeBlockAAI]
      by_cases hn1 : n = 1
      · subst hn1; simp [writeBlockAAI, writeByte_congr a b hab]
      have etail : writeByte ((a + n - 1) % 4294967296)
          = writeByte ((b + n - 1) % 4294967296) :=
        writeByte_congr _ _ (by omega)
      simp only [writeBlockAAI, hn0, hn1, if_false, e16, e8, e0, etail]

/-- C13, witness: the addresses 0x01ABCDEF and 0xABCDEF agree modulo 2^24 and give the
same writeByte call. -/
theorem address_is_24_bit_msb_first_witness :
    writeByte 0x01ABCDEF 0x5A (constBus SFE_FLASH_FAMILY_25XX 0)
      = writeByte 0xABCDEF 0x5A (constBus SFE_FLASH_FAMILY_25XX 0) :=
  ((address_is_24_bit_msb_first (constBus SFE_FLASH_FAMILY_25XX 0) 0x01ABCDEF 0xABCDEF 1
    0x5A (fun _ => 0) none).2.2.2 (by decide)).2.2.1

/-- C14: when the manufacturer byte of the JEDEC read is 0x1F (Adesto) and bits 7..5 of
the first device-ID byte, which are bits 15..13 of the 16-bit device ID that isConnected
reads, are 0b100, isConnected returns true and the stored family afterwards is 25xx,
whatever it was before; when those bits are 0b001 it returns true and the stored family
afterwards is 45xx, whatever it was before. -/
theorem adesto_family_from_device_id (s : SFE_SPI_FLASH) (hm : firstJedecByte s = 0x1F) :
    (getDeviceID (getManufacturerID s).2).1 >>> 13 = deviceIdByte s / 32 ∧
    (deviceIdByte s / 32 = 0b100 →
      (isConnected s).1 = true ∧ (isConnected s).2.flashFamily = SFE_FLASH_FAMILY_25XX) ∧
    (deviceIdByte s / 32 = 0b001 →
      (isConnected s).1 = true ∧ (isConnected s).2.flashFamily = SFE_FLASH_FAMILY_45XX) := by
  refine ⟨?_, ?_, ?_⟩
  · have hr := ran_getManufacturerID s
    have hp : (getManufacturerID s).2.pos = s.pos + 4 := by
      rw [hr.2.2.2.1]
      simp [txnsLength, framesLength]
    have h1 : s.resp (s.pos + 4 + 2) % 256 < 256 := Nat.mod_lt _ (by decide)
    have h2 : s.resp (s.pos + 4 + 3) % 256 < 256 := Nat.mod_lt _ (by decide)
    rw [getDeviceID_fst, hr.2.2.1, hp, Nat.shiftRight_eq_div_pow]
    simp only [deviceIdByte]
    have e : s.pos + 4 + 2 = s.pos + 6 := rfl
    rw [e] at h1 ⊢
    omega
  · intro h
    rw [isConnected_adesto s hm, if_pos h]
    exact ⟨rfl, rfl⟩
  · intro h
    rw [isConnected_adesto s hm, if_neg (by rw [h]; decide), if_pos h]
    exact ⟨rfl, rfl⟩

/-- C14, witness: an Adesto device answering the device ID 0x8401 turns a 45xx object
into a 25xx object, and one answering 0x2800 turns a 25xx object into a 45xx object. -/
theorem adesto_family_from_device_id_witness :
    (isConnected (scriptedBus SFE_FLASH_FAMILY_45XX
        [0, 0x1F, 0x84, 0x01, 0, 0x1F, 0x84, 0x01] 0)).2.flashFamily
      = SFE_FLASH_FAMILY_25XX ∧
    (isConnected (scriptedBus SFE_FLASH_FAMILY_25XX
        [0, 0x1F, 0x28, 0x00, 0, 0x1F, 0x28, 0x00] 0)).2.flashFamily
      = SFE_FLASH_FAMILY_45XX :=
  ⟨((adesto_family_from_device_id (scriptedBus SFE_FLASH_FAMILY_45XX
        [0, 0x1F, 0x84, 0x01, 0, 0x1F, 0x84, 0x01] 0) (by decide)).2.1 (by decide)).2,
   ((adesto_family_from_device_id (scriptedBus SFE_FLASH_FAMILY_25XX
        [0, 0x1F, 0x28, 0x00, 0, 0x1F, 0x28, 0x00] 0) (by decide)).2.2 (by decide)).2⟩

/-- C16: for every k, if the initial bounded wait of erase succeeds and the status polled
after the command reads busy at exactly the first k polls (the first of them starts two
script positions after the wait, behind the two command bytes), then with any fuel from
k + 1 on erase returns Success.  Its frames are the polls of the initial wait, one
Write-Enable frame [0x06], one Chip-Erase frame [0xC7] right after it, and then only
status polls: the frames other than status polls are exactly [0x06], [0xC7]. -/
theorem erase_terminates_with_one_command_pair (s : SFE_SPI_FLASH) (k : Nat)
    (hw : (blockingBusyWait 1000 s).1 = true)
    (hpost : ∀ j, busyAt s ((blockingBusyWait 1000 s).2.pos + 2
        + pollWidth s.flashFamily * j) = decide (j < k)) :
    ∃ i t, i ≤ 1000 ∧
      (blockingBusyWait 1000 s).2.pos = s.pos + pollWidth s.flashFamily * (i + 1) ∧
      (∀ fuel, k + 1 ≤ fuel → erase fuel s = some (SFE_FLASH_READ_WRITE_SUCCESS, t)) ∧
      frames (callTrace s t)
        = List.replicate (i + 1) (statusFrame s.flashFamily) ++ [[0x06], [0xC7]]
          ++ List.replicate (erasePolls k) (statusFrame s.flashFamily) ∧
      (frames (callTrace s t)).filter (fun f => decide (f ≠ statusFrame s.flashFamily))
        = [[0x06], [0xC7]] := by
  obtain ⟨i, hi, _, _, he⟩ := wait_success 1000 s hw
  have hpos : (blockingBusyWait 1000 s).2.pos = s.pos + pollWidth s.flashFamily * (i + 1) := by
    rw [he]; rfl
  rw [hpos] at hpost
  obtain ⟨t, hran, hfuel⟩ := erase_exact s i k he hpost
  have hfr : frames (callTrace s t)
      = List.replicate (i + 1) (statusFrame s.flashFamily) ++ [[0x06], [0xC7]]
        ++ List.replicate (erasePolls k) (statusFrame s.flashFamily) := by
    rw [ran_frames hran]
    simp only [List.flatten_append, onBus_append, onBus_polls]
    simp [onBus]
  refine ⟨i, t, hi, hpos, hfuel, hfr, ?_⟩
  rw [hfr, List.filter_append, List.filter_append, filter_ne_replicate, filter_ne_replicate]
  cases s.flashFamily <;> simp [statusFrame, statusFrame25, statusFrame45]

/-- C16, witness: a 25xx device that is idle at the initial poll and reads busy at three
polls after the command; with fuel 4 the erase returns Success and the frames that are
not status polls are [0x06], [0xC7]. -/
theorem erase_terminates_with_one_command_pair_witness :
    ∃ t, erase 4 (scriptedBus SFE_FLASH_FAMILY_25XX [0, 0, 0, 0, 0, 1, 0, 1, 0, 1] 0)
        = some (SFE_FLASH_READ_WRITE_SUCCESS, t) ∧
      (frames (callTrace
          (scriptedBus SFE_FLASH_FAMILY_25XX [0, 0, 0, 0, 0, 1, 0, 1, 0, 1] 0) t)).filter
        (fun f => decide (f ≠ statusFrame SFE_FLASH_FAMILY_25XX)) = [[0x06], [0xC7]] :=
  match erase_terminates_with_one_command_pair
      (scriptedBus SFE_FLASH_FAMILY_25XX [0, 0, 0, 0, 0, 1, 0, 1, 0, 1] 0) 3
      (by rw [eraseScript_wait]) eraseScript_post with
  | ⟨_, t, _, _, hf, _, hfl⟩ => ⟨t, hf 4 (by decide), hfl⟩

/-- C26: the result codes are DeviceBusy = 0, Success = 1 and ZeroSize = 2.  A result
converted to boolean is false exactly when it is DeviceBusy: Success converts to true and
ZeroSize converts to true as well.  So readBlock, writeBlock and writeBlockAAI called with
a byte count of zero return a value that converts to true and is not Success. -/
theorem result_codes_as_boolean (s : SFE_SPI_FLASH) (address : Nat) (dataArray : Nat → Nat) :
    SFE_FLASH_READ_WRITE_FAIL_DEVICE_BUSY.code = 0 ∧
    SFE_FLASH_READ_WRITE_SUCCESS.code = 1 ∧
    SFE_FLASH_READ_WRITE_ZERO_SIZE.code = 2 ∧
    (∀ r : sfe_flash_read_write_result_e,
      r.toBool = false ↔ r = SFE_FLASH_READ_WRITE_FAIL_DEVICE_BUSY) ∧
    SFE_FLASH_READ_WRITE_SUCCESS.toBool = true ∧
    SFE_FLASH_READ_WRITE_ZERO_SIZE.toBool = true ∧
    ((readBlock address dataArray 0 s).1.toBool = true ∧
      (readBlock address dataArray 0 s).1 ≠ SFE_FLASH_READ_WRITE_SUCCESS) ∧
    ((writeBlock address dataArray 0 s).1.toBool = true ∧
      (writeBlock address dataArray 0 s).1 ≠ SFE_FLASH_READ_WRITE_SUCCESS) ∧
    ((writeBlockAAI address dataArray 0 s).1.toBool = true ∧
      (writeBlockAAI address dataArray 0 s).1 ≠ SFE_FLASH_READ_WRITE_SUCCESS) := by
  refine ⟨rfl, rfl, rfl, ?_, rfl, rfl, ?_, ?_, ?_⟩
  · intro r
    cases r <;> decide
  · simp only [readBlock, if_true]
    exact ⟨rfl, by decide⟩
  · simp only [writeBlock, if_true]
    exact ⟨rfl, by decide⟩
  · simp only [writeBlockAAI, if_true]
    exact ⟨rfl, by decide⟩

/-- C24: isConnected changes the stored family only when the manufacturer byte is 0x1F
(Adesto) and bits 7..5 of the first device-ID byte (bits 15..13 of the device ID) are
0b100 or 0b001.  For a manufacturer byte that is not known the call returns false and
the family is as before; for each known manufacturer other than Adesto it returns true
and the family is as before; for Adesto with any other value of those bits it returns
true and the family is as before. -/
theorem isConnected_family_frame (s : SFE_SPI_FLASH) :
    (firstJedecByte s ∉ knownManufacturerCodes →
      (isConnected s).1 = false ∧ (isConnected s).2.flashFamily = s.flashFamily) ∧
    (firstJedecByte s ∈ knownManufacturerCodes → firstJedecByte s ≠ 0x1F →
      (isConnected s).1 = true ∧ (isConnected s).2.flashFamily = s.flashFamily) ∧
    (firstJedecByte s = 0x1F → deviceIdByte s / 32 ≠ 0b100 → deviceIdByte s / 32 ≠ 0b001 →
      (isConnected s).1 = true ∧ (isConnected s).2.flashFamily = s.flashFamily) ∧
    ((isConnected s).2.flashFamily ≠ s.flashFamily →
      firstJedecByte s = 0x1F ∧
        (deviceIdByte s / 32 = 0b100 ∨ deviceIdByte s / 32 = 0b001)) := by
  refine ⟨?_, ?_, ?_, ?_⟩
  · intro hk
    refine ⟨by rw [isConnected_known]; exact decide_eq_false hk, isConnected_other s ?_⟩
    intro h
    exact hk (by rw [h]; decide)
  · intro hk hne
    exact ⟨by rw [isConnected_known]; exact decide_eq_true hk, isConnected_other s hne⟩
  · intro hm h4 h1
    refine ⟨?_, isConnected_adesto_other s hm h4 h1⟩
    rw [isConnected_known, hm]
    decide
  · intro hch
    by_cases hm : firstJedecByte s = 0x1F
    · refine ⟨hm, ?_⟩
      by_cases h4 : deviceIdByte s / 32 = 0b100
      · exact Or.inl h4
      · by_cases h1 : deviceIdByte s / 32 = 0b001
        · exact Or.inr h1
        · exact absurd (isConnected_adesto_other s hm h4 h1) hch
    · exact absurd (isConnected_other s hm) hch

/-- C24, witness: a 45xx object on a bus that answers 0xEF (Winbond) stays a 45xx object,
and so does one on a bus that answers Adesto with the device ID 0x6000. -/
theorem isConnected_family_frame_witness :
    ((isConnected (constBus SFE_FLASH_FAMILY_45XX 0xEF)).1 = true ∧
      (isConnected (constBus SFE_FLASH_FAMILY_45XX 0xEF)).2.flashFamily
        = (constBus SFE_FLASH_FAMILY_45XX 0xEF).flashFamily) ∧
    ((isConnected (scriptedBus SFE_FLASH_FAMILY_45XX
        [0, 0x1F, 0x60, 0x00, 0, 0x1F, 0x60, 0x00] 0)).1 = true ∧
      (isConnected (scriptedBus SFE_FLASH_FAMILY_45XX
        [0, 0x1F, 0x60, 0x00, 0, 0x1F, 0x60, 0x00] 0)).2.flashFamily
        = (scriptedBus SFE_FLASH_FAMILY_45XX
            [0, 0x1F, 0x60, 0x00, 0, 0x1F, 0x60, 0x00] 0).flashFamily) :=
  ⟨(isConnected_family_frame (constBus SFE_FLASH_FAMILY_45XX 0xEF)).2.1
      (by decide) (by decide),
   (isConnected_family_frame (scriptedBus SFE_FLASH_FAMILY_45XX
      [0, 0x1F, 0x60, 0x00, 0, 0x1F, 0x60, 0x00] 0)).2.2.1
      (by decide) (by decide) (by decide)⟩

/-- C25: the exact number of polls of erase after the command.  If the initial wait
succeeds and, after the chip-erase frame, the status reads busy at exactly the first k
polls and not busy from then on, then erase (with any fuel from k + 1 on) returns Success
and the frames after the chip-erase frame are exactly k + 1 status polls when k is a
multiple of 51 and exactly k + 2 otherwise.  The call trace is the polls of the initial
wait, the command, and these polls, each at its place in the script; the last of them
read not busy, and every poll but the last two read busy. -/
theorem erase_post_command_polls (s : SFE_SPI_FLASH) (k : Nat)
    (hw : (blockingBusyWait 1000 s).1 = true)
    (hpost : ∀ j, busyAt s ((blockingBusyWait 1000 s).2.pos + 2
        + pollWidth s.flashFamily * j) = decide (j < k)) :
    ∃ i t, i ≤ 1000 ∧
      (blockingBusyWait 1000 s).2.pos = s.pos + pollWidth s.flashFamily * (i + 1) ∧
      (∀ fuel, k + 1 ≤ fuel → erase fuel s = some (SFE_FLASH_READ_WRITE_SUCCESS, t)) ∧
      framesAfterErase (frames (callTrace s t))
        = List.replicate (if k % 51 = 0 then k + 1 else k + 2) (statusFrame s.flashFamily) ∧
      callTrace s t = pollEvents s.flashFamily s.resp s.pos (i + 1)
        ++ txnEvents s.resp (s.pos + pollWidth s.flashFamily * (i + 1)) [[0x06], [0xC7]]
        ++ pollEvents s.flashFamily s.resp
            (s.pos + pollWidth s.flashFamily * (i + 1) + 2)
            (if k % 51 = 0 then k + 1 else k + 2) ∧
      busyAt s (s.pos + pollWidth s.flashFamily * (i + 1) + 2
        + pollWidth s.flashFamily * ((if k % 51 = 0 then k + 1 else k + 2) - 1)) = false ∧
      (∀ j, j + 2 < (if k % 51 = 0 then k + 1 else k + 2) →
        busyAt s (s.pos + pollWidth s.flashFamily * (i + 1) + 2
          + pollWidth s.flashFamily * j) = true) := by
  obtain ⟨i, hi, _, _, he⟩ := wait_success 1000 s hw
  have hpos : (blockingBusyWait 1000 s).2.pos = s.pos + pollWidth s.flashFamily * (i + 1) := by
    rw [he]; rfl
  rw [hpos] at hpost
  obtain ⟨t, hran, hfuel⟩ := erase_exact s i k he hpost
  have hN : erasePolls k = if k % 51 = 0 then k + 1 else k + 2 := rfl
  rw [hN] at hran
  refine ⟨i, t, hi, hpos, hfuel, ?_, ?_, ?_, ?_⟩
  · rw [ran_frames hran]
    simp only [List.flatten_append, onBus_append, onBus_polls]
    have e : onBus [[[0x06], [0xC7]]].flatten = [[0x06], [0xC7]] := by simp [onBus]
    rw [e, framesAfterErase_polls]
  · have h := callTrace_polls_txn_polls hran
    have e : framesLength [[0x06], [0xC7]] = 2 := by simp [framesLength]
    rw [e] at h
    exact h
  · rw [hpost]
    apply decide_eq_false
    split_ifs <;> omega
  · intro j hj
    rw [hpost]
    apply decide_eq_true
    split_ifs at hj <;> omega

/-- C25, witness: a 25xx device that is idle at the initial poll and reads busy at
exactly the first 51 polls after the command; the frames after the chip-erase frame are
52 status polls. -/
theorem erase_post_command_polls_witness :
    ∃ t, erase 52 (busyBetween 4 106) = some (SFE_FLASH_READ_WRITE_SUCCESS, t) ∧
      framesAfterErase (frames (callTrace (busyBetween 4 106) t))
        = List.replicate 52 [0x05, 0xFF] :=
  match erase_post_command_polls (busyBetween 4 106) 51
      (by rw [busyBetween_wait]) busyBetween_post with
  | ⟨_, t, _, _, hf, hfr, _⟩ => ⟨t, hf 52 (by decide), hfr⟩

/-- C23: bus and chip-select events are well bracketed on every exit path.  For every
operation, every input and every script on which it returns (with success, busy timeout
or zero size), the events of the call, read from a released bus with chip select high,
are bus acquisitions each closed by a release; inside them chip select goes low and high
in turn, starting with low; every transfer happens while the bus is held and chip select
is low; at the end the bus is released and chip select is high.  A trace that leaves the
bus held, or that transfers with chip select high, does not pass. -/
theorem bus_and_chip_select_bracketed (s : SFE_SPI_FLASH) (fuel maxWait address n
    thingToWrite statusByte statusWord : Nat) (dataArray : Nat → Nat)
    (result : Option sfe_flash_read_write_result_e) :
    (∀ r t, erase fuel s = some (r, t) → wellBracketed (callTrace s t) = true) ∧
    wellBracketed (callTrace s (readByte address result s).2.2) = true ∧
    wellBracketed (callTrace s (readBlock address dataArray n s).2.2) = true ∧
    wellBracketed (callTrace s (writeByte address thingToWrite s).2) = true ∧
    wellBracketed (callTrace s (writeBlock address dataArray n s).2) = true ∧
    (n < 65536 →
      wellBracketed (callTrace s (writeBlockAAI address dataArray n s).2) = true) ∧
    wellBracketed (callTrace s (setWriteStatusReg1 statusByte s).2) = true ∧
    wellBracketed (callTrace s (setWriteStatusReg16 statusWord s).2) = true ∧
    wellBracketed (callTrace s (disableWrite s).2) = true ∧
    wellBracketed (callTrace s (isBusy s).2) = true ∧
    wellBracketed (callTrace s (blockingBusyWait maxWait s).2) = true ∧
    wellBracketed (callTrace s (getStatus1 s).2) = true ∧
    wellBracketed (callTrace s (getStatus16 s).2) = true ∧
    wellBracketed (callTrace s (getJEDEC s).2) = true ∧
    wellBracketed (callTrace s (getManufacturerID s).2) = true ∧
    wellBracketed (callTrace s (getRawManufacturerID s).2) = true ∧
    wellBracketed (callTrace s (getDeviceID s).2) = true ∧
    wellBracketed (callTrace s (isConnected s).2) = true ∧
    wellBracketed [Event.beginTransaction, Event.csLow, Event.transfer 0x06 0] = false ∧
    wellBracketed [Event.beginTransaction, Event.csLow, Event.csHigh] = false ∧
    wellBracketed [Event.beginTransaction, Event.transfer 0x06 0, Event.endTransaction]
      = false := by
  have hex : ∀ {t : SFE_SPI_FLASH}, (∃ txns, Ran s t txns) →
      wellBracketed (callTrace s t) = true := by
    intro t h
    obtain ⟨txns, hran⟩ := h
    exact wellBracketed_of_ran hran
  refine ⟨fun r t h => hex (exists_ran_erase fuel s t r h), hex (exists_ran_readByte s _ _),
    hex (exists_ran_readBlock s _ _ _),
    hex (exists_ran_of_waitThen (writeByte_shape s _ _)),
    hex (exists_ran_writeBlock s _ _ _),
    fun hn => hex (exists_ran_writeBlockAAI s address dataArray n hn),
    hex (exists_ran_of_waitThen (setWriteStatusReg1_shape s _)),
    hex (exists_ran_of_waitThen (setWriteStatusReg16_shape s _)),
    hex (exists_ran_of_waitThen (disableWrite_shape s)),
    wellBracketed_of_ran (ran_isBusy s), ?_,
    wellBracketed_of_ran (ran_getStatus1 s), wellBracketed_of_ran (ran_getStatus16 s),
    wellBracketed_of_ran (ran_getJEDEC s), wellBracketed_of_ran (ran_getManufacturerID s),
    wellBracketed_of_ran (ran_getRawManufacturerID s),
    wellBracketed_of_ran (ran_getDeviceID s), wellBracketed_isConnected s,
    by decide, by decide, by decide⟩
  obtain ⟨k, _, hran⟩ := ran_blockingBusyWait maxWait s
  exact wellBracketed_of_ran hran

/-- C23, witness: the five-byte auto-increment write to a 25xx device that stays busy
returns through the timeout, and its trace is well bracketed. -/
theorem bus_and_chip_select_bracketed_witness :
    wellBracketed (callTrace (constBus SFE_FLASH_FAMILY_25XX 1)
      (writeBlockAAI 0 (fun _ => 0) 5 (constBus SFE_FLASH_FAMILY_25XX 1)).2) = true :=
  (bus_and_chip_select_bracketed (constBus SFE_FLASH_FAMILY_25XX 1) 0 0 0 5 0 0 0
    (fun _ => 0) none).2.2.2.2.2.1 (by decide)

/-- C22: every operation other than erase is a total function of the object and the
script, and polls the status a bounded number of times whatever the script, also on a
device that stays busy for ever: readByte, readBlock, writeByte, writeBlock,
setWriteStatusReg1, setWriteStatusReg16 and disableWrite make at most 101 status polls
in a call, writeBlockAAI at most 202 (its own wait and that of the trailing writeByte),
blockingBusyWait(m) at most m + 1.  The loop of writeBlockAAI ends because its condition
fails.  The wait of erase before its command makes at most 1001 polls, and when it times
out erase returns the busy failure at once, with any fuel: a timeout is not retried. -/
theorem bounded_status_polls (s : SFE_SPI_FLASH) (fuel maxWait address n thingToWrite
    statusByte statusWord : Nat) (dataArray : Nat → Nat)
    (result : Option sfe_flash_read_write_result_e) :
    statusPolls (callTrace s (readByte address result s).2.2) ≤ 101 ∧
    statusPolls (callTrace s (readBlock address dataArray n s).2.2) ≤ 101 ∧
    statusPolls (callTrace s (writeByte address thingToWrite s).2) ≤ 101 ∧
    statusPolls (callTrace s (writeBlock address dataArray n s).2) ≤ 101 ∧
    statusPolls (callTrace s (setWriteStatusReg1 statusByte s).2) ≤ 101 ∧
    statusPolls (callTrace s (setWriteStatusReg16 statusWord s).2) ≤ 101 ∧
    statusPolls (callTrace s (disableWrite s).2) ≤ 101 ∧
    (n < 65536 → statusPolls (callTrace s (writeBlockAAI address dataArray n s).2) ≤ 202) ∧
    (2 ≤ n → n < 65536 →
      ∀ P : SFE_SPI_FLASH, ¬ (writeBlockAAILoop dataArray n n 2 P).1 < n - 1) ∧
    statusPolls (callTrace s (blockingBusyWait maxWait s).2) ≤ maxWait + 1 ∧
    (∀ r t, erase fuel s = some (r, t) →
      ((frames (callTrace s t)).takeWhile isStatusFrame).length ≤ 1001) ∧
    ((blockingBusyWait 1000 s).1 = false →
      erase fuel s
        = some (SFE_FLASH_READ_WRITE_FAIL_DEVICE_BUSY, (blockingBusyWait 1000 s).2)) := by
  have hzero : statusPolls (callTrace s s) ≤ 101 := by
    rw [statusPolls_of_ran (ran_refl s)]
    simp [onBus]
  refine ⟨?_, ?_, statusPolls_waitThen (writeByte_shape s _ _) (noStatus_writeByte _ _), ?_,
    statusPolls_waitThen (setWriteStatusReg1_shape s _) (noStatus_statusReg1 _),
    statusPolls_waitThen (setWriteStatusReg16_shape s _) (noStatus_statusReg16 _),
    statusPolls_waitThen (disableWrite_shape s) noStatus_disableWrite,
    statusPolls_writeBlockAAI s address dataArray n, ?_, ?_,
    fun r t h => erase_precommand_polls fuel s t r h, erase_timeout fuel s⟩
  · rcases readByte_shape s address result with ⟨_, hran⟩ | ⟨_, k, hk, hran⟩
    · rw [statusPolls_polls hran]
    · rw [statusPolls_polls_txn hran (noStatus_readByte _)]
      omega
  · by_cases hn : n = 0
    · subst hn
      simp only [readBlock, if_true]
      exact hzero
    · exact statusPolls_waitThen (readBlock_shape s address dataArray n hn)
        (noStatus_readBlock _ _)
  · by_cases hn : n = 0
    · subst hn
      simp only [writeBlock, if_true]
      exact hzero
    · exact statusPolls_waitThen (writeBlock_shape s address dataArray n hn)
        (noStatus_writeBlock _ _ _)
  · intro h2 hn P
    rw [(writeBlockAAI_tail P dataArray n h2 hn).1]
    omega
  · obtain ⟨k, hk, hran⟩ := ran_blockingBusyWait maxWait s
    rw [statusPolls_polls hran]
    exact hk

/-- C22, witness: a five-byte auto-increment write to a 25xx device that stays busy makes
at most 202 status polls. -/
theorem bounded_status_polls_witness :
    statusPolls (callTrace (constBus SFE_FLASH_FAMILY_25XX 1)
      (writeBlockAAI 0 (fun _ => 0) 5 (constBus SFE_FLASH_FAMILY_25XX 1)).2) ≤ 202 :=
  (bounded_status_polls (constBus SFE_FLASH_FAMILY_25XX 1) 0 0 0 5 0 0 0
    (fun _ => 0) none).2.2.2.2.2.2.2.1 (by decide)

/-- C21: diagnostics are a side channel only.  Take two objects that agree on everything
but the debug flag and what has been printed, as an object after enableDebugging and
the same object after disableDebugging do.  Then every operation, for every argument,
family and script, returns the same value on both and leaves two objects that again
agree on everything but the debug flag and what has been printed: in particular the same
bus trace and the same family.  For erase either both calls run out of fuel or both
return, with the same result. -/
theorem debug_flag_noninterference (s t : SFE_SPI_FLASH) (h : SameButDebug s t)
    (fuel maxWait address n thingToWrite statusByte statusWord : Nat)
    (dataArray : Nat → Nat) (result : Option sfe_flash_read_write_result_e) :
    SameButDebug (enableDebugging s) (disableDebugging s) ∧
    (∀ a b : SFE_SPI_FLASH, SameButDebug a b →
      a.trace = b.trace ∧ a.flashFamily = b.flashFamily) ∧
    ((erase fuel s = none ∧ erase fuel t = none) ∨
      ∃ r a b, erase fuel s = some (r, a) ∧ erase fuel t = some (r, b) ∧ SameButDebug a b) ∧
    ((readByte address result s).1 = (readByte address result t).1 ∧
      (readByte address result s).2.1 = (readByte address result t).2.1 ∧
      SameButDebug (readByte address result s).2.2 (readByte address result t).2.2) ∧
    ((readBlock address dataArray n s).1 = (readBlock address dataArray n t).1 ∧
      (readBlock address dataArray n s).2.1 = (readBlock address dataArray n t).2.1 ∧
      SameButDebug (readBlock address dataArray n s).2.2
        (readBlock address dataArray n t).2.2) ∧
    SameOutcome (writeByte address thingToWrite s) (writeByte address thingToWrite t) ∧
    SameOutcome (writeBlock address dataArray n s) (writeBlock address dataArray n t) ∧
    (n < 65536 →
      SameOutcome (writeBlockAAI address dataArray n s)
        (writeBlockAAI address dataArray n t)) ∧
    SameOutcome (isBusy s) (isBusy t) ∧
    SameOutcome (blockingBusyWait maxWait s) (blockingBusyWait maxWait t) ∧
    SameOutcome (getStatus1 s) (getStatus1 t) ∧
    SameOutcome (getStatus16 s) (getStatus16 t) ∧
    SameOutcome (setWriteStatusReg1 statusByte s) (setWriteStatusReg1 statusByte t) ∧
    SameOutcome (setWriteStatusReg16 statusWord s) (setWriteStatusReg16 statusWord t) ∧
    SameOutcome (disableWrite s) (disableWrite t) ∧
    SameOutcome (getJEDEC s) (getJEDEC t) ∧
    SameOutcome (getManufacturerID s) (getManufacturerID t) ∧
    SameOutcome (getRawManufacturerID s) (getRawManufacturerID t) ∧
    SameOutcome (getDeviceID s) (getDeviceID t) ∧
    SameOutcome (isConnected s) (isConnected t) := by
  refine ⟨⟨rfl, rfl, rfl, rfl, rfl⟩, fun a b hab => ⟨hab.2.2.2.1, hab.1⟩,
    sameButDebug_erase fuel h, ?_, ?_,
    sameOutcome_of_comm _ (writeByte_dbg address thingToWrite) h,
    sameOutcome_of_comm _ (writeBlock_dbg address dataArray n) h,
    fun hn => sameOutcome_of_comm _ (writeBlockAAI_dbg address dataArray n hn) h,
    sameOutcome_of_comm _ isBusy_dbg h,
    sameOutcome_of_comm _ (fun b out u => blockingBusyWait_dbg b out maxWait u) h,
    sameOutcome_of_comm _ getStatus1_dbg h, sameOutcome_of_comm _ getStatus16_dbg h,
    sameOutcome_of_comm _ (setWriteStatusReg1_dbg statusByte) h,
    sameOutcome_of_comm _ (setWriteStatusReg16_dbg statusWord) h,
    sameOutcome_of_comm _ disableWrite_dbg h, sameOutcome_of_comm _ getJEDEC_dbg h,
    sameOutcome_getManufacturerID h, sameOutcome_getRawManufacturerID h,
    sameOutcome_getDeviceID h, sameOutcome_isConnected h⟩
  · obtain ⟨b, out, rfl⟩ := sameButDebug_eq h
    rw [readByte_dbg]
    exact ⟨rfl, rfl, sameButDebug_withDebug _ _ _⟩
  · obtain ⟨b, out, rfl⟩ := sameButDebug_eq h
    rw [readBlock_dbg]
    exact ⟨rfl, rfl, sameButDebug_withDebug _ _ _⟩

/-- C21, witness: on a bus that answers 0 to every transfer the manufacturer is not
known, so isConnected prints when debugging is enabled; with debugging enabled and with
debugging disabled it returns the same value and leaves the same trace and the same
family. -/
theorem debug_flag_noninterference_witness :
    (isConnected (enableDebugging (constBus SFE_FLASH_FAMILY_45XX 0))).1
      = (isConnected (disableDebugging (constBus SFE_FLASH_FAMILY_45XX 0))).1 ∧
    (isConnected (enableDebugging (constBus SFE_FLASH_FAMILY_45XX 0))).2.trace
      = (isConnected (disableDebugging (constBus SFE_FLASH_FAMILY_45XX 0))).2.trace ∧
    (isConnected (enableDebugging (constBus SFE_FLASH_FAMILY_45XX 0))).2.flashFamily
      = (isConnected (disableDebugging (constBus SFE_FLASH_FAMILY_45XX 0))).2.flashFamily :=
  have hc := (debug_flag_noninterference
    (enableDebugging (constBus SFE_FLASH_FAMILY_45XX 0))
    (disableDebugging (constBus SFE_FLASH_FAMILY_45XX 0)) ⟨rfl, rfl, rfl, rfl, rfl⟩
    0 0 0 0 0 0 0 (fun _ => 0) none).2.2.2.2.2.2.2.2.2.2.2.2.2.2.2.2.2.2.2
  ⟨hc.1, hc.2.2.2.2.1, hc.2.1⟩

end SFE_SPI_FLASH
